import Mathlib

/-!
# wgs84 coordinate systems (`system.go`)

A shallow embedding of `system.go`: the geographic/geocentric anchor transform
`lonLat` and the projection families built on top of it, followed by theorems
about them.

Modelling conventions

* `float64` is idealised as `ℝ`; every `math.*` call is the corresponding real
  function (`math.Sin` is `Real.sin`, `math.Atan` is `Real.arctan`, `math.Sqrt`
  is `Real.sqrt`, `math.Log` is `Real.log`, `math.Exp` is `Real.exp`,
  `math.Asin` is `Real.arcsin`, `math.Pi` is `Real.pi`, `math.E` is `Real.exp 1`).
* `math.Pow` is `math.Pow` below (real power) and `math.Atan2` is `math.Atan2`
  below: the argument of the complex number `x + y i`, range `(-π, π]`, which is Go's
  value when every zero is read as `+0.0`.
* A float64 zero has a sign and Go's `math.Atan2` looks at it: `math.Atan2.signed` takes
  the sign bits of `y` and `x`, `lonLat.fromXYZ.signed` is `lonLat.fromXYZ` with it, and
  `lonLat.toXYZ.yneg`, `lonLat.toXYZ.xneg` are the sign bits of what `lonLat.toXYZ`
  returns. They differ from the unsigned definitions only for `y = 0`, `x ≤ 0`.
* Division, square root, logarithm and power are Mathlib's total functions. Where
  Go divides by zero (giving `±Inf` or `NaN`) the real expression still has a
  value, but it is not the code's result: a theorem that gives the value of a
  computation excludes such inputs by hypothesis, or exhibits the zero divisor.
* The closures named `checked` redo the constants and the `fromXYZ` closures of the
  conic projections with Go's special values: `float64.div`, `float64.sqrt`,
  `float64.log`, `float64.pow` and `float64.tan` return `none` where Go returns `±Inf`
  or `NaN`, and a sum, a difference or a product with such an operand is `none` again.
* A Go function returning three values returns a triple `ℝ × ℝ × ℝ`.
* A Go closure nested in a constructor is a definition in that constructor's
  namespace taking the captured parameters first (`lonLat.N`,
  `transverseMercator.M`, ...).
-/

open Real

/-- Modelled from the spec: the ellipsoid value type `spheroid` is used by
`system.go` but declared elsewhere. Spec section 3 (EllipsoidModel): immutable,
fields A (semi-major axis) and F (flattening); every derived quantity is a pure
function of (A, F). The facade builds it from the two scalars of the ellipsoid
provider (`spheroid{s.A(), s.Fi()}`); the provider's pair is taken here in the
spec's form (A, F), so a provided ellipsoid and a `spheroid` are the same pair. -/
structure spheroid where
  a : ℝ
  f : ℝ

namespace spheroid

/-- Modelled from the spec: accessor for the semi-major axis A. -/
noncomputable def A (s : spheroid) : ℝ := s.a

/-- Modelled from the spec: accessor for the flattening F. -/
noncomputable def F (s : spheroid) : ℝ := s.f

/-- Modelled from the spec: the square of the semi-major axis (the `A²` of
`Z = (N·(A(1−F))²/A² + h) sin φ`). -/
noncomputable def A2 (s : spheroid) : ℝ := s.A * s.A

/-- Modelled from the spec: semi-minor axis `B = A(1−F)`. -/
noncomputable def B (s : spheroid) : ℝ := s.A * (1 - s.F)

/-- Modelled from the spec: first eccentricity squared `E² = 2F − F²`. -/
noncomputable def E2 (s : spheroid) : ℝ := 2 * s.F - s.F * s.F

/-- Modelled from the spec: first eccentricity `E`, the square root of `E²`. -/
noncomputable def E (s : spheroid) : ℝ := Real.sqrt s.E2

/-- Modelled from the spec: `E⁴ = (E²)²`. -/
noncomputable def E4 (s : spheroid) : ℝ := s.E2 * s.E2

/-- Modelled from the spec: `E⁶ = (E²)³`. -/
noncomputable def E6 (s : spheroid) : ℝ := s.E2 * s.E2 * s.E2

/-- Modelled from the spec: third flattening `Ei = F/(2−F)`. -/
noncomputable def Ei (s : spheroid) : ℝ := s.F / (2 - s.F)

/-- Modelled from the spec: second power of the third flattening. -/
noncomputable def Ei2 (s : spheroid) : ℝ := s.Ei * s.Ei

/-- Modelled from the spec: third power of the third flattening. -/
noncomputable def Ei3 (s : spheroid) : ℝ := s.Ei * s.Ei * s.Ei

/-- Modelled from the spec: fourth power of the third flattening. -/
noncomputable def Ei4 (s : spheroid) : ℝ := s.Ei * s.Ei * s.Ei * s.Ei

end spheroid

/-- Modelled from the spec: `Datum().Spheroid`, the process-wide default
ellipsoid, is declared outside `system.go`; the spec gives it WGS84-equivalent
constants (A = 6378137, F = 1/298.257223563). -/
noncomputable def Datum.Spheroid : spheroid := ⟨6378137, 1 / 298.257223563⟩

namespace math

/-- Go `math.Pow(x, y)`: the real power `x ^ y`. -/
noncomputable def Pow (x y : ℝ) : ℝ := x ^ y

/-- Go `math.Atan2(y, x)` with every zero read as `+0.0`: the angle of the point
`(x, y)`, in `(-π, π]`, and `0` at the origin. Go's value on a negative zero is in
`math.Atan2.signed`. -/
noncomputable def Atan2 (y x : ℝ) : ℝ := Complex.arg ⟨x, y⟩

end math

/-- `sin2` of `system.go`. -/
noncomputable def sin2 (east : ℝ) : ℝ := math.Pow (sin east) 2

/-- `cos2` of `system.go`. -/
noncomputable def cos2 (east : ℝ) : ℝ := math.Pow (cos east) 2

/-- `tan2` of `system.go`. -/
noncomputable def tan2 (east : ℝ) : ℝ := math.Pow (tan east) 2

/-- `degree` of `system.go`. -/
noncomputable def degree (r : ℝ) : ℝ := r * 180 / π

/-- `radian` of `system.go`. -/
noncomputable def radian (d : ℝ) : ℝ := d * π / 180

/-- The `system` struct: an optional forward and an optional inverse function
(`none` is Go's `nil`). -/
structure system where
  toXYZ : Option (ℝ → ℝ → ℝ → spheroid → ℝ × ℝ × ℝ)
  fromXYZ : Option (ℝ → ℝ → ℝ → spheroid → ℝ × ℝ × ℝ)

/-- The closure `N` of `lonLat`. -/
noncomputable def lonLat.N (φ : ℝ) (sph : spheroid) : ℝ :=
  sph.A / Real.sqrt (1 - sph.E2 * math.Pow (sin φ) 2)

/-- The `toXYZ` closure of `lonLat`. -/
noncomputable def lonLat.toXYZ (lon lat h : ℝ) (sph : spheroid) : ℝ × ℝ × ℝ :=
  let x := (lonLat.N (radian lat) sph + h) * cos (radian lon) * cos (radian lat)
  let y := (lonLat.N (radian lat) sph + h) * cos (radian lat) * sin (radian lon)
  let z := (lonLat.N (radian lat) sph * math.Pow (sph.A * (1 - sph.F)) 2 / sph.A2 + h) *
    sin (radian lat)
  (x, y, z)

/-- The `fromXYZ` closure of `lonLat`. -/
noncomputable def lonLat.fromXYZ (x y z : ℝ) (sph : spheroid) : ℝ × ℝ × ℝ :=
  let sd := Real.sqrt (x * x + y * y)
  let T := arctan (z * sph.A / (sd * sph.B))
  let B := arctan ((z + sph.E2 * sph.A2 / sph.B * math.Pow (sin T) 3) /
    (sd - sph.E2 * sph.A * math.Pow (cos T) 3))
  let h := sd / cos B - lonLat.N B sph
  (degree (math.Atan2 y x), degree B, h)

/-- Go `math.Atan2(y, x)` with the signs of float64 zeros. A real number has one zero, a
float64 has `+0.0` and `-0.0`: `yneg` (`xneg`) says that a zero `y` (`x`) is `-0.0`, and is
not looked at when `y` (`x`) is not zero. Go returns `π` for `y = +0.0` and `-π` for
`y = -0.0` when `x < 0` or `x = -0.0`; at every other point the sign of a zero does not
change the angle, which is `math.Atan2 y x` (there every zero is read as `+0.0`). The range
is `[-π, π]`. -/
noncomputable def math.Atan2.signed (yneg xneg : Bool) (y x : ℝ) : ℝ :=
  if y = 0 ∧ (x < 0 ∨ (x = 0 ∧ xneg = true)) then (if yneg = true then -π else π)
  else math.Atan2 y x

/-- The sign bit of the `y` computed by the `toXYZ` closure of `lonLat`, the product
`(N + h) * cos(radian(lat)) * sin(radian(lon))`: the sign bit of a float64 product is the
exclusive or of the sign bits of its factors, also when the product is zero. A sum or a
cosine that is zero is read as `+0.0`; a sine that is zero has the sign of its argument
(`math.Sin(-x) = -math.Sin(x)`), here the sign of `lon`. -/
noncomputable def lonLat.toXYZ.yneg (lon lat h : ℝ) (sph : spheroid) : Bool :=
  Bool.xor (Bool.xor (decide (lonLat.N (radian lat) sph + h < 0)) (decide (cos (radian lat) < 0)))
    (decide (sin (radian lon) < 0 ∨ (sin (radian lon) = 0 ∧ lon < 0)))

/-- The sign bit of the `x` computed by the `toXYZ` closure of `lonLat`, the product
`(N + h) * cos(radian(lon)) * cos(radian(lat))`. -/
noncomputable def lonLat.toXYZ.xneg (lon lat h : ℝ) (sph : spheroid) : Bool :=
  Bool.xor (Bool.xor (decide (lonLat.N (radian lat) sph + h < 0)) (decide (cos (radian lon) < 0)))
    (decide (cos (radian lat) < 0))

/-- The `fromXYZ` closure of `lonLat` for an input whose zeros `y`, `x` carry the sign bits
`yneg`, `xneg`: the same lines, with Go's `math.Atan2` on signed zeros. Latitude and height
do not depend on the sign of a zero. -/
noncomputable def lonLat.fromXYZ.signed (yneg xneg : Bool) (x y z : ℝ) (sph : spheroid) :
    ℝ × ℝ × ℝ :=
  let sd := Real.sqrt (x * x + y * y)
  let T := arctan (z * sph.A / (sd * sph.B))
  let B := arctan ((z + sph.E2 * sph.A2 / sph.B * math.Pow (sin T) 3) /
    (sd - sph.E2 * sph.A * math.Pow (cos T) 3))
  let h := sd / cos B - lonLat.N B sph
  (degree (math.Atan2.signed yneg xneg y x), degree B, h)

/-- `lonLat()` of `system.go`. -/
noncomputable def lonLat : system :=
  ⟨some lonLat.toXYZ, some lonLat.fromXYZ⟩

/-- `system.ToXYZ`: the ellipsoid `s` may be absent (`none`), a missing `toXYZ`
falls back to the geographic system. The fallback call `lonLat().ToXYZ(a, b, c, s)`
is written out: there `s` is present and `lonLat()` has its `toXYZ`. -/
noncomputable def system.ToXYZ (sys : system) (a b c : ℝ) (s : Option spheroid) : ℝ × ℝ × ℝ :=
  let s := match s with
    | none => Datum.Spheroid
    | some s => s
  match sys.toXYZ with
  | none => lonLat.toXYZ a b c ⟨s.A, s.F⟩
  | some f => f a b c ⟨s.A, s.F⟩

/-- `system.FromXYZ`: the ellipsoid `s` may be absent (`none`), a missing
`fromXYZ` falls back to the geographic system. The fallback call
`lonLat().FromXYZ(x, y, z, s)` is written out as in `system.ToXYZ`. -/
noncomputable def system.FromXYZ (sys : system) (x y z : ℝ) (s : Option spheroid) : ℝ × ℝ × ℝ :=
  let s := match s with
    | none => Datum.Spheroid
    | some s => s
  match sys.fromXYZ with
  | none => lonLat.fromXYZ x y z ⟨s.A, s.F⟩
  | some f => f x y z ⟨s.A, s.F⟩

/-- The closure `M` of `transverseMercator` (meridian arc length). -/
noncomputable def transverseMercator.M (φ : ℝ) (sph : spheroid) : ℝ :=
  sph.A * ((1 - sph.E2 / 4 - 3 * sph.E4 / 64 - 5 * sph.E6 / 256) * φ -
    (3 * sph.E2 / 8 + 3 * sph.E4 / 32 + 45 * sph.E6 / 1024) * sin (2 * φ) +
    (15 * sph.E4 / 256 + 45 * sph.E6 / 1024) * sin (4 * φ) -
    (35 * sph.E6 / 3072) * sin (6 * φ))

/-- The closure `N` of `transverseMercator`. -/
noncomputable def transverseMercator.N (φ : ℝ) (sph : spheroid) : ℝ :=
  sph.A / Real.sqrt (1 - sph.E2 * sin2 φ)

/-- The closure `T` of `transverseMercator` (it is `tan2`). -/
noncomputable def transverseMercator.T (φ : ℝ) : ℝ := tan2 φ

/-- The closure `C` of `transverseMercator`. -/
noncomputable def transverseMercator.C (φ : ℝ) (sph : spheroid) : ℝ :=
  sph.Ei2 * cos2 φ

/-- The local `R1` of the `toXYZ` closure of `transverseMercator`, as a function of
the footpoint latitude `φ1`. Its exponent is the Go constant expression `3/2`, a
quotient of two integer constants, kept here as a quotient of natural numbers. -/
noncomputable def transverseMercator.toXYZ.R1 (φ1 : ℝ) (sph : spheroid) : ℝ :=
  sph.A * (1 - sph.E2) / math.Pow (1 - sph.E2 * sin2 φ1) ((3 / 2 : ℕ) : ℝ)

/-- The `toXYZ` closure of `transverseMercator`. -/
noncomputable def transverseMercator.toXYZ (lonf latf scale eastf northf : ℝ)
    (east north h : ℝ) (sph : spheroid) : ℝ × ℝ × ℝ :=
  let east := east - eastf
  let north := north - northf
  let Mi := transverseMercator.M (radian latf) sph + north / scale
  let μ := Mi / (sph.A * (1 - sph.E2 / 4 - 3 * sph.E4 / 64 - 5 * sph.E6 / 256))
  let φ1 := μ + (3 * sph.Ei / 2 - 27 * sph.Ei3 / 32) * sin (2 * μ) +
    (21 * sph.Ei2 / 16 - 55 * sph.Ei4 / 32) * sin (4 * μ) +
    (151 * sph.Ei3 / 96) * sin (6 * μ) +
    (1097 * sph.Ei4 / 512) * sin (8 * μ)
  let R1 := transverseMercator.toXYZ.R1 φ1 sph
  let D := east / (transverseMercator.N φ1 sph * scale)
  let T := transverseMercator.T
  let C := transverseMercator.C
  let φ := φ1 - (transverseMercator.N φ1 sph * tan φ1 / R1) *
    (D * D / 2 - (5 + 3 * T φ1 + 10 * C φ1 sph - 4 * C φ1 sph * C φ1 sph - 9 * sph.Ei2) *
      math.Pow D 4 / 24 +
      (61 + 90 * T φ1 + 298 * C φ1 sph + 45 * T φ1 * T φ1 - 252 * sph.Ei2 -
        3 * C φ1 sph * C φ1 sph) * math.Pow D 6 / 720)
  let lam := radian lonf + (D - (1 + 2 * T φ1 + C φ1 sph) * D * D * D / 6 +
    (5 - 2 * C φ1 sph + 28 * T φ1 - 3 * C φ1 sph * C φ1 sph + 8 * sph.Ei2 +
      24 * T φ1 * T φ1) * math.Pow D 5 / 120) / cos φ1
  lonLat.ToXYZ (degree lam) (degree φ) h (some sph)

/-- The `fromXYZ` closure of `transverseMercator`. -/
noncomputable def transverseMercator.fromXYZ (lonf latf scale eastf northf : ℝ)
    (x y z : ℝ) (sph : spheroid) : ℝ × ℝ × ℝ :=
  let (lon, lat, h) := lonLat.FromXYZ x y z (some sph)
  let T := transverseMercator.T
  let C := transverseMercator.C
  let N := transverseMercator.N
  let M := transverseMercator.M
  let φ := radian lat
  let A := (radian lon - radian lonf) * cos φ
  let east := scale * N φ sph * (A + (1 - T φ + C φ sph) *
    math.Pow A 3 / 6 + (5 - 18 * T φ + T φ * T φ + 72 * C φ sph - 58 * sph.Ei2) *
    math.Pow A 5 / 120) + eastf
  let north := scale * (M φ sph - M (radian latf) sph + N φ sph * tan φ *
    (A * A / 2 + (5 - T φ + 9 * C φ sph + 4 * C φ sph * C φ sph) *
      math.Pow A 4 / 24 + (61 - 58 * T φ + T φ * T φ + 600 * C φ sph - 330 * sph.Ei2) *
      math.Pow A 6 / 720)) + northf
  (east, north, h)

/-- `transverseMercator` of `system.go`. -/
noncomputable def transverseMercator (lonf latf scale eastf northf : ℝ) : system :=
  ⟨some (transverseMercator.toXYZ lonf latf scale eastf northf),
   some (transverseMercator.fromXYZ lonf latf scale eastf northf)⟩

/-- `utm` of `system.go`. -/
noncomputable def utm (zone : ℝ) (northern : Bool) : system :=
  if northern then
    transverseMercator (zone * 6 - 183) 0 0.9996 500000 0
  else
    transverseMercator (zone * 6 - 183) 0 0.9996 500000 10000000

/-- `gk` of `system.go`. -/
noncomputable def gk (zone : ℝ) : system :=
  transverseMercator (zone * 3) 0 1 (zone * 1000000 + 500000) 0

/-- The `toXYZ` closure of `mercator`; the loop runs its body five times. -/
noncomputable def mercator.toXYZ (lonf scale eastf northf : ℝ)
    (east north h : ℝ) (sph : spheroid) : ℝ × ℝ × ℝ :=
  let east := (east - eastf) / scale
  let north := (north - northf) / scale
  let t := Real.exp (-north * sph.A)
  let φ := π / 2 - 2 * arctan t
  let φ := (fun φ => π / 2 - 2 * arctan (t *
    math.Pow ((1 - sph.E * sin φ) / (1 + sph.E * sin φ)) (sph.E / 2)))^[5] φ
  lonLat.ToXYZ (east / sph.A + lonf) (degree φ) h (some sph)

/-- The `fromXYZ` closure of `mercator`. -/
noncomputable def mercator.fromXYZ (lonf scale eastf northf : ℝ)
    (x y z : ℝ) (sph : spheroid) : ℝ × ℝ × ℝ :=
  let (lon, lat, h) := lonLat.FromXYZ x y z (some sph)
  let east := scale * sph.A * (radian lon - radian lonf)
  let north := scale * sph.A / 2 *
    Real.log (1 + sin (radian lat) / (1 - sin (radian lat)) *
      math.Pow ((1 - sph.E * sin (radian lat)) / (1 + sph.E * sin (radian lat))) (Real.exp 1))
  (east, north, h)

/-- `mercator` of `system.go`. -/
noncomputable def mercator (lonf scale eastf northf : ℝ) : system :=
  ⟨some (mercator.toXYZ lonf scale eastf northf),
   some (mercator.fromXYZ lonf scale eastf northf)⟩

/-- The `toXYZ` closure of `webMercator`. -/
noncomputable def webMercator.toXYZ (east north h : ℝ) (sph : spheroid) : ℝ × ℝ × ℝ :=
  let lon := degree (east / sph.A)
  let lat := arctan (Real.exp (north / sph.A)) * degree 1 * 2 - 90
  lonLat.ToXYZ lon lat h (some sph)

/-- The `fromXYZ` closure of `webMercator`. -/
noncomputable def webMercator.fromXYZ (x y z : ℝ) (sph : spheroid) : ℝ × ℝ × ℝ :=
  let (lon, lat, h) := lonLat.FromXYZ x y z (some sph)
  let east := radian lon * sph.A
  let north := Real.log (tan (radian ((90 + lat) / 2))) * sph.A
  (east, north, h)

/-- `webMercator` of `system.go`. -/
noncomputable def webMercator : system :=
  ⟨some webMercator.toXYZ, some webMercator.fromXYZ⟩

/-- The closure `t` of `lambertConformalConic1SP`. -/
noncomputable def lambertConformalConic1SP.t (φ : ℝ) (sph : spheroid) : ℝ :=
  tan (π / 4 - φ / 2) /
    math.Pow ((1 - sph.E * sin φ) / (1 + sph.E * sin φ)) (sph.E / 2)

/-- The closure `m` of `lambertConformalConic1SP`. -/
noncomputable def lambertConformalConic1SP.m (φ : ℝ) (sph : spheroid) : ℝ :=
  cos φ / Real.sqrt (1 - sph.E2 * sin2 φ)

/-- The value `n` of `lambertConformalConic1SP`. -/
noncomputable def lambertConformalConic1SP.n (latf : ℝ) : ℝ :=
  sin (radian latf)

/-- The closure `F` of `lambertConformalConic1SP`. For `n = 0` the divisor is zero and
Go's value is `±Inf` or `NaN`, not the value of this real expression: see
`lambertConformalConic1SP.F.checked`. -/
noncomputable def lambertConformalConic1SP.F (latf : ℝ) (sph : spheroid) : ℝ :=
  lambertConformalConic1SP.m (radian latf) sph /
    (lambertConformalConic1SP.n latf *
      math.Pow (lambertConformalConic1SP.t (radian latf) sph) (lambertConformalConic1SP.n latf))

/-- The closure `ρ` of `lambertConformalConic1SP`. -/
noncomputable def lambertConformalConic1SP.ρ (latf scale : ℝ) (φ : ℝ) (sph : spheroid) : ℝ :=
  sph.A * lambertConformalConic1SP.F latf sph *
    math.Pow (lambertConformalConic1SP.t φ sph * scale) (lambertConformalConic1SP.n latf)

/-- The `toXYZ` closure of `lambertConformalConic1SP`; the loop runs its body
five times. -/
noncomputable def lambertConformalConic1SP.toXYZ (lonf latf scale eastf northf : ℝ)
    (east north h : ℝ) (sph : spheroid) : ℝ × ℝ × ℝ :=
  let n := lambertConformalConic1SP.n latf
  let F := lambertConformalConic1SP.F latf
  let ρ := lambertConformalConic1SP.ρ latf scale
  let ρi := Real.sqrt (math.Pow (east - eastf) 2 +
    math.Pow (ρ (radian latf) sph - (north - northf)) 2)
  let ρi := if n < 0 then -ρi else ρi
  let ti := math.Pow (ρi / (sph.A * scale * F sph)) (1 / n)
  let φ := π / 2 - 2 * arctan ti
  let φ := (fun φ => π / 2 - 2 * arctan (ti *
    math.Pow ((1 - sph.E * sin φ) / (1 + sph.E * sin φ)) (sph.E / 2)))^[5] φ
  let lam := arctan ((east - eastf) / (ρ (radian latf) sph - (north - northf))) / n +
    radian lonf
  lonLat.ToXYZ (degree lam) (degree φ) h (some sph)

/-- The `fromXYZ` closure of `lambertConformalConic1SP`. -/
noncomputable def lambertConformalConic1SP.fromXYZ (lonf latf scale eastf northf : ℝ)
    (x y z : ℝ) (sph : spheroid) : ℝ × ℝ × ℝ :=
  let n := lambertConformalConic1SP.n latf
  let ρ := lambertConformalConic1SP.ρ latf scale
  let (lon, lat, h) := lonLat.FromXYZ x y z (some sph)
  let θ := n * (radian lon - radian lonf)
  let east := eastf + ρ (radian lat) sph * sin θ
  let north := northf + ρ (radian latf) sph - ρ (radian lat) sph * cos θ
  (east, north, h)

/-- `lambertConformalConic1SP` of `system.go`. -/
noncomputable def lambertConformalConic1SP (lonf latf scale eastf northf : ℝ) : system :=
  ⟨some (lambertConformalConic1SP.toXYZ lonf latf scale eastf northf),
   some (lambertConformalConic1SP.fromXYZ lonf latf scale eastf northf)⟩

/-- The closure `t` of `lambertConformalConic2SP`. -/
noncomputable def lambertConformalConic2SP.t (φ : ℝ) (sph : spheroid) : ℝ :=
  tan (π / 4 - φ / 2) /
    math.Pow ((1 - sph.E * sin φ) / (1 + sph.E * sin φ)) (sph.E / 2)

/-- The closure `m` of `lambertConformalConic2SP`. -/
noncomputable def lambertConformalConic2SP.m (φ : ℝ) (sph : spheroid) : ℝ :=
  cos φ / Real.sqrt (1 - sph.E2 * sin2 φ)

/-- The closure `n` of `lambertConformalConic2SP`. -/
noncomputable def lambertConformalConic2SP.n (lat1 lat2 : ℝ) (sph : spheroid) : ℝ :=
  if radian lat1 = radian lat2 then
    sin (radian lat1)
  else
    (Real.log (lambertConformalConic2SP.m (radian lat1) sph) -
        Real.log (lambertConformalConic2SP.m (radian lat2) sph)) /
      (Real.log (lambertConformalConic2SP.t (radian lat1) sph) -
        Real.log (lambertConformalConic2SP.t (radian lat2) sph))

/-- The closure `F` of `lambertConformalConic2SP`. -/
noncomputable def lambertConformalConic2SP.F (lat1 lat2 : ℝ) (sph : spheroid) : ℝ :=
  lambertConformalConic2SP.m (radian lat1) sph /
    (lambertConformalConic2SP.n lat1 lat2 sph *
      math.Pow (lambertConformalConic2SP.t (radian lat1) sph)
        (lambertConformalConic2SP.n lat1 lat2 sph))

/-- The closure `ρ` of `lambertConformalConic2SP`. -/
noncomputable def lambertConformalConic2SP.ρ (lat1 lat2 : ℝ) (φ : ℝ) (sph : spheroid) : ℝ :=
  sph.A * lambertConformalConic2SP.F lat1 lat2 sph *
    math.Pow (lambertConformalConic2SP.t φ sph) (lambertConformalConic2SP.n lat1 lat2 sph)

/-- The `toXYZ` closure of `lambertConformalConic2SP`; the loop runs its body
five times. -/
noncomputable def lambertConformalConic2SP.toXYZ (lonf latf lat1 lat2 eastf northf : ℝ)
    (east north h : ℝ) (sph : spheroid) : ℝ × ℝ × ℝ :=
  let n := lambertConformalConic2SP.n lat1 lat2
  let F := lambertConformalConic2SP.F lat1 lat2
  let ρ := lambertConformalConic2SP.ρ lat1 lat2
  let ρi := Real.sqrt (math.Pow (east - eastf) 2 +
    math.Pow (ρ (radian latf) sph - (north - northf)) 2)
  let ρi := if n sph < 0 then -ρi else ρi
  let ti := math.Pow (ρi / (sph.A * F sph)) (1 / n sph)
  let φ := π / 2 - 2 * arctan ti
  let φ := (fun φ => π / 2 - 2 * arctan (ti *
    math.Pow ((1 - sph.E * sin φ) / (1 + sph.E * sin φ)) (sph.E / 2)))^[5] φ
  let lam := arctan ((east - eastf) / (ρ (radian latf) sph - (north - northf))) / n sph +
    radian lonf
  lonLat.ToXYZ (degree lam) (degree φ) h (some sph)

/-- The `fromXYZ` closure of `lambertConformalConic2SP`. -/
noncomputable def lambertConformalConic2SP.fromXYZ (lonf latf lat1 lat2 eastf northf : ℝ)
    (x y z : ℝ) (sph : spheroid) : ℝ × ℝ × ℝ :=
  let n := lambertConformalConic2SP.n lat1 lat2
  let ρ := lambertConformalConic2SP.ρ lat1 lat2
  let (lon, lat, h) := lonLat.FromXYZ x y z (some sph)
  let θ := n sph * (radian lon - radian lonf)
  let east := eastf + ρ (radian lat) sph * sin θ
  let north := northf + ρ (radian latf) sph - ρ (radian lat) sph * cos θ
  (east, north, h)

/-- `lambertConformalConic2SP` of `system.go`. -/
noncomputable def lambertConformalConic2SP (lonf latf lat1 lat2 eastf northf : ℝ) : system :=
  ⟨some (lambertConformalConic2SP.toXYZ lonf latf lat1 lat2 eastf northf),
   some (lambertConformalConic2SP.fromXYZ lonf latf lat1 lat2 eastf northf)⟩

/-- The closure `m` of `albersEqualAreaConic`. -/
noncomputable def albersEqualAreaConic.m (φ : ℝ) (sph : spheroid) : ℝ :=
  cos φ / Real.sqrt (1 - sph.E2 * sin2 φ)

/-- The closure `q` of `albersEqualAreaConic`. -/
noncomputable def albersEqualAreaConic.q (φ : ℝ) (sph : spheroid) : ℝ :=
  (1 - sph.E2) * (sin φ / (1 - sph.E2 * sin2 φ) -
    (1 / (2 * sph.E)) * Real.log ((1 - sph.E * sin φ) / (1 + sph.E * sin φ)))

/-- The closure `n` of `albersEqualAreaConic`. -/
noncomputable def albersEqualAreaConic.n (lat1 lat2 : ℝ) (sph : spheroid) : ℝ :=
  if radian lat1 = radian lat2 then
    sin (radian lat1)
  else
    (albersEqualAreaConic.m (radian lat1) sph * albersEqualAreaConic.m (radian lat1) sph -
        albersEqualAreaConic.m (radian lat2) sph * albersEqualAreaConic.m (radian lat2) sph) /
      (albersEqualAreaConic.q (radian lat2) sph - albersEqualAreaConic.q (radian lat1) sph)

/-- The closure `C` of `albersEqualAreaConic`. -/
noncomputable def albersEqualAreaConic.C (lat1 lat2 : ℝ) (sph : spheroid) : ℝ :=
  albersEqualAreaConic.m (radian lat1) sph * albersEqualAreaConic.m (radian lat1) sph +
    albersEqualAreaConic.n lat1 lat2 sph * albersEqualAreaConic.q (radian lat1) sph

/-- The closure `ρ` of `albersEqualAreaConic`. -/
noncomputable def albersEqualAreaConic.ρ (lat1 lat2 : ℝ) (φ : ℝ) (sph : spheroid) : ℝ :=
  sph.A * Real.sqrt (albersEqualAreaConic.C lat1 lat2 sph -
    albersEqualAreaConic.n lat1 lat2 sph * albersEqualAreaConic.q φ sph) /
    albersEqualAreaConic.n lat1 lat2 sph

/-- The `toXYZ` closure of `albersEqualAreaConic`; the loop runs its body five
times. -/
noncomputable def albersEqualAreaConic.toXYZ (lonf latf lat1 lat2 eastf northf : ℝ)
    (east north h : ℝ) (sph : spheroid) : ℝ × ℝ × ℝ :=
  let n := albersEqualAreaConic.n lat1 lat2
  let C := albersEqualAreaConic.C lat1 lat2
  let ρ := albersEqualAreaConic.ρ lat1 lat2
  let east := east - eastf
  let north := north - northf
  let ρi := Real.sqrt (east * east + math.Pow (ρ (radian latf) sph - north) 2)
  let qi := (C sph - ρi * ρi * n sph * n sph / sph.A2) / n sph
  let φ := Real.arcsin (qi / 2)
  let φ := (fun φ => φ + math.Pow (1 - sph.E2 * sin2 φ) 2 /
    (2 * cos φ) * (qi / (1 - sph.E2) -
    sin φ / (1 - sph.E2 * sin2 φ) +
    1 / (2 * sph.E) * Real.log ((1 - sph.E * sin φ) / (1 + sph.E * sin φ))))^[5] φ
  let θ := arctan (east / (ρ (radian latf) sph - north))
  lonLat.ToXYZ (degree (radian lonf + θ / n sph)) (degree φ) h (some sph)

/-- The `fromXYZ` closure of `albersEqualAreaConic`. -/
noncomputable def albersEqualAreaConic.fromXYZ (lonf latf lat1 lat2 eastf northf : ℝ)
    (x y z : ℝ) (sph : spheroid) : ℝ × ℝ × ℝ :=
  let n := albersEqualAreaConic.n lat1 lat2
  let ρ := albersEqualAreaConic.ρ lat1 lat2
  let (lon, lat, h) := lonLat.FromXYZ x y z (some sph)
  let θ := n sph * (radian lon - radian lonf)
  let east := eastf + ρ (radian lat) sph * sin θ
  let north := northf + ρ (radian latf) sph - ρ (radian lat) sph * cos θ
  (east, north, h)

/-- `albersEqualAreaConic` of `system.go`. -/
noncomputable def albersEqualAreaConic (lonf latf lat1 lat2 eastf northf : ℝ) : system :=
  ⟨some (albersEqualAreaConic.toXYZ lonf latf lat1 lat2 eastf northf),
   some (albersEqualAreaConic.fromXYZ lonf latf lat1 lat2 eastf northf)⟩

/-- The closure `M` of `equidistantConic` (meridian arc length). -/
noncomputable def equidistantConic.M (φ : ℝ) (sph : spheroid) : ℝ :=
  sph.A * ((1 - sph.E2 / 4 - 3 * sph.E4 / 64 - 5 * sph.E6 / 256) * φ -
    (3 * sph.E2 / 8 + 3 * sph.E4 / 32 + 45 * sph.E6 / 1024) * sin (2 * φ) +
    (15 * sph.E4 / 256 + 45 * sph.E6 / 1024) * sin (4 * φ) -
    (35 * sph.E6 / 3072) * sin (6 * φ))

/-- The closure `m` of `equidistantConic`. -/
noncomputable def equidistantConic.m (φ : ℝ) (sph : spheroid) : ℝ :=
  cos φ / Real.sqrt (1 - sph.E2 * sin2 φ)

/-- The closure `n` of `equidistantConic`. -/
noncomputable def equidistantConic.n (lat1 lat2 : ℝ) (sph : spheroid) : ℝ :=
  if radian lat1 = radian lat2 then
    sin (radian lat1)
  else
    sph.A * (equidistantConic.m (radian lat1) sph - equidistantConic.m (radian lat2) sph) /
      (equidistantConic.M (radian lat2) sph - equidistantConic.M (radian lat1) sph)

/-- The closure `G` of `equidistantConic`. -/
noncomputable def equidistantConic.G (lat1 lat2 : ℝ) (sph : spheroid) : ℝ :=
  equidistantConic.m (radian lat1) sph / equidistantConic.n lat1 lat2 sph +
    equidistantConic.M (radian lat1) sph / sph.A

/-- The closure `ρ` of `equidistantConic`. -/
noncomputable def equidistantConic.ρ (lat1 lat2 : ℝ) (φ : ℝ) (sph : spheroid) : ℝ :=
  sph.A * equidistantConic.G lat1 lat2 sph - equidistantConic.M φ sph

/-- The `toXYZ` closure of `equidistantConic`. -/
noncomputable def equidistantConic.toXYZ (lonf latf lat1 lat2 eastf northf : ℝ)
    (east north h : ℝ) (sph : spheroid) : ℝ × ℝ × ℝ :=
  let n := equidistantConic.n lat1 lat2
  let G := equidistantConic.G lat1 lat2
  let ρ := equidistantConic.ρ lat1 lat2
  let east := east - eastf
  let north := north - northf
  let ρi := Real.sqrt (east * east + math.Pow (ρ (radian latf) sph - north) 2)
  let ρi := if n sph < 0 then -ρi else ρi
  let Mi := sph.A * G sph - ρi
  let μ := Mi / (sph.A * (1 - sph.E2 / 4 - 3 * sph.E4 / 64 - 5 * sph.E6 / 256))
  let φ := μ + (3 * sph.Ei / 2 - 27 * sph.Ei3 / 32) * sin (2 * μ) +
    (21 * sph.Ei2 / 16 - 55 * sph.Ei4 / 32) * sin (4 * μ) +
    (151 * sph.Ei3 / 96) * sin (6 * μ) +
    (1097 * sph.Ei4 / 512) * sin (8 * μ)
  let θ := arctan (east / (ρ (radian latf) sph - north))
  lonLat.ToXYZ (degree (radian lonf + θ / n sph)) (degree φ) h (some sph)

/-- The `fromXYZ` closure of `equidistantConic`. -/
noncomputable def equidistantConic.fromXYZ (lonf latf lat1 lat2 eastf northf : ℝ)
    (x y z : ℝ) (sph : spheroid) : ℝ × ℝ × ℝ :=
  let n := equidistantConic.n lat1 lat2
  let ρ := equidistantConic.ρ lat1 lat2
  let (lon, lat, h) := lonLat.FromXYZ x y z (some sph)
  let θ := n sph * (radian lon - radian lonf)
  let east := eastf + ρ (radian lat) sph * sin θ
  let north := northf + ρ (radian latf) sph - ρ (radian lat) sph * cos θ
  (east, north, h)

/-- `equidistantConic` of `system.go`. -/
noncomputable def equidistantConic (lonf latf lat1 lat2 eastf northf : ℝ) : system :=
  ⟨some (equidistantConic.toXYZ lonf latf lat1 lat2 eastf northf),
   some (equidistantConic.fromXYZ lonf latf lat1 lat2 eastf northf)⟩

/-- Go's float64 quotient `x / y` of two real numbers: with a zero divisor it is `±Inf` or
`NaN`, not a real number (`none`). -/
noncomputable def float64.div (x y : ℝ) : Option ℝ :=
  if y = 0 then none else some (x / y)

/-- Go `math.Sqrt` of a real number: `NaN` (`none`) below zero. -/
noncomputable def float64.sqrt (x : ℝ) : Option ℝ :=
  if x < 0 then none else some (Real.sqrt x)

/-- Go `math.Log` of a real number: `-Inf` at zero and `NaN` below zero (`none`). -/
noncomputable def float64.log (x : ℝ) : Option ℝ :=
  if x ≤ 0 then none else some (Real.log x)

/-- Go `math.Pow(x, y)` of two real numbers: `NaN` (`none`) for a negative base with an
exponent that is not an integer, `+Inf` (`none`) for base zero with a negative exponent,
the real power otherwise. -/
noncomputable def float64.pow (x y : ℝ) : Option ℝ :=
  if x < 0 ∧ (⌊y⌋ : ℝ) ≠ y then none
  else if x = 0 ∧ y < 0 then none
  else some (x ^ y)

/-- Go `math.Tan` read on the real line: no real value (`none`) at the poles of the tangent,
where the cosine is zero. -/
noncomputable def float64.tan (x : ℝ) : Option ℝ :=
  if Real.cos x = 0 then none else some (Real.tan x)

/-- The closure `t` of `lambertConformalConic1SP` with Go's special values: the same
operations, each returning `none` where Go returns `±Inf` or `NaN`; a later operation on
`none` is `none`. -/
noncomputable def lambertConformalConic1SP.t.checked (φ : ℝ) (sph : spheroid) : Option ℝ :=
  (float64.tan (π / 4 - φ / 2)).bind fun tn =>
  (float64.div (1 - sph.E * sin φ) (1 + sph.E * sin φ)).bind fun r =>
  (float64.pow r (sph.E / 2)).bind fun p =>
  float64.div tn p

/-- The closure `m` of `lambertConformalConic1SP` with Go's special values. -/
noncomputable def lambertConformalConic1SP.m.checked (φ : ℝ) (sph : spheroid) : Option ℝ :=
  (float64.sqrt (1 - sph.E2 * sin2 φ)).bind fun w =>
  float64.div (cos φ) w

/-- The closure `F` of `lambertConformalConic1SP` with Go's special values. -/
noncomputable def lambertConformalConic1SP.F.checked (latf : ℝ) (sph : spheroid) : Option ℝ :=
  (lambertConformalConic1SP.m.checked (radian latf) sph).bind fun m =>
  (lambertConformalConic1SP.t.checked (radian latf) sph).bind fun t =>
  (float64.pow t (lambertConformalConic1SP.n latf)).bind fun p =>
  float64.div m (lambertConformalConic1SP.n latf * p)

/-- The closure `ρ` of `lambertConformalConic1SP` with Go's special values. -/
noncomputable def lambertConformalConic1SP.ρ.checked (latf scale : ℝ) (φ : ℝ) (sph : spheroid) :
    Option ℝ :=
  (lambertConformalConic1SP.F.checked latf sph).bind fun F =>
  (lambertConformalConic1SP.t.checked φ sph).bind fun t =>
  (float64.pow (t * scale) (lambertConformalConic1SP.n latf)).bind fun p =>
  some (sph.A * F * p)

/-- The `fromXYZ` closure of `lambertConformalConic1SP` with Go's special values in the
closures `ρ`, `F`, `t`, `m`; longitude, latitude and height come from `lonLat.FromXYZ`. -/
noncomputable def lambertConformalConic1SP.fromXYZ.checked (lonf latf scale eastf northf : ℝ)
    (x y z : ℝ) (sph : spheroid) : Option (ℝ × ℝ × ℝ) :=
  (lambertConformalConic1SP.ρ.checked latf scale
    (radian (lonLat.FromXYZ x y z (some sph)).2.1) sph).bind fun ρ =>
  (lambertConformalConic1SP.ρ.checked latf scale (radian latf) sph).bind fun ρ0 =>
  some (eastf + ρ * sin (lambertConformalConic1SP.n latf *
      (radian (lonLat.FromXYZ x y z (some sph)).1 - radian lonf)),
    northf + ρ0 - ρ * cos (lambertConformalConic1SP.n latf *
      (radian (lonLat.FromXYZ x y z (some sph)).1 - radian lonf)),
    (lonLat.FromXYZ x y z (some sph)).2.2)

/-- The closure `t` of `lambertConformalConic2SP` with Go's special values. -/
noncomputable def lambertConformalConic2SP.t.checked (φ : ℝ) (sph : spheroid) : Option ℝ :=
  (float64.tan (π / 4 - φ / 2)).bind fun tn =>
  (float64.div (1 - sph.E * sin φ) (1 + sph.E * sin φ)).bind fun r =>
  (float64.pow r (sph.E / 2)).bind fun p =>
  float64.div tn p

/-- The closure `m` of `lambertConformalConic2SP` with Go's special values. -/
noncomputable def lambertConformalConic2SP.m.checked (φ : ℝ) (sph : spheroid) : Option ℝ :=
  (float64.sqrt (1 - sph.E2 * sin2 φ)).bind fun w =>
  float64.div (cos φ) w

/-- The closure `n` of `lambertConformalConic2SP` with Go's special values. -/
noncomputable def lambertConformalConic2SP.n.checked (lat1 lat2 : ℝ) (sph : spheroid) :
    Option ℝ :=
  if radian lat1 = radian lat2 then
    some (sin (radian lat1))
  else
    (lambertConformalConic2SP.m.checked (radian lat1) sph).bind fun m1 =>
    (float64.log m1).bind fun lm1 =>
    (lambertConformalConic2SP.m.checked (radian lat2) sph).bind fun m2 =>
    (float64.log m2).bind fun lm2 =>
    (lambertConformalConic2SP.t.checked (radian lat1) sph).bind fun t1 =>
    (float64.log t1).bind fun lt1 =>
    (lambertConformalConic2SP.t.checked (radian lat2) sph).bind fun t2 =>
    (float64.log t2).bind fun lt2 =>
    float64.div (lm1 - lm2) (lt1 - lt2)

/-- The closure `F` of `lambertConformalConic2SP` with Go's special values. -/
noncomputable def lambertConformalConic2SP.F.checked (lat1 lat2 : ℝ) (sph : spheroid) :
    Option ℝ :=
  (lambertConformalConic2SP.m.checked (radian lat1) sph).bind fun m =>
  (lambertConformalConic2SP.n.checked lat1 lat2 sph).bind fun n =>
  (lambertConformalConic2SP.t.checked (radian lat1) sph).bind fun t =>
  (float64.pow t n).bind fun p =>
  float64.div m (n * p)

/-- The closure `ρ` of `lambertConformalConic2SP` with Go's special values. -/
noncomputable def lambertConformalConic2SP.ρ.checked (lat1 lat2 : ℝ) (φ : ℝ) (sph : spheroid) :
    Option ℝ :=
  (lambertConformalConic2SP.F.checked lat1 lat2 sph).bind fun F =>
  (lambertConformalConic2SP.t.checked φ sph).bind fun t =>
  (lambertConformalConic2SP.n.checked lat1 lat2 sph).bind fun n =>
  (float64.pow t n).bind fun p =>
  some (sph.A * F * p)

/-- The `fromXYZ` closure of `lambertConformalConic2SP` with Go's special values in its
closures; longitude, latitude and height come from `lonLat.FromXYZ`. -/
noncomputable def lambertConformalConic2SP.fromXYZ.checked (lonf latf lat1 lat2 eastf northf : ℝ)
    (x y z : ℝ) (sph : spheroid) : Option (ℝ × ℝ × ℝ) :=
  (lambertConformalConic2SP.n.checked lat1 lat2 sph).bind fun n =>
  (lambertConformalConic2SP.ρ.checked lat1 lat2
    (radian (lonLat.FromXYZ x y z (some sph)).2.1) sph).bind fun ρ =>
  (lambertConformalConic2SP.ρ.checked lat1 lat2 (radian latf) sph).bind fun ρ0 =>
  some (eastf + ρ * sin (n * (radian (lonLat.FromXYZ x y z (some sph)).1 - radian lonf)),
    northf + ρ0 - ρ * cos (n * (radian (lonLat.FromXYZ x y z (some sph)).1 - radian lonf)),
    (lonLat.FromXYZ x y z (some sph)).2.2)

/-- The closure `m` of `albersEqualAreaConic` with Go's special values. -/
noncomputable def albersEqualAreaConic.m.checked (φ : ℝ) (sph : spheroid) : Option ℝ :=
  (float64.sqrt (1 - sph.E2 * sin2 φ)).bind fun w =>
  float64.div (cos φ) w

/-- The closure `q` of `albersEqualAreaConic` with Go's special values. -/
noncomputable def albersEqualAreaConic.q.checked (φ : ℝ) (sph : spheroid) : Option ℝ :=
  (float64.div (sin φ) (1 - sph.E2 * sin2 φ)).bind fun a =>
  (float64.div 1 (2 * sph.E)).bind fun b =>
  (float64.div (1 - sph.E * sin φ) (1 + sph.E * sin φ)).bind fun r =>
  (float64.log r).bind fun l =>
  some ((1 - sph.E2) * (a - b * l))

/-- The closure `n` of `albersEqualAreaConic` with Go's special values. -/
noncomputable def albersEqualAreaConic.n.checked (lat1 lat2 : ℝ) (sph : spheroid) : Option ℝ :=
  if radian lat1 = radian lat2 then
    some (sin (radian lat1))
  else
    (albersEqualAreaConic.m.checked (radian lat1) sph).bind fun m1 =>
    (albersEqualAreaConic.m.checked (radian lat2) sph).bind fun m2 =>
    (albersEqualAreaConic.q.checked (radian lat2) sph).bind fun q2 =>
    (albersEqualAreaConic.q.checked (radian lat1) sph).bind fun q1 =>
    float64.div (m1 * m1 - m2 * m2) (q2 - q1)

/-- The closure `C` of `albersEqualAreaConic` with Go's special values. -/
noncomputable def albersEqualAreaConic.C.checked (lat1 lat2 : ℝ) (sph : spheroid) : Option ℝ :=
  (albersEqualAreaConic.m.checked (radian lat1) sph).bind fun m1 =>
  (albersEqualAreaConic.n.checked lat1 lat2 sph).bind fun n =>
  (albersEqualAreaConic.q.checked (radian lat1) sph).bind fun q1 =>
  some (m1 * m1 + n * q1)

/-- The closure `ρ` of `albersEqualAreaConic` with Go's special values. -/
noncomputable def albersEqualAreaConic.ρ.checked (lat1 lat2 : ℝ) (φ : ℝ) (sph : spheroid) :
    Option ℝ :=
  (albersEqualAreaConic.C.checked lat1 lat2 sph).bind fun C =>
  (albersEqualAreaConic.n.checked lat1 lat2 sph).bind fun n =>
  (albersEqualAreaConic.q.checked φ sph).bind fun q =>
  (float64.sqrt (C - n * q)).bind fun w =>
  float64.div (sph.A * w) n

/-- The `fromXYZ` closure of `albersEqualAreaConic` with Go's special values in its
closures; longitude, latitude and height come from `lonLat.FromXYZ`. -/
noncomputable def albersEqualAreaConic.fromXYZ.checked (lonf latf lat1 lat2 eastf northf : ℝ)
    (x y z : ℝ) (sph : spheroid) : Option (ℝ × ℝ × ℝ) :=
  (albersEqualAreaConic.n.checked lat1 lat2 sph).bind fun n =>
  (albersEqualAreaConic.ρ.checked lat1 lat2
    (radian (lonLat.FromXYZ x y z (some sph)).2.1) sph).bind fun ρ =>
  (albersEqualAreaConic.ρ.checked lat1 lat2 (radian latf) sph).bind fun ρ0 =>
  some (eastf + ρ * sin (n * (radian (lonLat.FromXYZ x y z (some sph)).1 - radian lonf)),
    northf + ρ0 - ρ * cos (n * (radian (lonLat.FromXYZ x y z (some sph)).1 - radian lonf)),
    (lonLat.FromXYZ x y z (some sph)).2.2)

/-- The closure `m` of `equidistantConic` with Go's special values. -/
noncomputable def equidistantConic.m.checked (φ : ℝ) (sph : spheroid) : Option ℝ :=
  (float64.sqrt (1 - sph.E2 * sin2 φ)).bind fun w =>
  float64.div (cos φ) w

/-- The closure `n` of `equidistantConic` with Go's special values (the closure `M` has no
division). -/
noncomputable def equidistantConic.n.checked (lat1 lat2 : ℝ) (sph : spheroid) : Option ℝ :=
  if radian lat1 = radian lat2 then
    some (sin (radian lat1))
  else
    (equidistantConic.m.checked (radian lat1) sph).bind fun m1 =>
    (equidistantConic.m.checked (radian lat2) sph).bind fun m2 =>
    float64.div (sph.A * (m1 - m2))
      (equidistantConic.M (radian lat2) sph - equidistantConic.M (radian lat1) sph)

/-- The closure `G` of `equidistantConic` with Go's special values. -/
noncomputable def equidistantConic.G.checked (lat1 lat2 : ℝ) (sph : spheroid) : Option ℝ :=
  (equidistantConic.m.checked (radian lat1) sph).bind fun m1 =>
  (equidistantConic.n.checked lat1 lat2 sph).bind fun n =>
  (float64.div m1 n).bind fun a =>
  (float64.div (equidistantConic.M (radian lat1) sph) sph.A).bind fun b =>
  some (a + b)

/-- The closure `ρ` of `equidistantConic` with Go's special values. -/
noncomputable def equidistantConic.ρ.checked (lat1 lat2 : ℝ) (φ : ℝ) (sph : spheroid) :
    Option ℝ :=
  (equidistantConic.G.checked lat1 lat2 sph).bind fun G =>
  some (sph.A * G - equidistantConic.M φ sph)

/-- The `fromXYZ` closure of `equidistantConic` with Go's special values in its closures;
longitude, latitude and height come from `lonLat.FromXYZ`. -/
noncomputable def equidistantConic.fromXYZ.checked (lonf latf lat1 lat2 eastf northf : ℝ)
    (x y z : ℝ) (sph : spheroid) : Option (ℝ × ℝ × ℝ) :=
  (equidistantConic.n.checked lat1 lat2 sph).bind fun n =>
  (equidistantConic.ρ.checked lat1 lat2
    (radian (lonLat.FromXYZ x y z (some sph)).2.1) sph).bind fun ρ =>
  (equidistantConic.ρ.checked lat1 lat2 (radian latf) sph).bind fun ρ0 =>
  some (eastf + ρ * sin (n * (radian (lonLat.FromXYZ x y z (some sph)).1 - radian lonf)),
    northf + ρ0 - ρ * cos (n * (radian (lonLat.FromXYZ x y z (some sph)).1 - radian lonf)),
    (lonLat.FromXYZ x y z (some sph)).2.2)

/-! # Auxiliary lemmas -/

/-- `math.Pow x 2` is the square. -/
theorem math.Pow_two (x : ℝ) : math.Pow x 2 = x ^ 2 := by
  unfold math.Pow
  exact Real.rpow_two x

/-- `math.Pow x 3` is the cube. -/
theorem math.Pow_three (x : ℝ) : math.Pow x 3 = x ^ 3 := by
  unfold math.Pow
  exact_mod_cast Real.rpow_natCast x 3

/-- Degrees to radians and back. -/
theorem degree_radian (d : ℝ) : degree (radian d) = d := by
  unfold degree radian
  field_simp

/-- Radians to degrees and back. -/
theorem radian_degree (r : ℝ) : radian (degree r) = r := by
  unfold degree radian
  field_simp

/-- Latitude part of the inverse on the ellipsoid surface, in terms of `s = sin φ` and
`c = cos φ`: the auxiliary-angle argument is `(1 - F) tan φ` and the closed-form
latitude argument is exactly `tan φ`. -/
theorem surface_latitude_arg (a F s c : ℝ) (ha : 0 < a) (hF : F < 1) (hc : 0 < c)
    (hsc : s ^ 2 + c ^ 2 = 1) :
    let W := Real.sqrt (1 - (2 * F - F * F) * s ^ 2)
    let N := a / W
    let z := (N * (a * (1 - F)) ^ 2 / (a * a) + 0) * s
    let sd := N * c
    let u := z * a / (sd * (a * (1 - F)))
    0 < W ∧ u = (1 - F) * s / c ∧ Real.sqrt (1 + u ^ 2) = W / c ∧
    (z + (2 * F - F * F) * (a * a) / (a * (1 - F)) * (u / Real.sqrt (1 + u ^ 2)) ^ 3) /
      (sd - (2 * F - F * F) * a * (1 / Real.sqrt (1 + u ^ 2)) ^ 3) = s / c := by
  intro W N z sd u
  have hk : 0 < 1 - F := by linarith
  have hW2pos : 0 < 1 - (2 * F - F * F) * s ^ 2 := by
    have : 1 - (2 * F - F * F) * s ^ 2 = c ^ 2 + (1 - F) ^ 2 * s ^ 2 := by
      have : c ^ 2 = 1 - s ^ 2 := by linarith
      rw [this]; ring
    rw [this]; positivity
  have hW : 0 < W := Real.sqrt_pos.mpr hW2pos
  have hW2 : W ^ 2 = 1 - (2 * F - F * F) * s ^ 2 := Real.sq_sqrt hW2pos.le
  have hu : u = (1 - F) * s / c := by
    simp only [u, z, sd, N]
    field_simp
    ring
  have hsq : Real.sqrt (1 + u ^ 2) = W / c := by
    rw [hu]
    have : 1 + ((1 - F) * s / c) ^ 2 = (W / c) ^ 2 := by
      rw [div_pow, div_pow, hW2]
      field_simp
      nlinarith [hsc]
    rw [this]
    exact Real.sqrt_sq (div_pos hW hc).le
  refine ⟨hW, hu, hsq, ?_⟩
  rw [hsq, hu]
  simp only [z, sd, N]
  have hden : a * c * W ^ 2 - (2 * F - F * F) * a * c ^ 3 ≠ 0 := by
    have : a * c * W ^ 2 - (2 * F - F * F) * a * c ^ 3 = a * c * (1 - F) ^ 2 := by
      rw [hW2]
      have : c ^ 2 = 1 - s ^ 2 := by linarith
      have h3 : c ^ 3 = c * (1 - s ^ 2) := by rw [← this]; ring
      rw [h3]; ring
    rw [this]; positivity
  have hD : a / W * c - (2 * F - F * F) * a * (1 / (W / c)) ^ 3 = a * c * (1 - F) ^ 2 / W ^ 3 := by
    field_simp
    linear_combination (a * c * W ^ 4) * hW2 - (a * c * W ^ 4 * (2 * F - F * F)) * hsc
  have hNum : (a / W * (a * (1 - F)) ^ 2 / (a * a) + 0) * s +
      (2 * F - F * F) * (a * a) / (a * (1 - F)) * ((1 - F) * s / c / (W / c)) ^ 3 =
      a * s * (1 - F) ^ 2 / W ^ 3 := by
    have h1 : W ^ 2 + (2 * F - F * F) * s ^ 2 = 1 := by rw [hW2]; ring
    calc (a / W * (a * (1 - F)) ^ 2 / (a * a) + 0) * s +
          (2 * F - F * F) * (a * a) / (a * (1 - F)) * ((1 - F) * s / c / (W / c)) ^ 3
        = a * s * (1 - F) ^ 2 * (W ^ 2 + (2 * F - F * F) * s ^ 2) / W ^ 3 := by
          field_simp
          ring
      _ = a * s * (1 - F) ^ 2 / W ^ 3 := by rw [h1, mul_one]
  rw [hD, hNum]
  field_simp
  ring

/-- `math.Atan2` recovers the angle of a point given in polar form. -/
theorem math.Atan2_polar (r θ : ℝ) (hr : 0 < r) (h1 : -π < θ) (h2 : θ ≤ π) :
    math.Atan2 (r * sin θ) (r * cos θ) = θ := by
  unfold math.Atan2
  have h : (⟨r * cos θ, r * sin θ⟩ : ℂ) = (r : ℂ) * (Complex.cos θ + Complex.sin θ * Complex.I) := by
    apply Complex.ext
    · simp [← Complex.ofReal_cos, ← Complex.ofReal_sin]
    · simp [← Complex.ofReal_cos, ← Complex.ofReal_sin]
  rw [h]
  exact Complex.arg_mul_cos_add_sin_mul_I hr ⟨h1, h2⟩

/-- A latitude strictly between -90 and 90 degrees is strictly between `-π/2` and `π/2`. -/
theorem radian_lat_range (d : ℝ) (h1 : -90 < d) (h2 : d < 90) :
    -(π / 2) < radian d ∧ radian d < π / 2 := by
  unfold radian
  constructor
  · have : -(π / 2) = (-90) * π / 180 := by ring
    rw [this]
    have := mul_lt_mul_of_pos_right h1 pi_pos
    linarith
  · have : π / 2 = 90 * π / 180 := by ring
    rw [this]
    have := mul_lt_mul_of_pos_right h2 pi_pos
    linarith

/-- A longitude in `(-180, 180]` degrees is in `(-π, π]`. -/
theorem radian_lon_range (d : ℝ) (h1 : -180 < d) (h2 : d ≤ 180) :
    -π < radian d ∧ radian d ≤ π := by
  unfold radian
  constructor
  · have := mul_lt_mul_of_pos_right h1 pi_pos
    linarith
  · have := mul_le_mul_of_nonneg_right h2 pi_pos.le
    linarith

/-- On the ellipsoid surface (`h = 0`) the inverse closure undoes the forward closure exactly. -/
theorem lonLat_surface (sph : spheroid) (hA : 0 < sph.A) (hF : sph.F < 1)
    (lon lat : ℝ) (hlon1 : -180 < lon) (hlon2 : lon ≤ 180) (hlat1 : -90 < lat) (hlat2 : lat < 90) :
    lonLat.fromXYZ (lonLat.toXYZ lon lat 0 sph).1 (lonLat.toXYZ lon lat 0 sph).2.1
      (lonLat.toXYZ lon lat 0 sph).2.2 sph = (lon, lat, 0) := by
  obtain ⟨a, F⟩ := sph
  simp only [spheroid.A, spheroid.F] at hA hF
  obtain ⟨hφ1, hφ2⟩ := radian_lat_range lat hlat1 hlat2
  obtain ⟨hl1, hl2⟩ := radian_lon_range lon hlon1 hlon2
  have hc : 0 < cos (radian lat) := cos_pos_of_mem_Ioo ⟨hφ1, hφ2⟩
  have hsc : sin (radian lat) ^ 2 + cos (radian lat) ^ 2 = 1 := sin_sq_add_cos_sq _
  obtain ⟨hW, hu, hsq, hB⟩ := surface_latitude_arg a F (sin (radian lat)) (cos (radian lat))
    hA hF hc hsc
  have hN : 0 < a / √(1 - (2 * F - F * F) * sin (radian lat) ^ 2) := div_pos hA hW
  have hsd : Real.sqrt ((a / √(1 - (2 * F - F * F) * sin (radian lat) ^ 2) + 0) *
      cos (radian lon) * cos (radian lat) *
      ((a / √(1 - (2 * F - F * F) * sin (radian lat) ^ 2) + 0) *
      cos (radian lon) * cos (radian lat)) +
      (a / √(1 - (2 * F - F * F) * sin (radian lat) ^ 2) + 0) *
      cos (radian lat) * sin (radian lon) *
      ((a / √(1 - (2 * F - F * F) * sin (radian lat) ^ 2) + 0) *
      cos (radian lat) * sin (radian lon))) =
      a / √(1 - (2 * F - F * F) * sin (radian lat) ^ 2) * cos (radian lat) := by
    rw [← Real.sqrt_sq (mul_pos hN hc).le]
    congr 1
    have := sin_sq_add_cos_sq (radian lon)
    linear_combination ((a / √(1 - (2 * F - F * F) * sin (radian lat) ^ 2)) ^ 2 *
      cos (radian lat) ^ 2) * this
  simp only [lonLat.fromXYZ, lonLat.toXYZ, lonLat.N, spheroid.A, spheroid.F, spheroid.A2,
    spheroid.B, spheroid.E2, math.Pow_two, math.Pow_three, hsd, Real.sin_arctan, Real.cos_arctan,
    hB]
  have hs1 : √(1 + (sin (radian lat) / cos (radian lat)) ^ 2) = 1 / cos (radian lat) := by
    have : 1 + (sin (radian lat) / cos (radian lat)) ^ 2 = (1 / cos (radian lat)) ^ 2 := by
      field_simp
    rw [this]
    exact Real.sqrt_sq (by positivity)
  have hat : arctan (sin (radian lat) / cos (radian lat)) = radian lat := by
    rw [← Real.tan_eq_sin_div_cos]
    exact Real.arctan_tan hφ1 hφ2
  have hs2 : sin (radian lat) / cos (radian lat) / (1 / cos (radian lat)) = sin (radian lat) := by
    field_simp
  have hlon : math.Atan2
      ((a / √(1 - (2 * F - F * F) * sin (radian lat) ^ 2) + 0) * cos (radian lat) *
        sin (radian lon))
      ((a / √(1 - (2 * F - F * F) * sin (radian lat) ^ 2) + 0) * cos (radian lon) *
        cos (radian lat)) = radian lon := by
    have := math.Atan2_polar _ (radian lon) (mul_pos hN hc) hl1 hl2
    convert this using 2 <;> ring
  rw [hs1, hat, hs2, hlon, degree_radian, degree_radian]
  refine Prod.ext rfl (Prod.ext rfl ?_)
  simp only
  field_simp
  ring

/-- The facade `ToXYZ` of `lonLat()` with an ellipsoid given is its `toXYZ` closure. -/
theorem lonLat_ToXYZ_some (a b c : ℝ) (s : spheroid) :
    lonLat.ToXYZ a b c (some s) = lonLat.toXYZ a b c s := rfl

/-- The facade `FromXYZ` of `lonLat()` with an ellipsoid given is its `fromXYZ` closure. -/
theorem lonLat_FromXYZ_some (a b c : ℝ) (s : spheroid) :
    lonLat.FromXYZ a b c (some s) = lonLat.fromXYZ a b c s := rfl

/-- The surface round trip through the facade. -/
theorem lonLat_roundtrip_surface (sph : spheroid) (hA : 0 < sph.A) (hF : sph.F < 1)
    (lon lat : ℝ) (hlon1 : -180 < lon) (hlon2 : lon ≤ 180) (hlat1 : -90 < lat) (hlat2 : lat < 90) :
    lonLat.FromXYZ (lonLat.ToXYZ lon lat 0 (some sph)).1 (lonLat.ToXYZ lon lat 0 (some sph)).2.1
      (lonLat.ToXYZ lon lat 0 (some sph)).2.2 (some sph) = (lon, lat, 0) := by
  rw [lonLat_ToXYZ_some, lonLat_FromXYZ_some]
  exact lonLat_surface sph hA hF lon lat hlon1 hlon2 hlat1 hlat2

/-- The facade `FromXYZ` of a system that has its `fromXYZ`, with an ellipsoid given. -/
theorem system_FromXYZ_some (g : Option (ℝ → ℝ → ℝ → spheroid → ℝ × ℝ × ℝ))
    (f : ℝ → ℝ → ℝ → spheroid → ℝ × ℝ × ℝ) (x y z : ℝ) (s : spheroid) :
    (system.mk g (some f)).FromXYZ x y z (some s) = f x y z s := rfl

/-- The facade `ToXYZ` of a system that has its `toXYZ`, with an ellipsoid given. -/
theorem system_ToXYZ_some (g : Option (ℝ → ℝ → ℝ → spheroid → ℝ × ℝ × ℝ))
    (f : ℝ → ℝ → ℝ → spheroid → ℝ × ℝ × ℝ) (x y z : ℝ) (s : spheroid) :
    (system.mk (some f) g).ToXYZ x y z (some s) = f x y z s := rfl

/-- The northern UTM preset. -/
theorem utm_true (zone : ℝ) :
    utm zone true = transverseMercator (zone * 6 - 183) 0 0.9996 500000 0 := rfl

/-- The southern UTM preset. -/
theorem utm_false (zone : ℝ) :
    utm zone false = transverseMercator (zone * 6 - 183) 0 0.9996 500000 10000000 := rfl

/-- Zero degrees is zero radians. -/
theorem radian_zero : radian 0 = 0 := by unfold radian; ring

/-- Zero radians is zero degrees. -/
theorem degree_zero : degree 0 = 0 := by unfold degree; ring

/-- Thirty degrees is `π/6`. -/
theorem radian_30 : radian 30 = π / 6 := by unfold radian; ring

/-- A sphere has `E² = 0`. -/
theorem spheroid.E2_sphere (a : ℝ) : (⟨a, 0⟩ : spheroid).E2 = 0 := by
  simp [spheroid.E2, spheroid.F]

/-- A sphere has `E = 0`. -/
theorem spheroid.E_sphere (a : ℝ) : (⟨a, 0⟩ : spheroid).E = 0 := by
  simp [spheroid.E, spheroid.E2, spheroid.F]

/-- `math.Pow 1 y` is `1`. -/
theorem math.Pow_one_base (y : ℝ) : math.Pow 1 y = 1 := by
  unfold math.Pow
  exact Real.one_rpow y

/-- `math.Pow x (1/2)` is the square root. -/
theorem math.Pow_half (x : ℝ) : math.Pow x (1 / 2) = Real.sqrt x := by
  unfold math.Pow
  exact (Real.sqrt_eq_rpow x).symm ▸ rfl

/-- `math.Pow x 0` is `1`. -/
theorem math.Pow_zero_exp (x : ℝ) : math.Pow x 0 = 1 := by
  unfold math.Pow
  exact Real.rpow_zero x

/-- On a sphere the conformal helper `t` is `tan (π/4 - φ/2)`. -/
theorem lcc1_t_sphere (a φ : ℝ) : lambertConformalConic1SP.t φ ⟨a, 0⟩ = tan (π / 4 - φ / 2) := by
  simp [lambertConformalConic1SP.t, spheroid.E_sphere, math.Pow_zero_exp]

/-- On a sphere the parallel-radius helper `m` is `cos φ`. -/
theorem lcc1_m_sphere (a φ : ℝ) : lambertConformalConic1SP.m φ ⟨a, 0⟩ = cos φ := by
  simp [lambertConformalConic1SP.m, spheroid.E2_sphere]

/-- The cone constant for `latf = 30` is `1/2`. -/
theorem lcc1_n_30 : lambertConformalConic1SP.n 30 = 1 / 2 := by
  simp [lambertConformalConic1SP.n, radian_30]

/-- The value of `tan (π/4 - φ/2)` at `φ = π/6`. -/
theorem tan_quarter_sub_twelfth : tan (π / 4 - π / 6 / 2) = 1 / Real.sqrt 3 := by
  have : π / 4 - π / 6 / 2 = π / 6 := by ring
  rw [this, Real.tan_pi_div_six]

/-- `A·F·√t` on the sphere for `latf = 30`. -/
theorem lcc1_ρ_sphere (a scale φ : ℝ) (_hs : 0 ≤ scale) (ht : 0 ≤ tan (π / 4 - φ / 2)) :
    lambertConformalConic1SP.ρ 30 scale φ ⟨a, 0⟩ =
      a * Real.sqrt 3 * Real.sqrt (Real.sqrt 3) * Real.sqrt (tan (π / 4 - φ / 2)) * Real.sqrt scale := by
  simp only [lambertConformalConic1SP.ρ, lambertConformalConic1SP.F, lcc1_n_30, lcc1_t_sphere,
    lcc1_m_sphere, math.Pow_half, radian_30, tan_quarter_sub_twelfth, Real.cos_pi_div_six, spheroid.A]
  rw [Real.sqrt_mul ht, Real.sqrt_div (by norm_num), Real.sqrt_one]
  have h3 : (0:ℝ) < Real.sqrt 3 := Real.sqrt_pos.mpr (by norm_num)
  have h33 : (0:ℝ) < Real.sqrt (Real.sqrt 3) := Real.sqrt_pos.mpr h3
  field_simp
  ring

/-- The scale constant `F` on the sphere for `latf = 30`. -/
theorem lcc1_F_sphere (a : ℝ) :
    lambertConformalConic1SP.F 30 ⟨a, 0⟩ = Real.sqrt 3 * Real.sqrt (Real.sqrt 3) := by
  simp only [lambertConformalConic1SP.F, lcc1_n_30, lcc1_t_sphere,
    lcc1_m_sphere, math.Pow_half, radian_30, tan_quarter_sub_twelfth, Real.cos_pi_div_six]
  rw [Real.sqrt_div (by norm_num), Real.sqrt_one]
  have h3 : (0:ℝ) < Real.sqrt 3 := Real.sqrt_pos.mpr (by norm_num)
  have h33 : (0:ℝ) < Real.sqrt (Real.sqrt 3) := Real.sqrt_pos.mpr h3
  field_simp
  ring

/-- The radius of the origin parallel on the sphere for `latf = 30`. -/
theorem lcc1_ρ0_sphere (a scale : ℝ) (hs : 0 ≤ scale) :
    lambertConformalConic1SP.ρ 30 scale (radian 30) ⟨a, 0⟩ = a * Real.sqrt 3 * Real.sqrt scale := by
  have h3 : (0:ℝ) < Real.sqrt 3 := Real.sqrt_pos.mpr (by norm_num)
  have h33 : (0:ℝ) < Real.sqrt (Real.sqrt 3) := Real.sqrt_pos.mpr h3
  rw [lcc1_ρ_sphere a scale _ hs, radian_30, tan_quarter_sub_twelfth, Real.sqrt_div (by norm_num),
    Real.sqrt_one]
  · field_simp
  · rw [radian_30, tan_quarter_sub_twelfth]; positivity

/-- The round trip of the false origin on a sphere for `latf = 30` and any scale. -/
theorem lcc1_origin_sphere (a scale : ℝ) (ha : 0 < a) (hs : 0 < scale) :
    (lambertConformalConic1SP 0 30 scale 0 0).FromXYZ
      ((lambertConformalConic1SP 0 30 scale 0 0).ToXYZ 0 0 0 (some ⟨a, 0⟩)).1
      ((lambertConformalConic1SP 0 30 scale 0 0).ToXYZ 0 0 0 (some ⟨a, 0⟩)).2.1
      ((lambertConformalConic1SP 0 30 scale 0 0).ToXYZ 0 0 0 (some ⟨a, 0⟩)).2.2 (some ⟨a, 0⟩) =
      (0, a * Real.sqrt 3 * (Real.sqrt scale - 1), 0) := by
  have h3 : (0:ℝ) < Real.sqrt 3 := Real.sqrt_pos.mpr (by norm_num)
  have h33 : (0:ℝ) < Real.sqrt (Real.sqrt 3) := Real.sqrt_pos.mpr h3
  have hss : (0:ℝ) < Real.sqrt scale := Real.sqrt_pos.mpr hs
  have hρ0pos : 0 < a * Real.sqrt 3 * Real.sqrt scale := by positivity
  -- the isometric parameter recovered by `toXYZ`
  have hti : math.Pow (a * Real.sqrt 3 * Real.sqrt scale /
      (a * scale * (Real.sqrt 3 * Real.sqrt (Real.sqrt 3)))) (1 / (1 / 2)) =
      1 / (Real.sqrt 3 * scale) := by
    have : (1 : ℝ) / (1 / 2) = 2 := by norm_num
    have e1 := Real.sq_sqrt hs.le
    have e2 := Real.sq_sqrt h3.le
    have e3 := Real.sq_sqrt (by norm_num : (0:ℝ) ≤ 3)
    rw [this, math.Pow_two, div_pow]
    have hnum : (a * Real.sqrt 3 * Real.sqrt scale) ^ 2 = a ^ 2 * 3 * scale := by
      rw [mul_pow, mul_pow, e1, e3]
    have hden : (a * scale * (Real.sqrt 3 * Real.sqrt (Real.sqrt 3))) ^ 2 =
        a ^ 2 * scale ^ 2 * (3 * Real.sqrt 3) := by
      rw [mul_pow, mul_pow, mul_pow, e2, e3]
    rw [hnum, hden]
    field_simp
    nlinarith
  set φ' := π / 2 - 2 * arctan (1 / (Real.sqrt 3 * scale)) with hφ'
  have harc0 : 0 < arctan (1 / (Real.sqrt 3 * scale)) := by
    rw [← Real.arctan_zero]
    exact Real.arctan_strictMono (by positivity)
  have harc1 := Real.arctan_lt_pi_div_two (1 / (Real.sqrt 3 * scale))
  have hto : (lambertConformalConic1SP 0 30 scale 0 0).ToXYZ 0 0 0 (some ⟨a, 0⟩) =
      lonLat.ToXYZ 0 (degree φ') 0 (some ⟨a, 0⟩) := by
    rw [lambertConformalConic1SP, system_ToXYZ_some]
    simp only [lambertConformalConic1SP.toXYZ, lcc1_n_30, lcc1_F_sphere, lcc1_ρ0_sphere a scale hs.le,
      sub_zero, math.Pow_two, spheroid.E_sphere, zero_mul, add_zero, zero_div,
      math.Pow_zero_exp, mul_one, Function.iterate_succ, Function.iterate_zero,
      Function.comp_apply, id_eq, Real.arctan_zero, radian_zero, degree_zero, spheroid.A]
    have hsq : Real.sqrt (0 ^ 2 + (a * Real.sqrt 3 * Real.sqrt scale) ^ 2) =
        a * Real.sqrt 3 * Real.sqrt scale := by
      rw [zero_pow (by norm_num), zero_add, Real.sqrt_sq hρ0pos.le]
    rw [hsq]
    have hn : ¬ ((1:ℝ) / 2 < 0) := by norm_num
    rw [if_neg hn, hti]
  have hlat : -90 < degree φ' ∧ degree φ' < 90 := by
    unfold degree
    constructor
    · rw [lt_div_iff₀ pi_pos]; rw [hφ']; linarith
    · rw [div_lt_iff₀ pi_pos]; rw [hφ']; linarith
  have h := lonLat_roundtrip_surface ⟨a, 0⟩ ha (by norm_num [spheroid.F]) 0 (degree φ')
    (by norm_num) (by norm_num) hlat.1 hlat.2
  rw [hto, lambertConformalConic1SP, system_FromXYZ_some]
  have htan : tan (π / 4 - φ' / 2) = 1 / (Real.sqrt 3 * scale) := by
    have : π / 4 - φ' / 2 = arctan (1 / (Real.sqrt 3 * scale)) := by rw [hφ']; ring
    rw [this, Real.tan_arctan]
  have hρ' : lambertConformalConic1SP.ρ 30 scale φ' ⟨a, 0⟩ = a * Real.sqrt 3 := by
    rw [lcc1_ρ_sphere a scale φ' hs.le (by rw [htan]; positivity), htan,
      Real.sqrt_div (by norm_num), Real.sqrt_one, Real.sqrt_mul h3.le]
    field_simp
    ring
  simp only [lambertConformalConic1SP.fromXYZ, h, radian_degree, hρ', lcc1_ρ0_sphere a scale hs.le,
    radian_zero, sub_zero, mul_zero, Real.sin_zero, Real.cos_zero, mul_one, zero_add, add_zero]
  refine Prod.ext rfl (Prod.ext ?_ rfl)
  simp only
  ring

theorem le_of_sq_le_sq_nonneg {x y : ℝ} (hy : 0 ≤ y) (h : x ^ 2 ≤ y ^ 2) : x ≤ y := by
  by_contra hcon
  push_neg at hcon
  nlinarith

/-- The polynomial identity behind the second-order accuracy of the single-pass inverse. -/
theorem bowring_poly (C S q : ℝ) :
    (C + S * q ^ 3) ^ 2 * (C + S) - (C + S * q ^ 2) ^ 3 =
      (q - 1) ^ 2 * C * S * (C * (3 + 2 * (q - 1)) + S * q ^ 3 * (3 + (q - 1))) := by
  ring

/-- Size of the basic quantities: `k ≤ W ≤ 1`. -/
theorem bowring_W_bounds (k s c W : ℝ) (hk0 : 0 < k) (hk2 : k ≤ 1)
    (hsc : s ^ 2 + c ^ 2 = 1) (hW : 0 < W) (hW2 : W ^ 2 = c ^ 2 + k ^ 2 * s ^ 2) :
    k ≤ W ∧ W ≤ 1 := by
  have hk2' : k ^ 2 ≤ 1 := pow_le_one₀ hk0.le hk2
  constructor
  · apply le_of_sq_le_sq_nonneg hW.le
    have := mul_le_mul_of_nonneg_right hk2' (sq_nonneg c)
    nlinarith
  · apply le_of_sq_le_sq_nonneg (by norm_num)
    have := mul_le_mul_of_nonneg_right hk2' (sq_nonneg s)
    linarith

/-- The relative perturbation `q - 1` of the auxiliary tangent caused by the height. -/
theorem bowring_delta (a k h W q : ℝ) (ha : 500000 ≤ a) (hk1 : 0.99 < k) (hk2 : k ≤ 1)
    (hh1 : -1000 ≤ h) (hh2 : h ≤ 9000) (hW : 0 < W) (hW1 : W ≤ 1)
    (hq : q = (a * k ^ 2 + h * W) / ((a + h * W) * k ^ 2)) :
    |q - 1| ≤ 184 / a := by
  have ha0 : 0 < a := by linarith
  have hk0 : 0 < k := by linarith
  have hk2' : k ^ 2 ≤ 1 := pow_le_one₀ hk0.le hk2
  have hk2lo : (0.9801 : ℝ) ≤ k ^ 2 := by nlinarith
  have hhW : -1000 ≤ h * W := by
    have := mul_nonneg (by linarith : 0 ≤ h + 1000) hW.le
    linarith
  have hhW2 : h * W ≤ 9000 := by
    have := mul_nonneg (by linarith : 0 ≤ 9000 - h) hW.le
    linarith
  have hahW : 0 < a + h * W := by linarith
  have hdq : 0 < (a + h * W) * k ^ 2 := by positivity
  have hδ : q - 1 = h * W * (1 - k ^ 2) / ((a + h * W) * k ^ 2) := by
    rw [hq]
    field_simp
    ring
  rw [hδ, abs_div, abs_of_pos hdq, div_le_div_iff₀ hdq ha0]
  have h0 : |h * W| ≤ 9000 := abs_le.mpr ⟨by linarith, hhW2⟩
  have h1 : |h * W * (1 - k ^ 2)| ≤ 9000 * 0.0199 := by
    rw [abs_mul, abs_of_nonneg (by linarith : 0 ≤ 1 - k ^ 2)]
    exact mul_le_mul h0 (by linarith) (by linarith) (by norm_num)
  have h2 : (a - 1000) * 0.9801 ≤ (a + h * W) * k ^ 2 :=
    mul_le_mul (by linarith) hk2lo (by norm_num) hahW.le
  have h3 : |h * W * (1 - k ^ 2)| * a ≤ 9000 * 0.0199 * a :=
    mul_le_mul_of_nonneg_right h1 ha0.le
  have h4 : 184 * ((a - 1000) * 0.9801) ≤ 184 * ((a + h * W) * k ^ 2) :=
    mul_le_mul_of_nonneg_left h2 (by norm_num)
  linarith

/-- Lower bound on the radius `R` of the perturbed auxiliary triangle. -/
theorem bowring_R_bound (k s c W q R : ℝ) (_hW : 0 < W)
    (hW2 : W ^ 2 = c ^ 2 + k ^ 2 * s ^ 2) (hq : 2699 / 2700 ≤ q)
    (hR : 0 < R) (hR2 : R ^ 2 = c ^ 2 + k ^ 2 * s ^ 2 * q ^ 2) :
    2699 / 2700 * W ≤ R := by
  apply le_of_sq_le_sq_nonneg hR.le
  have h1 : (2699 / 2700 : ℝ) ^ 2 ≤ q ^ 2 := pow_le_pow_left₀ (by norm_num) hq 2
  have h2 : 0 ≤ k ^ 2 * s ^ 2 := by positivity
  have h3 := mul_le_mul_of_nonneg_left h1 h2
  have h4 : (2699 / 2700 : ℝ) ^ 2 * c ^ 2 ≤ c ^ 2 := by
    have : (2699 / 2700 : ℝ) ^ 2 ≤ 1 := by norm_num
    exact mul_le_of_le_one_left (sq_nonneg c) this
  rw [mul_pow, hW2, hR2]
  linarith

/-- Lower bound on the denominator of the closed-form latitude tangent. -/
theorem bowring_Den_bound (a k h c W R : ℝ) (ha : 500000 ≤ a) (hk1 : 0.99 < k) (hk2 : k ≤ 1)
    (hh1 : -1000 ≤ h) (hc : 0 < c) (hc1 : c ≤ 1) (hW : 0 < W) (hW1 : W ≤ 1)
    (hR : 0.9896 ≤ R) :
    0.9774 * a * c ≤ (a / W + h) * c - (1 - k ^ 2) * a * (c / R) ^ 3 := by
  have ha0 : 0 < a := by linarith
  have hk0 : 0 < k := by linarith
  have hR0 : 0 < R := by linarith
  have hk2lo : (0.9801 : ℝ) ≤ k ^ 2 := by nlinarith
  have hk2' : k ^ 2 ≤ 1 := pow_le_one₀ hk0.le hk2
  have h1 : a ≤ a / W := by
    rw [le_div_iff₀ hW]
    have := mul_le_mul_of_nonneg_left hW1 ha0.le
    linarith
  have hR3 : (0.969 : ℝ) ≤ R ^ 3 := by
    have : (0.9896 : ℝ) ^ 3 ≤ R ^ 3 := pow_le_pow_left₀ (by norm_num) hR 3
    have h' : (0.969 : ℝ) ≤ 0.9896 ^ 3 := by norm_num
    linarith
  have h2 : (c / R) ^ 3 ≤ c / 0.969 := by
    rw [div_pow, div_le_div_iff₀ (by positivity) (by norm_num)]
    have hc3 : c ^ 3 ≤ c := by
      have : c ^ 2 ≤ 1 := pow_le_one₀ hc.le hc1
      have := mul_le_mul_of_nonneg_left this hc.le
      nlinarith
    have := mul_le_mul hc3 hR3 (by norm_num) hc.le
    linarith
  have h3 : (1 - k ^ 2) * a * (c / R) ^ 3 ≤ 0.0199 * a * (c / 0.969) := by
    apply mul_le_mul _ h2 (by positivity) (by positivity)
    exact mul_le_mul_of_nonneg_right (by linarith) ha0.le
  have h4 : (a - 1000) * c ≤ (a / W + h) * c :=
    mul_le_mul_of_nonneg_right (by linarith) hc.le
  have h5 : 0 ≤ a * c := by positivity
  have h6 : 1000 * c ≤ a / 500 * c := mul_le_mul_of_nonneg_right (by linarith) hc.le
  have h7 : 0.0199 * a * (c / 0.969) = 0.0199 / 0.969 * (a * c) := by ring
  have h8 : (0.0199 / 0.969 : ℝ) ≤ 0.0206 := by norm_num
  have h9 := mul_le_mul_of_nonneg_right h8 h5
  nlinarith

/-- Size of the exact error expression once every factor is bounded. -/
theorem bowring_size (a e s c W d R S Y P Den : ℝ) (ha0 : 0 < a) (he0 : 0 ≤ e)
    (he1 : e ≤ 0.0199) (hc : 0 < c) (hsc : |s| ^ 3 * c ≤ 0.325) (hS0 : 0 ≤ S) (hS : S ≤ s ^ 2)
    (hW : 0 < W) (hWk : 0.9801 ≤ W ^ 2) (hd : d ^ 2 * a ^ 2 ≤ 184 ^ 2) (hP0 : 0 ≤ P)
    (hPY : P ≤ (3 + 1 / 1350) * Y) (hY0 : 0 < Y) (hR : 0 < R) (hR3 : 0.969 ≤ R ^ 3)
    (hYR : 0.9977 * (Y * W) ≤ R ^ 3) (hDen : 0.9774 * a * c ≤ Den) :
    |e * a * s * c * (d ^ 2 * c ^ 2 * S * P)| * a ^ 2 ≤
      360 * ((Y * W + R ^ 3) * (R ^ 3 * W) * (Den * c)) := by
  have hM : 0 ≤ Y * (a * c ^ 2) := by positivity
  have hsS : |s| * S * c ≤ 0.325 := by
    have h1 : |s| * S ≤ |s| * s ^ 2 := mul_le_mul_of_nonneg_left hS (abs_nonneg s)
    have h2 : |s| * s ^ 2 = |s| ^ 3 := by rw [← sq_abs s]; ring
    have h3 := mul_le_mul_of_nonneg_right h1 hc.le
    rw [h2] at h3
    linarith
  have hsS0 : 0 ≤ |s| * S * c := by positivity
  have hV : |e * a * s * c * (d ^ 2 * c ^ 2 * S * P)| * a ^ 2 ≤ 658 * (Y * (a * c ^ 2)) := by
    have hZ : 0 ≤ e * a * c * (d ^ 2 * c ^ 2 * S * P) := by positivity
    rw [show e * a * s * c * (d ^ 2 * c ^ 2 * S * P) =
      s * (e * a * c * (d ^ 2 * c ^ 2 * S * P)) by ring, abs_mul, abs_of_nonneg hZ]
    calc |s| * (e * a * c * (d ^ 2 * c ^ 2 * S * P)) * a ^ 2
        = e * (|s| * S * c) * (d ^ 2 * a ^ 2) * P * (a * c ^ 2) := by
          ring
      _ ≤ 0.0199 * 0.325 * 184 ^ 2 * ((3 + 1 / 1350) * Y) * (a * c ^ 2) := by
          gcongr
      _ = 0.0199 * 0.325 * 184 ^ 2 * (3 + 1 / 1350) * (Y * (a * c ^ 2)) := by ring
      _ ≤ 658 * (Y * (a * c ^ 2)) := by
          apply mul_le_mul_of_nonneg_right _ hM
          norm_num
  have hDn : 658 * (Y * (a * c ^ 2)) ≤
      360 * ((Y * W + R ^ 3) * (R ^ 3 * W) * (Den * c)) := by
    have h1 : 1.9977 * (Y * W) ≤ Y * W + R ^ 3 := by linarith
    have h2 : 0.969 * W ≤ R ^ 3 * W := mul_le_mul_of_nonneg_right hR3 hW.le
    have h3 : 0.9774 * a * c * c ≤ Den * c := mul_le_mul_of_nonneg_right hDen hc.le
    have h4 : 0.9801 * (Y * (a * c ^ 2)) ≤ W ^ 2 * (Y * (a * c ^ 2)) :=
      mul_le_mul_of_nonneg_right hWk hM
    calc 658 * (Y * (a * c ^ 2))
        ≤ (360 * 1.9977 * 0.969 * 0.9774 * 0.9801) * (Y * (a * c ^ 2)) := by
          apply mul_le_mul_of_nonneg_right _ hM
          norm_num
      _ = 360 * 1.9977 * 0.969 * 0.9774 * (0.9801 * (Y * (a * c ^ 2))) := by ring
      _ ≤ 360 * 1.9977 * 0.969 * 0.9774 * (W ^ 2 * (Y * (a * c ^ 2))) :=
          mul_le_mul_of_nonneg_left h4 (by norm_num)
      _ = 360 * ((1.9977 * (Y * W)) * (0.969 * W) * (0.9774 * a * c * c)) := by ring
      _ ≤ 360 * ((Y * W + R ^ 3) * (R ^ 3 * W) * (Den * c)) := by
          gcongr
  linarith

/-- The cubic factor of the error is nonnegative and at most `(3 + 1/1350)·Y`. -/
theorem bowring_P_bounds (C S q : ℝ) (hC : 0 ≤ C) (hS : 0 ≤ S) (hq : |q - 1| ≤ 1 / 2700) :
    0 ≤ C * (3 + 2 * (q - 1)) + S * q ^ 3 * (3 + (q - 1)) ∧
    C * (3 + 2 * (q - 1)) + S * q ^ 3 * (3 + (q - 1)) ≤ (3 + 1 / 1350) * (C + S * q ^ 3) := by
  have hδ1 := (abs_le.mp hq).1
  have hδ2 := (abs_le.mp hq).2
  have hq0 : 0 < q := by linarith
  have hSq : 0 ≤ S * q ^ 3 := by positivity
  constructor
  · have h1 : 0 ≤ C * (3 + 2 * (q - 1)) := mul_nonneg hC (by linarith)
    have h2 : 0 ≤ S * q ^ 3 * (3 + (q - 1)) := mul_nonneg hSq (by linarith)
    linarith
  · have h1 : C * (3 + 2 * (q - 1)) ≤ C * (3 + 1 / 1350) :=
      mul_le_mul_of_nonneg_left (by linarith) hC
    have h2 : S * q ^ 3 * (3 + (q - 1)) ≤ S * q ^ 3 * (3 + 1 / 1350) :=
      mul_le_mul_of_nonneg_left (by linarith) hSq
    linarith

/-- On the unit circle `|s|³·c ≤ 0.325` (the maximum is `√27/16`). -/
theorem bowring_sc_bound (s c : ℝ) (hsc : s ^ 2 + c ^ 2 = 1) : |s| ^ 3 * c ≤ 0.325 := by
  apply le_of_sq_le_sq_nonneg (by norm_num)
  have e1 : (|s| ^ 3 * c) ^ 2 = (s ^ 2) ^ 3 * (1 - s ^ 2) := by
    have : c ^ 2 = 1 - s ^ 2 := by linarith
    rw [mul_pow, this, ← pow_mul, ← sq_abs s, ← pow_mul]
  have e2 : 27 / 256 - (s ^ 2) ^ 3 * (1 - s ^ 2) =
      (s ^ 2 - 3 / 4) ^ 2 * ((s ^ 2) ^ 2 + s ^ 2 / 2 + 3 / 16) := by ring
  have e3 : 0 ≤ (s ^ 2 - 3 / 4) ^ 2 * ((s ^ 2) ^ 2 + s ^ 2 / 2 + 3 / 16) := by positivity
  rw [e1]
  norm_num
  linarith

/-- The cube of the perturbed radius `R` against `Y·W`. -/
theorem bowring_YR_bound (k s c W q R : ℝ) (hW : 0 < W) (hW2 : W ^ 2 = c ^ 2 + k ^ 2 * s ^ 2)
    (hq : |q - 1| ≤ 1 / 2700) (_hR : 0 < R) (hRW : 2699 / 2700 * W ≤ R) :
    0.9977 * ((c ^ 2 + k ^ 2 * s ^ 2 * q ^ 3) * W) ≤ R ^ 3 := by
  have hq_hi : q ≤ 2701 / 2700 := by
    have := (abs_le.mp hq).2
    linarith
  have hq0 : 0 ≤ q := by
    have := (abs_le.mp hq).1
    linarith
  have hS0 : 0 ≤ k ^ 2 * s ^ 2 := by positivity
  have hq3 : q ^ 3 ≤ (2701 / 2700) ^ 3 := pow_le_pow_left₀ hq0 hq_hi 3
  have hYW : c ^ 2 + k ^ 2 * s ^ 2 * q ^ 3 ≤ (2701 / 2700) ^ 3 * W ^ 2 := by
    have h1 : k ^ 2 * s ^ 2 * q ^ 3 ≤ k ^ 2 * s ^ 2 * (2701 / 2700) ^ 3 :=
      mul_le_mul_of_nonneg_left hq3 hS0
    have h2 : c ^ 2 ≤ (2701 / 2700) ^ 3 * c ^ 2 :=
      le_mul_of_one_le_left (sq_nonneg c) (by norm_num)
    rw [hW2]
    linarith
  have hW3 : 0 ≤ W ^ 3 := by positivity
  have h3 : (c ^ 2 + k ^ 2 * s ^ 2 * q ^ 3) * W ≤ (2701 / 2700) ^ 3 * W ^ 3 := by
    have := mul_le_mul_of_nonneg_right hYW hW.le
    have e : (2701 / 2700 : ℝ) ^ 3 * W ^ 2 * W = (2701 / 2700) ^ 3 * W ^ 3 := by ring
    rw [e] at this
    exact this
  have h4 : (2699 / 2700 * W) ^ 3 ≤ R ^ 3 := pow_le_pow_left₀ (by positivity) hRW 3
  have h5 : 0.9977 * ((2701 / 2700 : ℝ) ^ 3 * W ^ 3) ≤ (2699 / 2700 * W) ^ 3 := by
    rw [mul_pow, ← mul_assoc]
    apply mul_le_mul_of_nonneg_right _ hW3
    norm_num
  have h6 := mul_le_mul_of_nonneg_left h3 (by norm_num : (0:ℝ) ≤ 0.9977)
  linarith

/-- The closed-form latitude tangent, written with the auxiliary quantities `W`, `q`, `R`,
differs from `tan φ = s/c` by at most `360/a²`. -/
theorem bowring_core (a k h s c W q R : ℝ) (ha : 500000 ≤ a) (hk1 : 0.99 < k) (hk2 : k ≤ 1)
    (hh1 : -1000 ≤ h) (hh2 : h ≤ 9000) (hc : 0 < c) (hsc : s ^ 2 + c ^ 2 = 1)
    (hW : 0 < W) (hW2 : W ^ 2 = c ^ 2 + k ^ 2 * s ^ 2)
    (hq : q = (a * k ^ 2 + h * W) / ((a + h * W) * k ^ 2))
    (hR : 0 < R) (hR2 : R ^ 2 = c ^ 2 + k ^ 2 * s ^ 2 * q ^ 2) :
    |((a / W * k ^ 2 + h) * s + (1 - k ^ 2) * (a / k) * (k * s * q / R) ^ 3) /
        ((a / W + h) * c - (1 - k ^ 2) * a * (c / R) ^ 3) - s / c| ≤ 360 / a ^ 2 := by
  have ha0 : 0 < a := by linarith
  have hk0 : 0 < k := by linarith
  obtain ⟨hW_ge, hW_le⟩ := bowring_W_bounds k s c W hk0 hk2 hsc hW hW2
  have hδabs := bowring_delta a k h W q ha hk1 hk2 hh1 hh2 hW hW_le hq
  have hδsmall : |q - 1| ≤ 1 / 2700 := by
    refine hδabs.trans ?_
    rw [div_le_iff₀ ha0]
    linarith
  have hq_lo : 2699 / 2700 ≤ q := by
    have := (abs_le.mp hδsmall).1
    linarith
  have hq0 : 0 < q := by linarith
  have hRW := bowring_R_bound k s c W q R hW hW2 hq_lo hR hR2
  have hR_lo : 0.9896 ≤ R := by
    have : (2699 / 2700 : ℝ) * 0.99 ≤ 2699 / 2700 * W :=
      mul_le_mul_of_nonneg_left (by linarith) (by norm_num)
    have h' : (0.9896 : ℝ) ≤ 2699 / 2700 * 0.99 := by norm_num
    linarith
  have hc1 : c ≤ 1 := by
    apply le_of_sq_le_sq_nonneg (by norm_num)
    linarith [sq_nonneg s]
  have hDen := bowring_Den_bound a k h c W R ha hk1 hk2 hh1 hc hc1 hW hW_le hR_lo
  have hac : 0 < a * c := by positivity
  have hDen0 : 0 < (a / W + h) * c - (1 - k ^ 2) * a * (c / R) ^ 3 := by
    have : 0 < 0.9774 * a * c := by positivity
    linarith
  set Den := (a / W + h) * c - (1 - k ^ 2) * a * (c / R) ^ 3 with hDen_def
  set Num := (a / W * k ^ 2 + h) * s + (1 - k ^ 2) * (a / k) * (k * s * q / R) ^ 3 with hNum_def
  set Y := c ^ 2 + k ^ 2 * s ^ 2 * q ^ 3 with hY_def
  set P := c ^ 2 * (3 + 2 * (q - 1)) + k ^ 2 * s ^ 2 * q ^ 3 * (3 + (q - 1)) with hP_def
  have hA : Num * c - Den * s = (1 - k ^ 2) * a * s * c * (Y * W - R ^ 3) / (R ^ 3 * W) := by
    rw [hNum_def, hDen_def, hY_def]
    field_simp
    ring
  have hB : (Y * W - R ^ 3) * (Y * W + R ^ 3) = (q - 1) ^ 2 * c ^ 2 * (k ^ 2 * s ^ 2) * P := by
    have := bowring_poly (c ^ 2) (k ^ 2 * s ^ 2) q
    calc (Y * W - R ^ 3) * (Y * W + R ^ 3) = Y ^ 2 * W ^ 2 - (R ^ 2) ^ 3 := by ring
      _ = (c ^ 2 + k ^ 2 * s ^ 2 * q ^ 3) ^ 2 * (c ^ 2 + k ^ 2 * s ^ 2) -
          (c ^ 2 + k ^ 2 * s ^ 2 * q ^ 2) ^ 3 := by rw [hW2, hR2]
      _ = _ := this
  have hY0 : 0 < Y := by positivity
  have hYW : 0 < Y * W + R ^ 3 := by positivity
  have hC : Num / Den - s / c =
      (1 - k ^ 2) * a * s * c * ((q - 1) ^ 2 * c ^ 2 * (k ^ 2 * s ^ 2) * P) /
        ((Y * W + R ^ 3) * (R ^ 3 * W) * (Den * c)) := by
    have h1 : Num / Den - s / c = (Num * c - Den * s) / (Den * c) := by
      field_simp
    have h2 : Y * W - R ^ 3 = (q - 1) ^ 2 * c ^ 2 * (k ^ 2 * s ^ 2) * P / (Y * W + R ^ 3) := by
      rw [eq_div_iff hYW.ne', hB]
    rw [h1, hA, h2]
    field_simp
  -- sizes of the factors
  have hk2sq : (0.9801 : ℝ) ≤ k ^ 2 := by
    have : (0.99 : ℝ) ^ 2 ≤ k ^ 2 := pow_le_pow_left₀ (by norm_num) hk1.le 2
    linarith
  have he2 : 0 ≤ 1 - k ^ 2 := by
    have := pow_le_one₀ hk0.le hk2 (n := 2)
    linarith
  have he2' : 1 - k ^ 2 ≤ 0.0199 := by linarith
  have hsc3 := bowring_sc_bound s c hsc
  have hS : k ^ 2 * s ^ 2 ≤ s ^ 2 := by
    have := pow_le_one₀ hk0.le hk2 (n := 2)
    exact mul_le_of_le_one_left (sq_nonneg s) this
  have hS0 : 0 ≤ k ^ 2 * s ^ 2 := by positivity
  have hWk : 0.9801 ≤ W ^ 2 := by
    have h1 : k ^ 2 * c ^ 2 ≤ c ^ 2 := by
      have := pow_le_one₀ hk0.le hk2 (n := 2)
      exact mul_le_of_le_one_left (sq_nonneg c) this
    have h2 : k ^ 2 * (s ^ 2 + c ^ 2) = k ^ 2 := by rw [hsc, mul_one]
    rw [hW2]
    linarith
  have hδa : (q - 1) ^ 2 * a ^ 2 ≤ 184 ^ 2 := by
    have h1 : |q - 1| * a ≤ 184 := by
      have := hδabs
      rwa [le_div_iff₀ ha0] at this
    have h2 : (|q - 1| * a) ^ 2 ≤ 184 ^ 2 := pow_le_pow_left₀ (by positivity) h1 2
    rw [mul_pow, sq_abs] at h2
    exact h2
  obtain ⟨hP0, hPY⟩ := bowring_P_bounds (c ^ 2) (k ^ 2 * s ^ 2) q (sq_nonneg c) hS0 hδsmall
  have hR3 : (0.969 : ℝ) ≤ R ^ 3 := by
    have : (0.9896 : ℝ) ^ 3 ≤ R ^ 3 := pow_le_pow_left₀ (by norm_num) hR_lo 3
    have h' : (0.969 : ℝ) ≤ 0.9896 ^ 3 := by norm_num
    linarith
  have hYR : 0.9977 * (Y * W) ≤ R ^ 3 :=
    bowring_YR_bound k s c W q R hW hW2 hδsmall hR hRW
  have hDn0 : 0 < (Y * W + R ^ 3) * (R ^ 3 * W) * (Den * c) := by positivity
  rw [hC, abs_div, abs_of_pos hDn0, div_le_div_iff₀ hDn0 (by positivity)]
  exact bowring_size a (1 - k ^ 2) s c W (q - 1) R (k ^ 2 * s ^ 2) Y P Den ha0 he2 he2' hc hsc3
    hS0 hS hW hWk hδa hP0 hPY hY0 hR hR3 hYR hDen

/-- The arctangent is 1-Lipschitz. -/
theorem abs_arctan_sub_le (x y : ℝ) : |arctan x - arctan y| ≤ |x - y| := by
  have h := Convex.norm_image_sub_le_of_norm_deriv_le (f := arctan) (s := Set.univ) (C := 1)
    (fun x _ => Real.differentiableAt_arctan x)
    (fun x _ => by
      rw [Real.deriv_arctan, Real.norm_eq_abs, abs_of_pos (by positivity)]
      rw [div_le_one (by positivity)]
      nlinarith [sq_nonneg x])
    convex_univ (Set.mem_univ y) (Set.mem_univ x)
  simpa [Real.norm_eq_abs] using h

/-- The map `x ↦ √(1 + x²)` is 1-Lipschitz. -/
theorem abs_sqrt_one_add_sq_sub_le (x y : ℝ) :
    |Real.sqrt (1 + x ^ 2) - Real.sqrt (1 + y ^ 2)| ≤ |x - y| := by
  have hx : 0 < Real.sqrt (1 + x ^ 2) := Real.sqrt_pos.mpr (by positivity)
  have hy : 0 < Real.sqrt (1 + y ^ 2) := Real.sqrt_pos.mpr (by positivity)
  have hx' : |x| ≤ Real.sqrt (1 + x ^ 2) := by
    rw [← Real.sqrt_sq_eq_abs]
    exact Real.sqrt_le_sqrt (by linarith)
  have hy' : |y| ≤ Real.sqrt (1 + y ^ 2) := by
    rw [← Real.sqrt_sq_eq_abs]
    exact Real.sqrt_le_sqrt (by linarith)
  have hsum : 0 < Real.sqrt (1 + x ^ 2) + Real.sqrt (1 + y ^ 2) := by positivity
  have hkey : (Real.sqrt (1 + x ^ 2) - Real.sqrt (1 + y ^ 2)) *
      (Real.sqrt (1 + x ^ 2) + Real.sqrt (1 + y ^ 2)) = (x - y) * (x + y) := by
    have e1 := Real.sq_sqrt (by positivity : (0:ℝ) ≤ 1 + x ^ 2)
    have e2 := Real.sq_sqrt (by positivity : (0:ℝ) ≤ 1 + y ^ 2)
    linear_combination e1 - e2
  have habs : |Real.sqrt (1 + x ^ 2) - Real.sqrt (1 + y ^ 2)| *
      (Real.sqrt (1 + x ^ 2) + Real.sqrt (1 + y ^ 2)) = |x - y| * |x + y| := by
    have h := congrArg abs hkey
    rw [abs_mul, abs_mul, abs_of_pos hsum] at h
    exact h
  have hxy : |x + y| ≤ Real.sqrt (1 + x ^ 2) + Real.sqrt (1 + y ^ 2) :=
    (abs_add x y).trans (add_le_add hx' hy')
  have : |Real.sqrt (1 + x ^ 2) - Real.sqrt (1 + y ^ 2)| *
      (Real.sqrt (1 + x ^ 2) + Real.sqrt (1 + y ^ 2)) ≤
      |x - y| * (Real.sqrt (1 + x ^ 2) + Real.sqrt (1 + y ^ 2)) := by
    rw [habs]
    exact mul_le_mul_of_nonneg_left hxy (abs_nonneg _)
  exact le_of_mul_le_mul_right this hsum

/-- Difference of two inverse square roots. -/
theorem inv_sqrt_sub_inv_sqrt (u v : ℝ) (hu : 0 < u) (hv : 0 < v) :
    1 / Real.sqrt u - 1 / Real.sqrt v =
      (v - u) / ((Real.sqrt u + Real.sqrt v) * (Real.sqrt u * Real.sqrt v)) := by
  have e1 := Real.sq_sqrt hu.le
  have e2 := Real.sq_sqrt hv.le
  have hsu : 0 < Real.sqrt u := Real.sqrt_pos.mpr hu
  have hsv : 0 < Real.sqrt v := Real.sqrt_pos.mpr hv
  field_simp
  linear_combination (Real.sqrt u * Real.sqrt v) * (e2 - e1)

/-- The radius factor `x ↦ 1/√(1 - e·x²/(1+x²))` of the prime vertical, written in the
tangent `x` of the latitude, is `e/(2k³)`-Lipschitz when `e = 1 - k²`, `0 < k ≤ 1`. -/
theorem abs_inv_sqrt_sub_le (k x y : ℝ) (hk0 : 0 < k) (hk1 : k ≤ 1) :
    |1 / Real.sqrt (1 - (1 - k ^ 2) * (x ^ 2 / (1 + x ^ 2))) -
      1 / Real.sqrt (1 - (1 - k ^ 2) * (y ^ 2 / (1 + y ^ 2)))| ≤
      (1 - k ^ 2) / (2 * k ^ 3) * |x - y| := by
  have hk2 : k ^ 2 ≤ 1 := pow_le_one₀ hk0.le hk1
  have he : 0 ≤ 1 - k ^ 2 := by linarith
  -- the quantity under the root lies in `[k², 1]`
  have hv : ∀ t : ℝ, k ^ 2 ≤ 1 - (1 - k ^ 2) * (t ^ 2 / (1 + t ^ 2)) ∧
      1 - (1 - k ^ 2) * (t ^ 2 / (1 + t ^ 2)) ≤ 1 := by
    intro t
    have h0 : 0 ≤ t ^ 2 / (1 + t ^ 2) := by positivity
    have h1 : t ^ 2 / (1 + t ^ 2) ≤ 1 := by
      rw [div_le_one (by positivity)]
      linarith
    constructor
    · have := mul_le_mul_of_nonneg_left h1 he
      linarith
    · have := mul_nonneg he h0
      linarith
  set vx := 1 - (1 - k ^ 2) * (x ^ 2 / (1 + x ^ 2)) with hvx
  set vy := 1 - (1 - k ^ 2) * (y ^ 2 / (1 + y ^ 2)) with hvy
  have hvx0 : 0 < vx := lt_of_lt_of_le (by positivity) (hv x).1
  have hvy0 : 0 < vy := lt_of_lt_of_le (by positivity) (hv y).1
  have hsx : k ≤ Real.sqrt vx := by
    rw [Real.le_sqrt' hk0]
    exact (hv x).1
  have hsy : k ≤ Real.sqrt vy := by
    rw [Real.le_sqrt' hk0]
    exact (hv y).1
  have hsx0 : 0 < Real.sqrt vx := lt_of_lt_of_le hk0 hsx
  have hsy0 : 0 < Real.sqrt vy := lt_of_lt_of_le hk0 hsy
  -- difference of the quantities under the root
  have hdv : |vy - vx| ≤ (1 - k ^ 2) * |x - y| := by
    have hfrac : ∀ t : ℝ, |t| / (1 + t ^ 2) ≤ 1 / 2 := by
      intro t
      rw [div_le_div_iff₀ (by positivity) (by norm_num)]
      have := sq_nonneg (|t| - 1)
      have := sq_abs t
      nlinarith
    have hid : vy - vx = (1 - k ^ 2) * ((x - y) * (x + y) / ((1 + x ^ 2) * (1 + y ^ 2))) := by
      rw [hvx, hvy]
      field_simp
      ring
    rw [hid, abs_mul, abs_of_nonneg he]
    apply mul_le_mul_of_nonneg_left _ he
    rw [abs_div, abs_mul, abs_of_pos (by positivity : 0 < (1 + x ^ 2) * (1 + y ^ 2))]
    have h1 : |x + y| / ((1 + x ^ 2) * (1 + y ^ 2)) ≤ 1 := by
      have hx1 : |x| / ((1 + x ^ 2) * (1 + y ^ 2)) ≤ 1 / 2 := by
        refine le_trans ?_ (hfrac x)
        apply div_le_div_of_nonneg_left (abs_nonneg x) (by positivity)
        nlinarith [sq_nonneg x, sq_nonneg y, mul_nonneg (sq_nonneg x) (sq_nonneg y)]
      have hy1 : |y| / ((1 + x ^ 2) * (1 + y ^ 2)) ≤ 1 / 2 := by
        refine le_trans ?_ (hfrac y)
        apply div_le_div_of_nonneg_left (abs_nonneg y) (by positivity)
        nlinarith [sq_nonneg x, sq_nonneg y, mul_nonneg (sq_nonneg x) (sq_nonneg y)]
      calc |x + y| / ((1 + x ^ 2) * (1 + y ^ 2))
          ≤ (|x| + |y|) / ((1 + x ^ 2) * (1 + y ^ 2)) :=
            div_le_div_of_nonneg_right (abs_add x y) (by positivity)
        _ = |x| / ((1 + x ^ 2) * (1 + y ^ 2)) + |y| / ((1 + x ^ 2) * (1 + y ^ 2)) := by
            rw [add_div]
        _ ≤ 1 := by linarith
    calc |x - y| * |x + y| / ((1 + x ^ 2) * (1 + y ^ 2))
        = |x - y| * (|x + y| / ((1 + x ^ 2) * (1 + y ^ 2))) := by rw [mul_div_assoc]
      _ ≤ |x - y| * 1 := mul_le_mul_of_nonneg_left h1 (abs_nonneg _)
      _ = |x - y| := mul_one _
  -- difference of the inverse roots
  have hid2 : 1 / Real.sqrt vx - 1 / Real.sqrt vy =
      (vy - vx) / ((Real.sqrt vx + Real.sqrt vy) * (Real.sqrt vx * Real.sqrt vy)) :=
    inv_sqrt_sub_inv_sqrt vx vy hvx0 hvy0
  rw [hid2, abs_div, abs_of_pos (by positivity :
    0 < (Real.sqrt vx + Real.sqrt vy) * (Real.sqrt vx * Real.sqrt vy))]
  have hden : 2 * k ^ 3 ≤ (Real.sqrt vx + Real.sqrt vy) * (Real.sqrt vx * Real.sqrt vy) := by
    have h1 : 2 * k ≤ Real.sqrt vx + Real.sqrt vy := by linarith
    have h2 : k * k ≤ Real.sqrt vx * Real.sqrt vy := mul_le_mul hsx hsy hk0.le hsx0.le
    calc 2 * k ^ 3 = (2 * k) * (k * k) := by ring
      _ ≤ _ := mul_le_mul h1 h2 (by positivity) (by positivity)
  calc |vy - vx| / ((Real.sqrt vx + Real.sqrt vy) * (Real.sqrt vx * Real.sqrt vy))
      ≤ (1 - k ^ 2) * |x - y| / (2 * k ^ 3) :=
        div_le_div₀ (by positivity) hdv (by positivity) hden
    _ = (1 - k ^ 2) / (2 * k ^ 3) * |x - y| := by ring

/-- The closed-form latitude tangent `Q` computed by the inverse from a point at height `h`
above latitude `φ` (`s = sin φ`, `c = cos φ`) differs from `tan φ` by at most `360/a²`. -/
theorem bowring_tan_bound (a F h s c : ℝ) (ha : 500000 ≤ a) (hF0 : 0 ≤ F) (hF1 : F < 0.01)
    (hh1 : -1000 ≤ h) (hh2 : h ≤ 9000) (hc : 0 < c) (hsc : s ^ 2 + c ^ 2 = 1) :
    let W := Real.sqrt (1 - (2 * F - F * F) * s ^ 2)
    let N := a / W
    let z := (N * (a * (1 - F)) ^ 2 / (a * a) + h) * s
    let sd := (N + h) * c
    let u := z * a / (sd * (a * (1 - F)))
    let Q := (z + (2 * F - F * F) * (a * a) / (a * (1 - F)) * (u / Real.sqrt (1 + u ^ 2)) ^ 3) /
      (sd - (2 * F - F * F) * a * (1 / Real.sqrt (1 + u ^ 2)) ^ 3)
    0 < W ∧ W ≤ 1 ∧ 1 - F ≤ W ∧ |Q - s / c| ≤ 360 / a ^ 2 := by
  intro W N z sd u Q
  have hWdef : W = Real.sqrt (1 - (2 * F - F * F) * s ^ 2) := rfl
  clear_value W
  have ha0 : 0 < a := by linarith
  have hk0 : 0 < 1 - F := by linarith
  have hk1 : (0.99 : ℝ) < 1 - F := by linarith
  have hk2 : 1 - F ≤ 1 := by linarith
  have he : 2 * F - F * F = 1 - (1 - F) ^ 2 := by ring
  have hW2pos : 0 < 1 - (2 * F - F * F) * s ^ 2 := by
    have : 1 - (2 * F - F * F) * s ^ 2 = c ^ 2 + (1 - F) ^ 2 * s ^ 2 := by
      have : c ^ 2 = 1 - s ^ 2 := by linarith
      rw [this]; ring
    rw [this]; positivity
  have hW : 0 < W := by rw [hWdef]; exact Real.sqrt_pos.mpr hW2pos
  have hW2 : W ^ 2 = c ^ 2 + (1 - F) ^ 2 * s ^ 2 := by
    rw [hWdef, Real.sq_sqrt hW2pos.le]
    have : c ^ 2 = 1 - s ^ 2 := by linarith
    rw [this]; ring
  obtain ⟨hW_ge, hW_le⟩ := bowring_W_bounds (1 - F) s c W hk0 hk2 hsc hW hW2
  have hhW : -1000 ≤ h * W := by
    have := mul_nonneg (by linarith : 0 ≤ h + 1000) hW.le
    linarith
  have hahW : 0 < a + h * W := by linarith
  obtain ⟨q, hq⟩ : ∃ q, q = (a * (1 - F) ^ 2 + h * W) / ((a + h * W) * (1 - F) ^ 2) := ⟨_, rfl⟩
  have hq0 : 0 < q := by
    have : 0 < a * (1 - F) ^ 2 + h * W := by
      have : (0.9801 : ℝ) ≤ (1 - F) ^ 2 := by nlinarith
      nlinarith
    rw [hq]; positivity
  have hX : 0 < c ^ 2 + (1 - F) ^ 2 * s ^ 2 * q ^ 2 := by positivity
  obtain ⟨R, hR_def⟩ : ∃ R, R = Real.sqrt (c ^ 2 + (1 - F) ^ 2 * s ^ 2 * q ^ 2) := ⟨_, rfl⟩
  have hR : 0 < R := by rw [hR_def]; exact Real.sqrt_pos.mpr hX
  have hR2 : R ^ 2 = c ^ 2 + (1 - F) ^ 2 * s ^ 2 * q ^ 2 := by
    rw [hR_def]; exact Real.sq_sqrt hX.le
  have hcore := bowring_core a (1 - F) h s c W q R ha hk1 hk2 hh1 hh2 hc hsc hW hW2 hq hR hR2
  have hNh : 0 < N + h := by
    have : N + h = (a + h * W) / W := by
      simp only [N]; field_simp
    rw [this]; positivity
  have hu : u = (1 - F) * s * q / c := by
    simp only [u, z, sd, N, hq]
    field_simp
    ring
  have hsq : Real.sqrt (1 + u ^ 2) = R / c := by
    rw [hu]
    have : 1 + ((1 - F) * s * q / c) ^ 2 = (R / c) ^ 2 := by
      rw [div_pow, div_pow, hR2]
      field_simp
      ring
    rw [this]
    exact Real.sqrt_sq (div_pos hR hc).le
  have hQ : Q = ((a / W * (1 - F) ^ 2 + h) * s +
      (1 - (1 - F) ^ 2) * (a / (1 - F)) * ((1 - F) * s * q / R) ^ 3) /
      ((a / W + h) * c - (1 - (1 - F) ^ 2) * a * (c / R) ^ 3) := by
    show (z + (2 * F - F * F) * (a * a) / (a * (1 - F)) * (u / Real.sqrt (1 + u ^ 2)) ^ 3) /
      (sd - (2 * F - F * F) * a * (1 / Real.sqrt (1 + u ^ 2)) ^ 3) = _
    rw [hsq, hu, he]
    simp only [z, sd, N]
    congr 1
    · field_simp
      ring
    · field_simp
  refine ⟨hW, hW_le, hW_ge, ?_⟩
  rw [hQ]
  exact hcore

/-- From the tangent bound to the latitude (in degrees) and the height: with `t = tan φ` and
`|Q - t| ≤ 360/a²`, the recovered latitude `arctan Q` and the recovered height
`sd·√(1+Q²) - a/√(1 - e²Q²/(1+Q²))` are within `1e-7` degrees and `1` mm. -/
theorem bowring_lat_height (a F h lat W Q : ℝ) (ha : 500000 ≤ a) (hF0 : 0 ≤ F)
    (hF1 : F < 0.01) (hh1 : -1000 ≤ h) (hh2 : h ≤ 9000) (hlat1 : -90 < lat) (hlat2 : lat < 90)
    (hWdef : W = Real.sqrt (1 - (2 * F - F * F) * sin (radian lat) ^ 2))
    (hW : 0 < W) (hWk : 1 - F ≤ W)
    (hQ : |Q - sin (radian lat) / cos (radian lat)| ≤ 360 / a ^ 2) :
    |degree (arctan Q) - lat| ≤ 1 / 10000000 ∧
    |(a / W + h) * cos (radian lat) / (1 / Real.sqrt (1 + Q ^ 2)) -
      a / Real.sqrt (1 - (2 * F - F * F) * (Q / Real.sqrt (1 + Q ^ 2)) ^ 2) - h| ≤ 1 / 1000 := by
  have ha0 : 0 < a := by linarith
  obtain ⟨hφ1, hφ2⟩ := radian_lat_range lat hlat1 hlat2
  have hc : 0 < cos (radian lat) := cos_pos_of_mem_Ioo ⟨hφ1, hφ2⟩
  have hsc : sin (radian lat) ^ 2 + cos (radian lat) ^ 2 = 1 := sin_sq_add_cos_sq _
  have hc1 : cos (radian lat) ≤ 1 := cos_le_one _
  obtain ⟨t, ht⟩ : ∃ t, t = sin (radian lat) / cos (radian lat) := ⟨_, rfl⟩
  rw [← ht] at hQ
  have hat : arctan t = radian lat := by
    rw [ht, ← Real.tan_eq_sin_div_cos]
    exact Real.arctan_tan hφ1 hφ2
  have ha2 : (360 : ℝ) / a ^ 2 ≤ 360 / 500000 ^ 2 := by
    apply div_le_div_of_nonneg_left (by norm_num) (by positivity)
    exact pow_le_pow_left₀ (by norm_num) ha 2
  constructor
  · -- latitude
    have h1 : |arctan Q - radian lat| ≤ 360 / 500000 ^ 2 := by
      rw [← hat]
      exact (abs_arctan_sub_le Q t).trans (hQ.trans ha2)
    have h2 : degree (arctan Q) - lat = (arctan Q - radian lat) * 180 / π := by
      unfold degree radian
      field_simp
      ring
    rw [h2, abs_div, abs_mul, abs_of_pos pi_pos, abs_of_pos (by norm_num : (0:ℝ) < 180),
      div_le_iff₀ pi_pos]
    have := Real.pi_gt_three
    nlinarith [abs_nonneg (arctan Q - radian lat)]
  · -- height
    have hk0 : 0 < 1 - F := by linarith
    have hk1 : 1 - F ≤ 1 := by linarith
    have he : 2 * F - F * F = 1 - (1 - F) ^ 2 := by ring
    have hW2 : W ^ 2 = 1 - (1 - (1 - F) ^ 2) * sin (radian lat) ^ 2 := by
      rw [hWdef, he, Real.sq_sqrt]
      rw [← he, hWdef] at *
      exact (Real.sqrt_pos.mp hW).le
    have hQ1 : 0 < Real.sqrt (1 + Q ^ 2) := Real.sqrt_pos.mpr (by positivity)
    have e1 : (Q / Real.sqrt (1 + Q ^ 2)) ^ 2 = Q ^ 2 / (1 + Q ^ 2) := by
      rw [div_pow, Real.sq_sqrt (by positivity)]
    have e3 : Real.sqrt (1 + t ^ 2) = 1 / cos (radian lat) := by
      have : 1 + t ^ 2 = (1 / cos (radian lat)) ^ 2 := by
        rw [ht]
        field_simp
      rw [this]
      exact Real.sqrt_sq (by positivity)
    have e4 : Real.sqrt (1 - (1 - (1 - F) ^ 2) * (t ^ 2 / (1 + t ^ 2))) = W := by
      have : 1 - (1 - (1 - F) ^ 2) * (t ^ 2 / (1 + t ^ 2)) = W ^ 2 := by
        have h1 : t ^ 2 / (1 + t ^ 2) = sin (radian lat) ^ 2 := by
          rw [ht]
          field_simp
        rw [h1, hW2]
      rw [this]
      exact Real.sqrt_sq hW.le
    obtain ⟨sd, hsd⟩ : ∃ sd, sd = (a / W + h) * cos (radian lat) := ⟨_, rfl⟩
    have hNW : a / W ≤ a / (1 - F) := div_le_div_of_nonneg_left ha0.le hk0 hWk
    have hN99 : a / (1 - F) ≤ a / 0.99 :=
      div_le_div_of_nonneg_left ha0.le (by norm_num) (by linarith)
    have hNpos : 0 < a / W := by positivity
    have haW : a ≤ a / W := by
      rw [le_div_iff₀ hW]
      have hW1 : W ≤ 1 := by
        apply le_of_sq_le_sq_nonneg (by norm_num)
        rw [hW2]
        have : 0 ≤ (1 - (1 - F) ^ 2) * sin (radian lat) ^ 2 := by
          apply mul_nonneg _ (sq_nonneg _)
          have := pow_le_one₀ hk0.le hk1 (n := 2)
          linarith
        linarith
      have := mul_le_mul_of_nonneg_left hW1 ha0.le
      linarith
    have hsd0 : 0 ≤ sd := by
      rw [hsd]
      exact mul_nonneg (by linarith) hc.le
    have hsd1 : sd ≤ a / 0.99 + 9000 := by
      rw [hsd]
      calc (a / W + h) * cos (radian lat) ≤ (a / W + h) * 1 :=
            mul_le_mul_of_nonneg_left hc1 (by linarith)
        _ ≤ a / 0.99 + 9000 := by linarith
    have hid : (a / W + h) * cos (radian lat) / (1 / Real.sqrt (1 + Q ^ 2)) -
        a / Real.sqrt (1 - (2 * F - F * F) * (Q / Real.sqrt (1 + Q ^ 2)) ^ 2) - h =
        sd * (Real.sqrt (1 + Q ^ 2) - Real.sqrt (1 + t ^ 2)) -
        a * (1 / Real.sqrt (1 - (1 - (1 - F) ^ 2) * (Q ^ 2 / (1 + Q ^ 2))) -
          1 / Real.sqrt (1 - (1 - (1 - F) ^ 2) * (t ^ 2 / (1 + t ^ 2)))) := by
      have s1 : (a / W + h) * cos (radian lat) / (1 / Real.sqrt (1 + Q ^ 2)) =
          sd * Real.sqrt (1 + Q ^ 2) := by
        rw [hsd, one_div, div_inv_eq_mul]
      have s2 : sd * (1 / cos (radian lat)) = a / W + h := by
        rw [hsd]
        field_simp
        ring
      rw [e1, e3, e4, he, s1, mul_sub sd, s2]
      ring
    rw [hid]
    have hL1 := abs_sqrt_one_add_sq_sub_le Q t
    have hL2 := abs_inv_sqrt_sub_le (1 - F) Q t hk0 hk1
    have hcoef : (1 - (1 - F) ^ 2) / (2 * (1 - F) ^ 3) ≤ 0.0103 := by
      rw [div_le_iff₀ (by positivity)]
      have h3 : (0.99 : ℝ) ^ 3 ≤ (1 - F) ^ 3 := pow_le_pow_left₀ (by norm_num) (by linarith) 3
      have h2 : (0.99 : ℝ) ^ 2 ≤ (1 - F) ^ 2 := pow_le_pow_left₀ (by norm_num) (by linarith) 2
      norm_num at h2 h3
      linarith
    have hcoef0 : 0 ≤ (1 - (1 - F) ^ 2) / (2 * (1 - F) ^ 3) := by
      apply div_nonneg _ (by positivity)
      have := pow_le_one₀ hk0.le hk1 (n := 2)
      linarith
    have hd0 : 0 ≤ |Q - t| := abs_nonneg _
    have hT1 : |sd * (Real.sqrt (1 + Q ^ 2) - Real.sqrt (1 + t ^ 2))| ≤
        (a / 0.99 + 9000) * |Q - t| := by
      rw [abs_mul, abs_of_nonneg hsd0]
      exact mul_le_mul hsd1 hL1 (abs_nonneg _) (by positivity)
    have hT2 : |a * (1 / Real.sqrt (1 - (1 - (1 - F) ^ 2) * (Q ^ 2 / (1 + Q ^ 2))) -
          1 / Real.sqrt (1 - (1 - (1 - F) ^ 2) * (t ^ 2 / (1 + t ^ 2))))| ≤
        a * (0.0103 * |Q - t|) := by
      rw [abs_mul, abs_of_pos ha0]
      apply mul_le_mul_of_nonneg_left _ ha0.le
      exact hL2.trans (mul_le_mul_of_nonneg_right hcoef hd0)
    have hsum := (abs_sub _ _).trans (add_le_add hT1 hT2)
    refine hsum.trans ?_
    have hfin : (a / 0.99 + 9000) * |Q - t| + a * (0.0103 * |Q - t|) ≤
        (1.039 * a) * (360 / a ^ 2) := by
      have h1 : a / 0.99 + 9000 + a * 0.0103 ≤ 1.039 * a := by
        have : a / 0.99 = a * (100 / 99) := by ring
        rw [this]
        linarith
      calc (a / 0.99 + 9000) * |Q - t| + a * (0.0103 * |Q - t|)
          = (a / 0.99 + 9000 + a * 0.0103) * |Q - t| := by ring
        _ ≤ (1.039 * a) * (360 / a ^ 2) := mul_le_mul h1 hQ hd0 (by positivity)
    refine hfin.trans ?_
    have : (1.039 * a) * (360 / a ^ 2) = 374.04 / a := by
      field_simp
      ring
    rw [this, div_le_iff₀ ha0]
    linarith

/-- The geographic round trip for points near the surface of a large ellipsoid: the
longitude is recovered exactly, the latitude within `1e-7` degrees and the height within
`1` mm. -/
theorem lonLat_near (sph : spheroid) (hA : 500000 ≤ sph.A) (hF0 : 0 ≤ sph.F)
    (hF1 : sph.F < 0.01) (lon lat h : ℝ) (hlon1 : -180 < lon) (hlon2 : lon ≤ 180)
    (hlat1 : -90 < lat) (hlat2 : lat < 90) (hh1 : -1000 ≤ h) (hh2 : h ≤ 9000) :
    (lonLat.fromXYZ (lonLat.toXYZ lon lat h sph).1 (lonLat.toXYZ lon lat h sph).2.1
      (lonLat.toXYZ lon lat h sph).2.2 sph).1 = lon ∧
    |(lonLat.fromXYZ (lonLat.toXYZ lon lat h sph).1 (lonLat.toXYZ lon lat h sph).2.1
      (lonLat.toXYZ lon lat h sph).2.2 sph).2.1 - lat| ≤ 1 / 10000000 ∧
    |(lonLat.fromXYZ (lonLat.toXYZ lon lat h sph).1 (lonLat.toXYZ lon lat h sph).2.1
      (lonLat.toXYZ lon lat h sph).2.2 sph).2.2 - h| ≤ 1 / 1000 := by
  obtain ⟨a, F⟩ := sph
  simp only [spheroid.A, spheroid.F] at hA hF0 hF1
  obtain ⟨hφ1, hφ2⟩ := radian_lat_range lat hlat1 hlat2
  obtain ⟨hl1, hl2⟩ := radian_lon_range lon hlon1 hlon2
  have hc : 0 < cos (radian lat) := cos_pos_of_mem_Ioo ⟨hφ1, hφ2⟩
  have hsc : sin (radian lat) ^ 2 + cos (radian lat) ^ 2 = 1 := sin_sq_add_cos_sq _
  obtain ⟨hW, hW1, hWk, hQ⟩ := bowring_tan_bound a F h (sin (radian lat)) (cos (radian lat))
    hA hF0 hF1 hh1 hh2 hc hsc
  have ha0 : 0 < a := by linarith
  have hN : a ≤ a / √(1 - (2 * F - F * F) * sin (radian lat) ^ 2) := by
    rw [le_div_iff₀ hW]
    have := mul_le_mul_of_nonneg_left hW1 ha0.le
    linarith
  have hNh : 0 < a / √(1 - (2 * F - F * F) * sin (radian lat) ^ 2) + h := by linarith
  have hsd : Real.sqrt ((a / √(1 - (2 * F - F * F) * sin (radian lat) ^ 2) + h) *
      cos (radian lon) * cos (radian lat) *
      ((a / √(1 - (2 * F - F * F) * sin (radian lat) ^ 2) + h) *
      cos (radian lon) * cos (radian lat)) +
      (a / √(1 - (2 * F - F * F) * sin (radian lat) ^ 2) + h) *
      cos (radian lat) * sin (radian lon) *
      ((a / √(1 - (2 * F - F * F) * sin (radian lat) ^ 2) + h) *
      cos (radian lat) * sin (radian lon))) =
      (a / √(1 - (2 * F - F * F) * sin (radian lat) ^ 2) + h) * cos (radian lat) := by
    have hsq : (a / √(1 - (2 * F - F * F) * sin (radian lat) ^ 2) + h) *
      cos (radian lon) * cos (radian lat) *
      ((a / √(1 - (2 * F - F * F) * sin (radian lat) ^ 2) + h) *
      cos (radian lon) * cos (radian lat)) +
      (a / √(1 - (2 * F - F * F) * sin (radian lat) ^ 2) + h) *
      cos (radian lat) * sin (radian lon) *
      ((a / √(1 - (2 * F - F * F) * sin (radian lat) ^ 2) + h) *
      cos (radian lat) * sin (radian lon)) =
      ((a / √(1 - (2 * F - F * F) * sin (radian lat) ^ 2) + h) * cos (radian lat)) ^ 2 := by
      have := sin_sq_add_cos_sq (radian lon)
      linear_combination ((a / √(1 - (2 * F - F * F) * sin (radian lat) ^ 2) + h) ^ 2 *
        cos (radian lat) ^ 2) * this
    rw [hsq]
    exact Real.sqrt_sq (mul_pos hNh hc).le
  have hlon : math.Atan2
      ((a / √(1 - (2 * F - F * F) * sin (radian lat) ^ 2) + h) * cos (radian lat) *
        sin (radian lon))
      ((a / √(1 - (2 * F - F * F) * sin (radian lat) ^ 2) + h) * cos (radian lon) *
        cos (radian lat)) = radian lon := by
    have := math.Atan2_polar _ (radian lon) (mul_pos hNh hc) hl1 hl2
    convert this using 2
    ring
  have key := bowring_lat_height a F h lat _ _ hA hF0 hF1 hh1 hh2 hlat1 hlat2 rfl hW hWk hQ
  simp only [lonLat.fromXYZ, lonLat.toXYZ, lonLat.N, spheroid.A, spheroid.F, spheroid.A2,
    spheroid.B, spheroid.E2, math.Pow_two, math.Pow_three, hsd, Real.sin_arctan, Real.cos_arctan,
    hlon, degree_radian]
  exact ⟨trivial, key.1, key.2⟩

/-- Longitudes `-180` and `180` give the same geocentric point. -/
theorem lonLat_toXYZ_antimeridian (lat h : ℝ) (sph : spheroid) :
    lonLat.toXYZ (-180) lat h sph = lonLat.toXYZ 180 lat h sph := by
  have h1 : radian (-180) = -π := by unfold radian; ring
  have h2 : radian 180 = π := by unfold radian; ring
  simp only [lonLat.toXYZ, h1, h2, Real.cos_neg, Real.sin_neg, Real.sin_pi, neg_zero]

/-- The modulus of `x + y i`. -/
theorem abs_mk_eq_sqrt (x y : ℝ) : Complex.abs ⟨x, y⟩ = Real.sqrt (x ^ 2 + y ^ 2) := by
  rw [Complex.abs_apply, Complex.normSq_mk]
  congr 1
  ring

/-- WGS84 has `0 < E² < 1`. -/
theorem Datum_E2_bounds : 0 < Datum.Spheroid.E2 ∧ Datum.Spheroid.E2 < 1 := by
  unfold Datum.Spheroid spheroid.E2 spheroid.F
  constructor <;> norm_num

/-- `radian` is injective. -/
theorem radian_injective {a b : ℝ} (h : radian a = radian b) : a = b := by
  have := congrArg degree h
  rwa [degree_radian, degree_radian] at this

/-- An eccentricity below one has its square below one. -/
theorem spheroid.E2_lt_one_of_E (sph : spheroid) (hE : sph.E < 1) : sph.E2 < 1 := by
  unfold spheroid.E at hE
  have := (Real.sqrt_lt' (by norm_num : (0:ℝ) < 1)).mp hE
  simpa using this

/-- On a proper ellipsoid (`0 < F < 1`) the eccentricity is positive. -/
theorem spheroid.E_pos (sph : spheroid) (h0 : 0 < sph.F) (h1 : sph.F < 1) : 0 < sph.E := by
  unfold spheroid.E spheroid.E2
  apply Real.sqrt_pos.mpr
  nlinarith

/-- For `F < 1` the eccentricity is below one. -/
theorem spheroid.E_lt_one (sph : spheroid) (h1 : sph.F < 1) : sph.E < 1 := by
  unfold spheroid.E spheroid.E2
  rw [Real.sqrt_lt' (by norm_num)]
  nlinarith

/-- The radicand of the helper `m` is positive when `E² < 1`. -/
theorem one_sub_E2_sin2_pos (e2 φ : ℝ) (he : e2 < 1) : 0 < 1 - e2 * sin2 φ := by
  rw [sin2, math.Pow_two]
  have h1 : sin φ ^ 2 ≤ 1 := Real.sin_sq_le_one φ
  have h0 : 0 ≤ sin φ ^ 2 := sq_nonneg _
  rcases le_or_lt e2 0 with h | h
  · have := mul_nonpos_of_nonpos_of_nonneg h h0
    linarith
  · have := mul_le_mul_of_nonneg_left h1 h.le
    linarith

/-- The base of the eccentricity power is positive when `0 ≤ E < 1`. -/
theorem ecc_ratio_pos (e φ : ℝ) (he0 : 0 ≤ e) (he1 : e < 1) :
    0 < (1 - e * sin φ) / (1 + e * sin φ) := by
  have h1 := Real.sin_le_one φ
  have h2 := Real.neg_one_le_sin φ
  have h3 : e * sin φ ≤ e := mul_le_of_le_one_right he0 h1
  have h4 : e * (-sin φ) ≤ e := mul_le_of_le_one_right he0 (by linarith)
  apply div_pos <;> linarith

/-- The helpers `t` and `m` of the two-parallel Lambert projection are positive strictly
between the poles. -/
theorem lcc2_t_m_pos (sph : spheroid) (hE1 : sph.E < 1) (φ : ℝ) (h1 : -(π / 2) < φ)
    (h2 : φ < π / 2) :
    0 < lambertConformalConic2SP.t φ sph ∧ 0 < lambertConformalConic2SP.m φ sph := by
  have hE0 : 0 ≤ sph.E := Real.sqrt_nonneg _
  constructor
  · unfold lambertConformalConic2SP.t math.Pow
    apply div_pos
    · exact Real.tan_pos_of_pos_of_lt_pi_div_two (by linarith) (by linarith)
    · exact Real.rpow_pos_of_pos (ecc_ratio_pos _ _ hE0 hE1) _
  · unfold lambertConformalConic2SP.m
    apply div_pos
    · exact Real.cos_pos_of_mem_Ioo ⟨h1, h2⟩
    · exact Real.sqrt_pos.mpr (one_sub_E2_sin2_pos _ _ (sph.E2_lt_one_of_E hE1))

/-- With the cone constant `(log m₁ - log m₂)/(log t₁ - log t₂)` the powers of `t` are in the
ratio of the `m`. -/
theorem cone_pow_ratio (t1 t2 m1 m2 : ℝ) (ht1 : 0 < t1) (ht2 : 0 < t2) (hm1 : 0 < m1)
    (hm2 : 0 < m2) (hL : Real.log t1 ≠ Real.log t2) :
    math.Pow t2 ((Real.log m1 - Real.log m2) / (Real.log t1 - Real.log t2)) =
      math.Pow t1 ((Real.log m1 - Real.log m2) / (Real.log t1 - Real.log t2)) * (m2 / m1) := by
  unfold math.Pow
  have hL2 : Real.log t1 - Real.log t2 ≠ 0 := sub_ne_zero.mpr hL
  rw [Real.rpow_def_of_pos ht1, Real.rpow_def_of_pos ht2]
  rw [show m2 / m1 = Real.exp (Real.log (m2 / m1)) from (Real.exp_log (div_pos hm2 hm1)).symm,
    ← Real.exp_add, Real.log_div hm2.ne' hm1.ne']
  congr 1
  field_simp
  ring

/-- Strictly between the poles and off the equator the sine of the latitude is not zero. -/
theorem sin_radian_ne_zero (lat : ℝ) (h1 : -90 < lat) (h2 : lat < 90) (h0 : lat ≠ 0) :
    sin (radian lat) ≠ 0 := by
  obtain ⟨ha, hb⟩ := radian_lat_range lat h1 h2
  intro h
  rw [Real.sin_eq_zero_iff_of_lt_of_lt (by linarith [pi_pos]) (by linarith [pi_pos])] at h
  rw [← radian_zero] at h
  exact h0 (radian_injective h)

/-- Zero and sixty degrees are different angles, `0` and `π/3`. -/
theorem radian_0_60 : radian 0 = 0 ∧ radian 60 = π / 3 ∧ radian 0 ≠ radian 60 := by
  refine ⟨by unfold radian; ring, by unfold radian; ring, fun h => ?_⟩
  have := radian_injective h
  norm_num at this

/-- The two-parallel Lambert projection with parallels `0` and `60` on a sphere: the log
quotient is defined (`t` differs at the two parallels) and the cone constant is not zero. -/
theorem lcc2_sphere_0_60 (a : ℝ) :
    lambertConformalConic2SP.n 0 60 ⟨a, 0⟩ ≠ 0 ∧
    lambertConformalConic2SP.t (radian 0) ⟨a, 0⟩ ≠
      lambertConformalConic2SP.t (radian 60) ⟨a, 0⟩ := by
  obtain ⟨r0, r60, hne⟩ := radian_0_60
  have ht : ∀ φ, lambertConformalConic2SP.t φ ⟨a, 0⟩ = tan (π / 4 - φ / 2) := fun φ => by
    simp [lambertConformalConic2SP.t, spheroid.E_sphere, math.Pow_zero_exp]
  have hm : ∀ φ, lambertConformalConic2SP.m φ ⟨a, 0⟩ = cos φ := fun φ => by
    simp [lambertConformalConic2SP.m, spheroid.E2_sphere]
  have h12 : π / 4 - π / 3 / 2 = π / 12 := by ring
  have hpos : 0 < tan (π / 12) :=
    Real.tan_pos_of_pos_of_lt_pi_div_two (by positivity) (by linarith [pi_pos])
  have hlt : tan (π / 12) < 1 := by
    rw [← Real.tan_pi_div_four]
    exact Real.tan_lt_tan_of_lt_of_lt_pi_div_two (by linarith [pi_pos]) (by linarith [pi_pos])
      (by linarith [pi_pos])
  have hlog : Real.log (tan (π / 12)) < 0 := Real.log_neg hpos hlt
  have hlog2 : Real.log (1 / 2) < 0 := Real.log_neg (by norm_num) (by norm_num)
  constructor
  · unfold lambertConformalConic2SP.n
    rw [if_neg hne, ht, ht, hm, hm, r0, r60, h12, Real.cos_zero, Real.cos_pi_div_three]
    simp only [zero_div, sub_zero, Real.tan_pi_div_four, Real.log_one, zero_sub]
    exact div_ne_zero (neg_ne_zero.mpr hlog2.ne) (neg_ne_zero.mpr hlog.ne)
  · rw [ht, ht, r0, r60, h12]
    simp only [zero_div, sub_zero, Real.tan_pi_div_four]
    exact hlt.ne'

/-- The equidistant conic with parallels `0` and `60` on a sphere of radius `a > 0`: the
meridian arcs differ and the cone constant is not zero. -/
theorem equidistant_sphere_0_60 (a : ℝ) (ha : 0 < a) :
    equidistantConic.n 0 60 ⟨a, 0⟩ ≠ 0 ∧
    equidistantConic.M (radian 0) ⟨a, 0⟩ ≠ equidistantConic.M (radian 60) ⟨a, 0⟩ := by
  obtain ⟨r0, r60, hne⟩ := radian_0_60
  have hM : ∀ φ, equidistantConic.M φ ⟨a, 0⟩ = a * φ := fun φ => by
    simp [equidistantConic.M, spheroid.E2_sphere, spheroid.E4, spheroid.E6, spheroid.A]
  have hm : ∀ φ, equidistantConic.m φ ⟨a, 0⟩ = cos φ := fun φ => by
    simp [equidistantConic.m, spheroid.E2_sphere]
  have hp : 0 < a * (π / 3) := by positivity
  constructor
  · unfold equidistantConic.n
    rw [if_neg hne, hM, hM, hm, hm, r0, r60, Real.cos_zero, Real.cos_pi_div_three]
    simp only [spheroid.A, mul_zero, sub_zero]
    exact div_ne_zero (by positivity) hp.ne'
  · rw [hM, hM, r0, r60, mul_zero]
    exact hp.ne

/-- Albers on a proper ellipsoid (`0 < F < 1`, so the divisor `2·E` of `q` is not zero) is
true-scale on both standard parallels. -/
theorem albers_true_scale_ellipsoid (sph : spheroid) (lat1 lat2 : ℝ) (_hA : 0 < sph.A)
    (hF0 : 0 < sph.F) (hF1 : sph.F < 1)
    (h1 : -90 ≤ lat1) (h1' : lat1 ≤ 90) (h2 : -90 ≤ lat2) (h2' : lat2 ≤ 90)
    (hn : albersEqualAreaConic.n lat1 lat2 sph ≠ 0)
    (hq : lat1 ≠ lat2 → albersEqualAreaConic.q (radian lat1) sph ≠
      albersEqualAreaConic.q (radian lat2) sph) :
    2 * sph.E ≠ 0 ∧
    albersEqualAreaConic.ρ lat1 lat2 (radian lat1) sph * albersEqualAreaConic.n lat1 lat2 sph =
      sph.A * albersEqualAreaConic.m (radian lat1) sph ∧
    albersEqualAreaConic.ρ lat1 lat2 (radian lat2) sph * albersEqualAreaConic.n lat1 lat2 sph =
      sph.A * albersEqualAreaConic.m (radian lat2) sph := by
  have hm : ∀ lat : ℝ, -90 ≤ lat → lat ≤ 90 → 0 ≤ albersEqualAreaConic.m (radian lat) sph := by
    intro lat ha hb
    unfold albersEqualAreaConic.m
    apply div_nonneg _ (Real.sqrt_nonneg _)
    apply Real.cos_nonneg_of_neg_pi_div_two_le_of_le
    · unfold radian; nlinarith [pi_pos]
    · unfold radian; nlinarith [pi_pos]
  have first : albersEqualAreaConic.ρ lat1 lat2 (radian lat1) sph *
      albersEqualAreaConic.n lat1 lat2 sph = sph.A * albersEqualAreaConic.m (radian lat1) sph := by
    unfold albersEqualAreaConic.ρ albersEqualAreaConic.C
    rw [add_sub_cancel_right, Real.sqrt_mul_self (hm lat1 h1 h1')]
    field_simp
  refine ⟨mul_ne_zero two_ne_zero (sph.E_pos hF0 hF1).ne', first, ?_⟩
  by_cases h : lat1 = lat2
  · subst h; exact first
  · have hr : radian lat1 ≠ radian lat2 := fun e => h (radian_injective e)
    have hq2 : albersEqualAreaConic.q (radian lat2) sph -
        albersEqualAreaConic.q (radian lat1) sph ≠ 0 := sub_ne_zero.mpr (fun e => hq h e.symm)
    have hnv : albersEqualAreaConic.n lat1 lat2 sph =
        (albersEqualAreaConic.m (radian lat1) sph * albersEqualAreaConic.m (radian lat1) sph -
          albersEqualAreaConic.m (radian lat2) sph * albersEqualAreaConic.m (radian lat2) sph) /
        (albersEqualAreaConic.q (radian lat2) sph - albersEqualAreaConic.q (radian lat1) sph) := by
      unfold albersEqualAreaConic.n
      rw [if_neg hr]
    have hrad : albersEqualAreaConic.C lat1 lat2 sph -
        albersEqualAreaConic.n lat1 lat2 sph * albersEqualAreaConic.q (radian lat2) sph =
        albersEqualAreaConic.m (radian lat2) sph * albersEqualAreaConic.m (radian lat2) sph := by
      unfold albersEqualAreaConic.C
      rw [hnv]
      field_simp
      ring
    unfold albersEqualAreaConic.ρ
    rw [hrad, Real.sqrt_mul_self (hm lat2 h2 h2')]
    field_simp

/-- Reading every zero as `+0.0`, Go's `math.Atan2` is the angle `math.Atan2` off the
origin. -/
theorem math.Atan2_signed_false (xneg : Bool) (y x : ℝ) (h : x ≠ 0 ∨ y ≠ 0) :
    math.Atan2.signed false xneg y x = math.Atan2 y x := by
  unfold math.Atan2.signed
  by_cases hc : y = 0 ∧ (x < 0 ∨ (x = 0 ∧ xneg = true))
  · rw [if_pos hc, if_neg (by simp)]
    obtain ⟨hy, hx | ⟨hx, _⟩⟩ := hc
    · rw [hy, math.Atan2]
      have : (⟨x, 0⟩ : ℂ) = (x : ℂ) := rfl
      rw [this, Complex.arg_ofReal_of_neg hx]
    · rcases h with h | h
      · exact absurd hx h
      · exact absurd hy h
  · rw [if_neg hc]

/-- The angle returned by Go's `math.Atan2` for the point `r·(cos θ, sin θ)`, `r > 0`,
`-π ≤ θ ≤ π`, when the sign bit of a zero `y` is that of `sin θ` (negative for `θ < 0`). -/
theorem math.Atan2_signed_polar (xneg : Bool) (r θ : ℝ) (hr : 0 < r) (h1 : -π ≤ θ)
    (h2 : θ ≤ π) :
    math.Atan2.signed (decide (sin θ < 0 ∨ (sin θ = 0 ∧ θ < 0))) xneg (r * sin θ) (r * cos θ) =
      θ := by
  rcases eq_or_lt_of_le h1 with h | h
  · subst h
    have hs : sin (-π) = 0 := by rw [Real.sin_neg, Real.sin_pi, neg_zero]
    have hc : cos (-π) = -1 := by rw [Real.cos_neg, Real.cos_pi]
    have hd : decide (sin (-π) < 0 ∨ (sin (-π) = 0 ∧ -π < 0)) = true := by
      rw [decide_eq_true_iff]
      exact Or.inr ⟨hs, by linarith [pi_pos]⟩
    rw [hd, hs, hc, mul_zero]
    unfold math.Atan2.signed
    rw [if_pos ⟨rfl, Or.inl (by linarith)⟩, if_pos rfl]
  · have hd : decide (sin θ < 0 ∨ (sin θ = 0 ∧ θ < 0)) = false ∨
        r * sin θ ≠ 0 := by
      by_cases hs : sin θ = 0
      · left
        rw [decide_eq_false_iff_not]
        rintro (h' | ⟨_, h'⟩)
        · linarith
        · rcases eq_or_lt_of_le h2 with h3 | h3
          · linarith [pi_pos]
          · have := (Real.sin_eq_zero_iff_of_lt_of_lt h h3).mp hs
            linarith
      · right
        exact mul_ne_zero hr.ne' hs
    have hpol := math.Atan2_polar r θ hr h h2
    rcases hd with hd | hd
    · rw [hd, math.Atan2_signed_false _ _ _ ?_, hpol]
      by_cases hc : cos θ = 0
      · right
        have := Real.sin_sq_add_cos_sq θ
        rw [hc] at this
        have hs : sin θ ≠ 0 := by
          intro h0
          rw [h0] at this
          norm_num at this
        exact mul_ne_zero hr.ne' hs
      · left
        exact mul_ne_zero hr.ne' hc
    · unfold math.Atan2.signed
      rw [if_neg (fun hc => hd hc.1), hpol]

/-- Go's `math.Atan2` off the origin: the angle lies in `[-π, π]` and is a polar angle of the
point `(x, y)`; for `y ≠ 0` it is the angle `math.Atan2 y x`. -/
theorem math.Atan2_signed_spec (yneg xneg : Bool) (x y : ℝ) (hxy : x ≠ 0 ∨ y ≠ 0) :
    -π ≤ math.Atan2.signed yneg xneg y x ∧ math.Atan2.signed yneg xneg y x ≤ π ∧
    x = Real.sqrt (x ^ 2 + y ^ 2) * cos (math.Atan2.signed yneg xneg y x) ∧
    y = Real.sqrt (x ^ 2 + y ^ 2) * sin (math.Atan2.signed yneg xneg y x) ∧
    (y ≠ 0 → math.Atan2.signed yneg xneg y x = Complex.arg ⟨x, y⟩) := by
  unfold math.Atan2.signed
  by_cases hc : y = 0 ∧ (x < 0 ∨ (x = 0 ∧ xneg = true))
  · rw [if_pos hc]
    obtain ⟨hy, hx⟩ := hc
    have hx0 : x < 0 := by
      rcases hx with hx | ⟨hx, _⟩
      · exact hx
      · rcases hxy with h | h
        · exact absurd hx h
        · exact absurd hy h
    have hsd : Real.sqrt (x ^ 2 + y ^ 2) = -x := by
      rw [hy, show x ^ 2 + (0:ℝ) ^ 2 = (-x) ^ 2 by ring]
      exact Real.sqrt_sq (by linarith)
    rw [hsd]
    by_cases hn : yneg = true
    · rw [if_pos hn]
      refine ⟨le_rfl, by linarith [pi_pos], ?_, ?_, fun h => absurd hy h⟩
      · rw [Real.cos_neg, Real.cos_pi]; ring
      · rw [Real.sin_neg, Real.sin_pi, hy]; ring
    · rw [if_neg hn]
      refine ⟨by linarith [pi_pos], le_rfl, ?_, ?_, fun h => absurd hy h⟩
      · rw [Real.cos_pi]; ring
      · rw [Real.sin_pi, hy]; ring
  · rw [if_neg hc]
    have hz : (⟨x, y⟩ : ℂ) ≠ 0 := by
      intro h
      have h1 := congrArg Complex.re h
      have h2 := congrArg Complex.im h
      simp at h1 h2
      rcases hxy with h | h
      · exact h h1
      · exact h h2
    have habs : Complex.abs ⟨x, y⟩ ≠ 0 := (Complex.abs.ne_zero_iff).mpr hz
    rw [← abs_mk_eq_sqrt, math.Atan2]
    refine ⟨(Complex.neg_pi_lt_arg _).le, Complex.arg_le_pi _, ?_, ?_, fun _ => rfl⟩
    · rw [Complex.cos_arg hz]
      field_simp
    · rw [Complex.sin_arg]
      field_simp

/-- A quotient with a divisor that is not zero is a real number. -/
theorem float64.div_of_ne (x : ℝ) {y : ℝ} (h : y ≠ 0) : float64.div x y = some (x / y) :=
  if_neg h

/-- A quotient with divisor zero is not a real number. -/
theorem float64.div_zero (x : ℝ) : float64.div x 0 = none := if_pos rfl

/-- The root of a number that is not negative is a real number. -/
theorem float64.sqrt_of_nonneg {x : ℝ} (h : 0 ≤ x) : float64.sqrt x = some (Real.sqrt x) :=
  if_neg (not_lt.mpr h)

/-- The logarithm of a positive number is a real number. -/
theorem float64.log_of_pos {x : ℝ} (h : 0 < x) : float64.log x = some (Real.log x) :=
  if_neg (not_le.mpr h)

/-- A power with a positive base is a real number. -/
theorem float64.pow_of_pos {x : ℝ} (y : ℝ) (h : 0 < x) : float64.pow x y = some (x ^ y) := by
  unfold float64.pow
  rw [if_neg (fun hc => absurd h (not_lt.mpr hc.1.le)), if_neg (fun hc => h.ne' hc.1)]

/-- The tangent off its poles is a real number. -/
theorem float64.tan_of_cos_ne {x : ℝ} (h : Real.cos x ≠ 0) :
    float64.tan x = some (Real.tan x) :=
  if_neg h

/-- The checked closures `t` return the value of the closures `t` strictly between the
poles on an ellipsoid with `E < 1`. -/
theorem conic_t_checked (sph : spheroid) (hE1 : sph.E < 1) (φ : ℝ) (h1 : -(π / 2) < φ)
    (h2 : φ < π / 2) :
    lambertConformalConic1SP.t.checked φ sph = some (lambertConformalConic1SP.t φ sph) ∧
    lambertConformalConic2SP.t.checked φ sph = some (lambertConformalConic2SP.t φ sph) := by
  have hE0 : 0 ≤ sph.E := Real.sqrt_nonneg _
  have hr := ecc_ratio_pos sph.E φ hE0 hE1
  have hc : cos (π / 4 - φ / 2) ≠ 0 :=
    (Real.cos_pos_of_mem_Ioo ⟨by linarith, by linarith⟩).ne'
  have hd : 1 + sph.E * sin φ ≠ 0 := by
    intro h0
    rw [h0, div_zero] at hr
    exact lt_irrefl _ hr
  have hp : ((1 - sph.E * sin φ) / (1 + sph.E * sin φ)) ^ (sph.E / 2) ≠ 0 :=
    (Real.rpow_pos_of_pos hr _).ne'
  constructor
  · simp only [lambertConformalConic1SP.t.checked, float64.tan_of_cos_ne hc,
      float64.div_of_ne _ hd, float64.pow_of_pos _ hr, float64.div_of_ne _ hp,
      Option.some_bind, Option.bind_eq_bind, lambertConformalConic1SP.t, math.Pow]
  · simp only [lambertConformalConic2SP.t.checked, float64.tan_of_cos_ne hc,
      float64.div_of_ne _ hd, float64.pow_of_pos _ hr, float64.div_of_ne _ hp,
      Option.some_bind, Option.bind_eq_bind, lambertConformalConic2SP.t, math.Pow]

/-- The checked closures `m` return the value of the closures `m` on an ellipsoid with
`E² < 1`. -/
theorem conic_m_checked (sph : spheroid) (hE2 : sph.E2 < 1) (φ : ℝ) :
    lambertConformalConic1SP.m.checked φ sph = some (lambertConformalConic1SP.m φ sph) ∧
    lambertConformalConic2SP.m.checked φ sph = some (lambertConformalConic2SP.m φ sph) ∧
    albersEqualAreaConic.m.checked φ sph = some (albersEqualAreaConic.m φ sph) ∧
    equidistantConic.m.checked φ sph = some (equidistantConic.m φ sph) := by
  have hpos := one_sub_E2_sin2_pos sph.E2 φ hE2
  have hs : Real.sqrt (1 - sph.E2 * sin2 φ) ≠ 0 := (Real.sqrt_pos.mpr hpos).ne'
  refine ⟨?_, ?_, ?_, ?_⟩
  · simp only [lambertConformalConic1SP.m.checked, float64.sqrt_of_nonneg hpos.le,
      float64.div_of_ne _ hs, Option.some_bind, lambertConformalConic1SP.m]
  · simp only [lambertConformalConic2SP.m.checked, float64.sqrt_of_nonneg hpos.le,
      float64.div_of_ne _ hs, Option.some_bind, lambertConformalConic2SP.m]
  · simp only [albersEqualAreaConic.m.checked, float64.sqrt_of_nonneg hpos.le,
      float64.div_of_ne _ hs, Option.some_bind, albersEqualAreaConic.m]
  · simp only [equidistantConic.m.checked, float64.sqrt_of_nonneg hpos.le,
      float64.div_of_ne _ hs, Option.some_bind, equidistantConic.m]

/-- For `F < 1` the squared eccentricity is below one. -/
theorem spheroid.E2_lt_one (sph : spheroid) (h1 : sph.F < 1) : sph.E2 < 1 :=
  sph.E2_lt_one_of_E (sph.E_lt_one h1)

/-- The checked closure `ρ` of `lambertConformalConic1SP` returns the value of `ρ` for a
standard parallel off the equator and a positive scale. -/
theorem lcc1_ρ_checked (sph : spheroid) (hF1 : sph.F < 1) (latf scale φ : ℝ)
    (hlat1 : -90 < latf) (hlat2 : latf < 90) (h0 : latf ≠ 0) (hs : 0 < scale)
    (h1 : -(π / 2) < φ) (h2 : φ < π / 2) :
    lambertConformalConic1SP.ρ.checked latf scale φ sph =
      some (lambertConformalConic1SP.ρ latf scale φ sph) := by
  have hE1 := sph.E_lt_one hF1
  obtain ⟨hr1, hr2⟩ := radian_lat_range latf hlat1 hlat2
  have ht0 : 0 < lambertConformalConic1SP.t (radian latf) sph :=
    (lcc2_t_m_pos sph hE1 (radian latf) hr1 hr2).1
  have ht : 0 < lambertConformalConic1SP.t φ sph := (lcc2_t_m_pos sph hE1 φ h1 h2).1
  have hn : lambertConformalConic1SP.n latf ≠ 0 := sin_radian_ne_zero latf hlat1 hlat2 h0
  have hd : lambertConformalConic1SP.n latf *
      lambertConformalConic1SP.t (radian latf) sph ^ lambertConformalConic1SP.n latf ≠ 0 :=
    mul_ne_zero hn (Real.rpow_pos_of_pos ht0 _).ne'
  simp only [lambertConformalConic1SP.ρ.checked, lambertConformalConic1SP.F.checked,
    (conic_m_checked sph (sph.E2_lt_one hF1) _).1, (conic_t_checked sph hE1 _ hr1 hr2).1,
    (conic_t_checked sph hE1 φ h1 h2).1, float64.pow_of_pos _ ht0, float64.div_of_ne _ hd,
    float64.pow_of_pos _ (mul_pos ht hs), Option.some_bind, lambertConformalConic1SP.ρ,
    lambertConformalConic1SP.F, math.Pow]

/-- The checked closures `n` and `ρ` of `lambertConformalConic2SP` return the values of `n`
and `ρ` for standard parallels strictly between the poles with `n ≠ 0` and, unless they
coincide, `t(lat1) ≠ t(lat2)`. -/
theorem lcc2_ρ_checked (sph : spheroid) (hF1 : sph.F < 1) (lat1 lat2 φ : ℝ)
    (h1 : -90 < lat1) (h1' : lat1 < 90) (h2 : -90 < lat2) (h2' : lat2 < 90)
    (hn : lambertConformalConic2SP.n lat1 lat2 sph ≠ 0)
    (ht : lat1 ≠ lat2 → lambertConformalConic2SP.t (radian lat1) sph ≠
      lambertConformalConic2SP.t (radian lat2) sph)
    (hφ1 : -(π / 2) < φ) (hφ2 : φ < π / 2) :
    lambertConformalConic2SP.n.checked lat1 lat2 sph =
      some (lambertConformalConic2SP.n lat1 lat2 sph) ∧
    lambertConformalConic2SP.ρ.checked lat1 lat2 φ sph =
      some (lambertConformalConic2SP.ρ lat1 lat2 φ sph) := by
  have hE1 := sph.E_lt_one hF1
  have hE2 := sph.E2_lt_one hF1
  obtain ⟨ha1, ha2⟩ := radian_lat_range lat1 h1 h1'
  obtain ⟨hb1, hb2⟩ := radian_lat_range lat2 h2 h2'
  obtain ⟨ht1, hm1⟩ := lcc2_t_m_pos sph hE1 (radian lat1) ha1 ha2
  obtain ⟨ht2, hm2⟩ := lcc2_t_m_pos sph hE1 (radian lat2) hb1 hb2
  have htφ := (lcc2_t_m_pos sph hE1 φ hφ1 hφ2).1
  have hnc : lambertConformalConic2SP.n.checked lat1 lat2 sph =
      some (lambertConformalConic2SP.n lat1 lat2 sph) := by
    unfold lambertConformalConic2SP.n.checked lambertConformalConic2SP.n
    by_cases hr : radian lat1 = radian lat2
    · rw [if_pos hr, if_pos hr]
    · have hL : Real.log (lambertConformalConic2SP.t (radian lat1) sph) -
          Real.log (lambertConformalConic2SP.t (radian lat2) sph) ≠ 0 := by
        intro e
        exact ht (fun e' => hr (by rw [e'])) (Real.log_injOn_pos (Set.mem_Ioi.mpr ht1)
          (Set.mem_Ioi.mpr ht2) (sub_eq_zero.mp e))
      rw [if_neg hr, if_neg hr]
      simp only [(conic_m_checked sph hE2 _).2.1, (conic_t_checked sph hE1 _ ha1 ha2).2,
        (conic_t_checked sph hE1 _ hb1 hb2).2, float64.log_of_pos hm1, float64.log_of_pos hm2,
        float64.log_of_pos ht1, float64.log_of_pos ht2, float64.div_of_ne _ hL,
        Option.some_bind]
  have hd : lambertConformalConic2SP.n lat1 lat2 sph *
      lambertConformalConic2SP.t (radian lat1) sph ^ lambertConformalConic2SP.n lat1 lat2 sph ≠
      0 := mul_ne_zero hn (Real.rpow_pos_of_pos ht1 _).ne'
  refine ⟨hnc, ?_⟩
  simp only [lambertConformalConic2SP.ρ.checked, lambertConformalConic2SP.F.checked, hnc,
    (conic_m_checked sph hE2 _).2.1, (conic_t_checked sph hE1 _ ha1 ha2).2,
    (conic_t_checked sph hE1 φ hφ1 hφ2).2, float64.pow_of_pos _ ht1, float64.div_of_ne _ hd,
    float64.pow_of_pos _ htφ, Option.some_bind, lambertConformalConic2SP.ρ,
    lambertConformalConic2SP.F, math.Pow]

/-- The checked closure `q` of `albersEqualAreaConic` returns the value of `q` on a proper
ellipsoid (`0 < F < 1`). -/
theorem albers_q_checked (sph : spheroid) (hF0 : 0 < sph.F) (hF1 : sph.F < 1) (φ : ℝ) :
    albersEqualAreaConic.q.checked φ sph = some (albersEqualAreaConic.q φ sph) := by
  have hE0 := sph.E_pos hF0 hF1
  have hE1 := sph.E_lt_one hF1
  have hr := ecc_ratio_pos sph.E φ hE0.le hE1
  have hd : 1 + sph.E * sin φ ≠ 0 := by
    intro h0
    rw [h0, div_zero] at hr
    exact lt_irrefl _ hr
  have hw : 1 - sph.E2 * sin2 φ ≠ 0 := (one_sub_E2_sin2_pos sph.E2 φ (sph.E2_lt_one hF1)).ne'
  have h2E : 2 * sph.E ≠ 0 := mul_ne_zero two_ne_zero hE0.ne'
  simp only [albersEqualAreaConic.q.checked, float64.div_of_ne _ hw, float64.div_of_ne _ h2E,
    float64.div_of_ne _ hd, float64.log_of_pos hr, Option.some_bind, albersEqualAreaConic.q]

/-- The checked closures `n` and `ρ` of `albersEqualAreaConic` return the values of `n` and
`ρ` on a proper ellipsoid when `n ≠ 0`, `q(lat1) ≠ q(lat2)` unless the parallels coincide,
and the radicand of `ρ` is not negative. -/
theorem albers_ρ_checked (sph : spheroid) (hF0 : 0 < sph.F) (hF1 : sph.F < 1)
    (lat1 lat2 φ : ℝ) (hn : albersEqualAreaConic.n lat1 lat2 sph ≠ 0)
    (hq : lat1 ≠ lat2 → albersEqualAreaConic.q (radian lat1) sph ≠
      albersEqualAreaConic.q (radian lat2) sph)
    (hrad : 0 ≤ albersEqualAreaConic.C lat1 lat2 sph -
      albersEqualAreaConic.n lat1 lat2 sph * albersEqualAreaConic.q φ sph) :
    albersEqualAreaConic.n.checked lat1 lat2 sph =
      some (albersEqualAreaConic.n lat1 lat2 sph) ∧
    albersEqualAreaConic.ρ.checked lat1 lat2 φ sph =
      some (albersEqualAreaConic.ρ lat1 lat2 φ sph) := by
  have hE2 := sph.E2_lt_one hF1
  have hnc : albersEqualAreaConic.n.checked lat1 lat2 sph =
      some (albersEqualAreaConic.n lat1 lat2 sph) := by
    unfold albersEqualAreaConic.n.checked albersEqualAreaConic.n
    by_cases hr : radian lat1 = radian lat2
    · rw [if_pos hr, if_pos hr]
    · have hL : albersEqualAreaConic.q (radian lat2) sph -
          albersEqualAreaConic.q (radian lat1) sph ≠ 0 := by
        intro e
        exact hq (fun e' => hr (by rw [e'])) (sub_eq_zero.mp e).symm
      rw [if_neg hr, if_neg hr]
      simp only [(conic_m_checked sph hE2 _).2.2.1, albers_q_checked sph hF0 hF1,
        float64.div_of_ne _ hL, Option.some_bind]
  have hCc : albersEqualAreaConic.C.checked lat1 lat2 sph =
      some (albersEqualAreaConic.C lat1 lat2 sph) := by
    simp only [albersEqualAreaConic.C.checked, (conic_m_checked sph hE2 _).2.2.1, hnc,
      albers_q_checked sph hF0 hF1, Option.some_bind, albersEqualAreaConic.C]
  refine ⟨hnc, ?_⟩
  simp only [albersEqualAreaConic.ρ.checked, hCc, hnc, albers_q_checked sph hF0 hF1,
    float64.sqrt_of_nonneg hrad, float64.div_of_ne _ hn, Option.some_bind,
    albersEqualAreaConic.ρ]

/-- The checked closures `n` and `ρ` of `equidistantConic` return the values of `n` and `ρ`
when `A > 0`, `F < 1`, `n ≠ 0` and `M(lat1) ≠ M(lat2)` unless the parallels coincide. -/
theorem equidistant_ρ_checked (sph : spheroid) (hA : 0 < sph.A) (hF1 : sph.F < 1)
    (lat1 lat2 φ : ℝ) (hn : equidistantConic.n lat1 lat2 sph ≠ 0)
    (hM : lat1 ≠ lat2 → equidistantConic.M (radian lat1) sph ≠
      equidistantConic.M (radian lat2) sph) :
    equidistantConic.n.checked lat1 lat2 sph = some (equidistantConic.n lat1 lat2 sph) ∧
    equidistantConic.ρ.checked lat1 lat2 φ sph =
      some (equidistantConic.ρ lat1 lat2 φ sph) := by
  have hE2 := sph.E2_lt_one hF1
  have hnc : equidistantConic.n.checked lat1 lat2 sph =
      some (equidistantConic.n lat1 lat2 sph) := by
    unfold equidistantConic.n.checked equidistantConic.n
    by_cases hr : radian lat1 = radian lat2
    · rw [if_pos hr, if_pos hr]
    · have hL : equidistantConic.M (radian lat2) sph -
          equidistantConic.M (radian lat1) sph ≠ 0 := by
        intro e
        exact hM (fun e' => hr (by rw [e'])) (sub_eq_zero.mp e).symm
      rw [if_neg hr, if_neg hr]
      simp only [(conic_m_checked sph hE2 _).2.2.2, float64.div_of_ne _ hL, Option.some_bind]
  refine ⟨hnc, ?_⟩
  simp only [equidistantConic.ρ.checked, equidistantConic.G.checked,
    (conic_m_checked sph hE2 _).2.2.2, hnc, float64.div_of_ne _ hn, float64.div_of_ne _ hA.ne',
    Option.some_bind, equidistantConic.ρ, equidistantConic.G]

/-- Albers with the standard parallels `0` and `30` on a proper ellipsoid: the cone constant
is not zero, `q` differs at the two parallels, and the radicand of `ρ` at latitude `30` is
not negative. -/
theorem albers_0_30 (sph : spheroid) (hF0 : 0 < sph.F) (hF1 : sph.F < 1) :
    albersEqualAreaConic.n 0 30 sph ≠ 0 ∧
    albersEqualAreaConic.q (radian 0) sph ≠ albersEqualAreaConic.q (radian 30) sph ∧
    0 ≤ albersEqualAreaConic.C 0 30 sph -
      albersEqualAreaConic.n 0 30 sph * albersEqualAreaConic.q (radian 30) sph := by
  have hE0 := sph.E_pos hF0 hF1
  have hE1 := sph.E_lt_one hF1
  have hE2 := sph.E2_lt_one hF1
  have hne : radian 0 ≠ radian 30 := fun h => by
    have := radian_injective h
    norm_num at this
  have hq1 : albersEqualAreaConic.q (radian 0) sph = 0 := by
    simp [albersEqualAreaConic.q, radian_zero]
  have hm1 : albersEqualAreaConic.m (radian 0) sph = 1 := by
    simp [albersEqualAreaConic.m, radian_zero, sin2, math.Pow]
  have hs2 : sin2 (π / 6) = 1 / 4 := by
    rw [sin2, math.Pow_two, Real.sin_pi_div_six]; norm_num
  have hw : 0 < 1 - sph.E2 * (1 / 4) := by linarith
  have hm2 : albersEqualAreaConic.m (radian 30) sph * albersEqualAreaConic.m (radian 30) sph =
      (3 / 4) / (1 - sph.E2 * (1 / 4)) := by
    rw [albersEqualAreaConic.m, radian_30, hs2, Real.cos_pi_div_six, div_mul_div_comm,
      Real.mul_self_sqrt hw.le, div_mul_div_comm, Real.mul_self_sqrt (by norm_num)]
    norm_num
  have hm2lt : albersEqualAreaConic.m (radian 30) sph * albersEqualAreaConic.m (radian 30) sph <
      1 := by
    rw [hm2, div_lt_one hw]
    linarith
  have hq2 : 0 < albersEqualAreaConic.q (radian 30) sph := by
    rw [albersEqualAreaConic.q, radian_30, hs2, Real.sin_pi_div_six]
    have hr0 : 0 < (1 - sph.E * (1 / 2)) / (1 + sph.E * (1 / 2)) := by
      apply div_pos <;> linarith
    have hr1 : (1 - sph.E * (1 / 2)) / (1 + sph.E * (1 / 2)) < 1 := by
      rw [div_lt_one (by linarith)]
      linarith
    have hl := Real.log_neg hr0 hr1
    have hb : 0 < 1 / (2 * sph.E) := by positivity
    have ha : 0 < 1 / 2 / (1 - sph.E2 * (1 / 4)) := by positivity
    have := mul_pos hb (neg_pos.mpr hl)
    apply mul_pos (by linarith)
    linarith
  have hn : albersEqualAreaConic.n 0 30 sph =
      (1 - albersEqualAreaConic.m (radian 30) sph * albersEqualAreaConic.m (radian 30) sph) /
        albersEqualAreaConic.q (radian 30) sph := by
    rw [albersEqualAreaConic.n, if_neg hne, hm1, hq1, sub_zero, mul_one]
  refine ⟨?_, ?_, ?_⟩
  · rw [hn]
    exact div_ne_zero (by linarith) hq2.ne'
  · rw [hq1]
    exact hq2.ne
  · rw [albersEqualAreaConic.C, hm1, hq1, hn, div_mul_cancel₀ _ hq2.ne']
    nlinarith [mul_self_nonneg (albersEqualAreaConic.m (radian 30) sph)]

/-! # The claims -/

/-! ## C1: the geographic round trip -/

/-- C1 (counterexample): on the ellipsoid `A = 500`, `F = 1/298.257223563`, the input
`lon = 0`, `lat = 0`, `h = -1000` lies in the stated ranges, yet `FromXYZ(ToXYZ(...))`
returns the height `0`: it is off by `1000` m, far more than `0.001` m. -/
theorem lonLat_roundtrip_tiny_ellipsoid_fails :
    0 < (⟨500, 1 / 298.257223563⟩ : spheroid).A ∧
    0 ≤ (⟨500, 1 / 298.257223563⟩ : spheroid).F ∧
    (⟨500, 1 / 298.257223563⟩ : spheroid).F < 0.01 ∧
    (lonLat.FromXYZ
      (lonLat.ToXYZ 0 0 (-1000) (some ⟨500, 1 / 298.257223563⟩)).1
      (lonLat.ToXYZ 0 0 (-1000) (some ⟨500, 1 / 298.257223563⟩)).2.1
      (lonLat.ToXYZ 0 0 (-1000) (some ⟨500, 1 / 298.257223563⟩)).2.2
      (some ⟨500, 1 / 298.257223563⟩)).2.2 = 0 ∧
    ¬ |(lonLat.FromXYZ
      (lonLat.ToXYZ 0 0 (-1000) (some ⟨500, 1 / 298.257223563⟩)).1
      (lonLat.ToXYZ 0 0 (-1000) (some ⟨500, 1 / 298.257223563⟩)).2.1
      (lonLat.ToXYZ 0 0 (-1000) (some ⟨500, 1 / 298.257223563⟩)).2.2
      (some ⟨500, 1 / 298.257223563⟩)).2.2 - (-1000)| ≤ 0.001 := by
  have hto : lonLat.ToXYZ 0 0 (-1000) (some ⟨500, 1 / 298.257223563⟩) = (-500, 0, 0) := by
    rw [lonLat_ToXYZ_some]
    simp only [lonLat.toXYZ, lonLat.N, radian_zero, Real.sin_zero, Real.cos_zero, math.Pow_two,
      spheroid.A]
    norm_num
  have hfrom : (lonLat.FromXYZ (-500) 0 0 (some ⟨500, 1 / 298.257223563⟩)).2.2 = 0 := by
    rw [lonLat_FromXYZ_some]
    have hsd : Real.sqrt (-500 * -500) = 500 := by
      rw [show (-500 : ℝ) * -500 = 500 ^ 2 by norm_num]
      exact Real.sqrt_sq (by norm_num)
    simp only [lonLat.fromXYZ, lonLat.N, hsd, zero_mul, zero_div, Real.arctan_zero,
      Real.sin_zero, Real.cos_zero, math.Pow_two, math.Pow_three, spheroid.A, ne_eq,
      OfNat.ofNat_ne_zero, not_false_eq_true, zero_pow, mul_zero, add_zero,
      sub_zero, Real.sqrt_one, div_one, sub_self]
  refine ⟨by norm_num [spheroid.A], by norm_num [spheroid.F], by norm_num [spheroid.F], ?_, ?_⟩
  · rw [hto]; exact hfrom
  · rw [hto, hfrom]
    norm_num

/-- C1 (amended): for every ellipsoid with `A ≥ 500000` and `0 ≤ F < 0.01`, every `lon` in
`[-180, 180]`, `lat` in `[-85, 85]` and `h` in `[-1000, 9000]`, the inverse applied to the
point returned by `toXYZ(lon, lat, h)`, zeros with the sign `toXYZ` gives them, returns
`(lon', lat', h')` with `|lon' − lon| ≤ 1e-7` degrees, `|lat' − lat| ≤ 1e-7` degrees and
`|h' − h| ≤ 0.001` m. At `lon = -180` the `y` coordinate is the negative zero and the
returned longitude is `-180`. -/
theorem lonLat_roundtrip_large_ellipsoid (sph : spheroid) (hA : 500000 ≤ sph.A)
    (hF0 : 0 ≤ sph.F) (hF1 : sph.F < 0.01) (lon lat h : ℝ) (hlon1 : -180 ≤ lon)
    (hlon2 : lon ≤ 180) (hlat1 : -85 ≤ lat) (hlat2 : lat ≤ 85) (hh1 : -1000 ≤ h)
    (hh2 : h ≤ 9000) :
    |(lonLat.fromXYZ.signed (lonLat.toXYZ.yneg lon lat h sph) (lonLat.toXYZ.xneg lon lat h sph)
        (lonLat.toXYZ lon lat h sph).1 (lonLat.toXYZ lon lat h sph).2.1
        (lonLat.toXYZ lon lat h sph).2.2 sph).1 - lon| ≤ 1 / 10000000 ∧
    |(lonLat.fromXYZ.signed (lonLat.toXYZ.yneg lon lat h sph) (lonLat.toXYZ.xneg lon lat h sph)
        (lonLat.toXYZ lon lat h sph).1 (lonLat.toXYZ lon lat h sph).2.1
        (lonLat.toXYZ lon lat h sph).2.2 sph).2.1 - lat| ≤ 1 / 10000000 ∧
    |(lonLat.fromXYZ.signed (lonLat.toXYZ.yneg lon lat h sph) (lonLat.toXYZ.xneg lon lat h sph)
        (lonLat.toXYZ lon lat h sph).1 (lonLat.toXYZ lon lat h sph).2.1
        (lonLat.toXYZ lon lat h sph).2.2 sph).2.2 - h| ≤ 1 / 1000 := by
  obtain ⟨hφ1, hφ2⟩ := radian_lat_range lat (by linarith) (by linarith)
  have hc : 0 < cos (radian lat) := cos_pos_of_mem_Ioo ⟨hφ1, hφ2⟩
  -- the radius of the parallel is positive
  have hNh : 0 < lonLat.N (radian lat) sph + h := by
    obtain ⟨hW, hW1, _, _⟩ := bowring_tan_bound sph.A sph.F h (sin (radian lat))
      (cos (radian lat)) hA hF0 hF1 hh1 hh2 hc (sin_sq_add_cos_sq _)
    have ha0 : 0 < sph.A := by linarith
    have hN : sph.A ≤ lonLat.N (radian lat) sph := by
      unfold lonLat.N spheroid.E2
      rw [math.Pow_two, le_div_iff₀ hW]
      have := mul_le_mul_of_nonneg_left hW1 ha0.le
      linarith
    linarith
  -- latitude and height: the values at the same point with longitude in `(-180, 180]`
  have hsnd : |(lonLat.fromXYZ (lonLat.toXYZ lon lat h sph).1 (lonLat.toXYZ lon lat h sph).2.1
        (lonLat.toXYZ lon lat h sph).2.2 sph).2.1 - lat| ≤ 1 / 10000000 ∧
      |(lonLat.fromXYZ (lonLat.toXYZ lon lat h sph).1 (lonLat.toXYZ lon lat h sph).2.1
        (lonLat.toXYZ lon lat h sph).2.2 sph).2.2 - h| ≤ 1 / 1000 := by
    rcases eq_or_lt_of_le hlon1 with hlon | hlon
    · subst hlon
      rw [lonLat_toXYZ_antimeridian]
      exact (lonLat_near sph hA hF0 hF1 180 lat h (by norm_num) le_rfl (by linarith)
        (by linarith) hh1 hh2).2
    · exact (lonLat_near sph hA hF0 hF1 lon lat h hlon hlon2 (by linarith) (by linarith)
        hh1 hh2).2
  refine ⟨?_, hsnd.1, hsnd.2⟩
  -- longitude
  have hl1 : -π ≤ radian lon := by
    unfold radian
    have := mul_le_mul_of_nonneg_right hlon1 pi_pos.le
    linarith
  have hl2 : radian lon ≤ π := by
    unfold radian
    have := mul_le_mul_of_nonneg_right hlon2 pi_pos.le
    linarith
  have hneg : lon < 0 ↔ radian lon < 0 := by
    unfold radian
    constructor
    · intro h'
      have := mul_neg_of_neg_of_pos h' pi_pos
      linarith
    · intro h'
      by_contra hcon
      push_neg at hcon
      have := mul_nonneg hcon pi_pos.le
      linarith
  have hy : lonLat.toXYZ.yneg lon lat h sph =
      decide (sin (radian lon) < 0 ∨ (sin (radian lon) = 0 ∧ radian lon < 0)) := by
    unfold lonLat.toXYZ.yneg
    rw [decide_eq_false (not_lt.mpr hNh.le), decide_eq_false (not_lt.mpr hc.le),
      Bool.xor_false, Bool.false_xor]
    exact decide_eq_decide.mpr (by rw [hneg])
  have hlon : (lonLat.fromXYZ.signed (lonLat.toXYZ.yneg lon lat h sph)
      (lonLat.toXYZ.xneg lon lat h sph) (lonLat.toXYZ lon lat h sph).1
      (lonLat.toXYZ lon lat h sph).2.1 (lonLat.toXYZ lon lat h sph).2.2 sph).1 = lon := by
    show degree (math.Atan2.signed _ _
      ((lonLat.N (radian lat) sph + h) * cos (radian lat) * sin (radian lon))
      ((lonLat.N (radian lat) sph + h) * cos (radian lon) * cos (radian lat))) = lon
    rw [hy, show (lonLat.N (radian lat) sph + h) * cos (radian lon) * cos (radian lat) =
      (lonLat.N (radian lat) sph + h) * cos (radian lat) * cos (radian lon) by ring,
      math.Atan2_signed_polar _ _ _ (mul_pos hNh hc) hl1 hl2, degree_radian]
  rw [hlon, sub_self, abs_zero]
  norm_num

/-- C1 (amended) at the WGS84 ellipsoid on the antimeridian: `lon = -180`, `lat = 45`,
`h = 100`. -/
theorem lonLat_roundtrip_large_ellipsoid_wgs84 :
    500000 ≤ (⟨6378137, 1 / 298.257223563⟩ : spheroid).A ∧
    0 ≤ (⟨6378137, 1 / 298.257223563⟩ : spheroid).F ∧
    (⟨6378137, 1 / 298.257223563⟩ : spheroid).F < 0.01 ∧
    |(lonLat.fromXYZ.signed
        (lonLat.toXYZ.yneg (-180) 45 100 ⟨6378137, 1 / 298.257223563⟩)
        (lonLat.toXYZ.xneg (-180) 45 100 ⟨6378137, 1 / 298.257223563⟩)
        (lonLat.toXYZ (-180) 45 100 ⟨6378137, 1 / 298.257223563⟩).1
        (lonLat.toXYZ (-180) 45 100 ⟨6378137, 1 / 298.257223563⟩).2.1
        (lonLat.toXYZ (-180) 45 100 ⟨6378137, 1 / 298.257223563⟩).2.2
        ⟨6378137, 1 / 298.257223563⟩).1 - (-180)| ≤ 1 / 10000000 ∧
    |(lonLat.fromXYZ.signed
        (lonLat.toXYZ.yneg (-180) 45 100 ⟨6378137, 1 / 298.257223563⟩)
        (lonLat.toXYZ.xneg (-180) 45 100 ⟨6378137, 1 / 298.257223563⟩)
        (lonLat.toXYZ (-180) 45 100 ⟨6378137, 1 / 298.257223563⟩).1
        (lonLat.toXYZ (-180) 45 100 ⟨6378137, 1 / 298.257223563⟩).2.1
        (lonLat.toXYZ (-180) 45 100 ⟨6378137, 1 / 298.257223563⟩).2.2
        ⟨6378137, 1 / 298.257223563⟩).2.1 - 45| ≤ 1 / 10000000 ∧
    |(lonLat.fromXYZ.signed
        (lonLat.toXYZ.yneg (-180) 45 100 ⟨6378137, 1 / 298.257223563⟩)
        (lonLat.toXYZ.xneg (-180) 45 100 ⟨6378137, 1 / 298.257223563⟩)
        (lonLat.toXYZ (-180) 45 100 ⟨6378137, 1 / 298.257223563⟩).1
        (lonLat.toXYZ (-180) 45 100 ⟨6378137, 1 / 298.257223563⟩).2.1
        (lonLat.toXYZ (-180) 45 100 ⟨6378137, 1 / 298.257223563⟩).2.2
        ⟨6378137, 1 / 298.257223563⟩).2.2 - 100| ≤ 1 / 1000 :=
  ⟨by norm_num [spheroid.A], by norm_num [spheroid.F], by norm_num [spheroid.F],
   lonLat_roundtrip_large_ellipsoid ⟨6378137, 1 / 298.257223563⟩ (by norm_num [spheroid.A])
     (by norm_num [spheroid.F]) (by norm_num [spheroid.F]) (-180) 45 100 (by norm_num)
     (by norm_num) (by norm_num) (by norm_num) (by norm_num) (by norm_num)⟩

/-! ## C2: the geographic origin -/

/-- C2: for every ellipsoid with semi-major axis `A > 0`, the geographic system's
`ToXYZ` at `lon = 0`, `lat = 0`, `h = 0` returns exactly `(A, 0, 0)`. -/
theorem lonLat_ToXYZ_origin (sph : spheroid) (_hA : 0 < sph.A) :
    lonLat.ToXYZ 0 0 0 (some sph) = (sph.A, 0, 0) := by
  simp [lonLat_ToXYZ_some, lonLat.toXYZ, lonLat.N, radian, math.Pow_two]

/-- C2 at the WGS84 ellipsoid: the result is `(6378137, 0, 0)`. -/
theorem lonLat_ToXYZ_origin_wgs84 :
    0 < (⟨6378137, 1 / 298.257223563⟩ : spheroid).A ∧
    lonLat.ToXYZ 0 0 0 (some ⟨6378137, 1 / 298.257223563⟩) =
      ((⟨6378137, 1 / 298.257223563⟩ : spheroid).A, 0, 0) :=
  ⟨by norm_num [spheroid.A],
   lonLat_ToXYZ_origin ⟨6378137, 1 / 298.257223563⟩ (by norm_num [spheroid.A])⟩

/-! ## C3: UTM zone 31N on its central meridian -/

/-- C3: for every ellipsoid with `A > 0` and `0 ≤ F < 1`, `utm(31, true).FromXYZ` applied
to the geocentric point `lonLat().ToXYZ(3, 0, 0)` returns easting `500000`, northing `0`
and height `0`. -/
theorem utm31_central_meridian_equator (sph : spheroid) (hA : 0 < sph.A) (_hF0 : 0 ≤ sph.F)
    (hF1 : sph.F < 1) :
    (utm 31 true).FromXYZ (lonLat.ToXYZ 3 0 0 (some sph)).1 (lonLat.ToXYZ 3 0 0 (some sph)).2.1
      (lonLat.ToXYZ 3 0 0 (some sph)).2.2 (some sph) = (500000, 0, 0) := by
  have h := lonLat_roundtrip_surface sph hA hF1 3 0 (by norm_num) (by norm_num) (by norm_num)
    (by norm_num)
  have h31 : (31 : ℝ) * 6 - 183 = 3 := by norm_num
  rw [utm_true, transverseMercator, system_FromXYZ_some]
  simp only [transverseMercator.fromXYZ, h, h31]
  simp [radian, math.Pow, transverseMercator.M]

/-- C3 at the WGS84 ellipsoid. -/
theorem utm31_central_meridian_equator_wgs84 :
    0 < (⟨6378137, 1 / 298.257223563⟩ : spheroid).A ∧
    0 ≤ (⟨6378137, 1 / 298.257223563⟩ : spheroid).F ∧
    (⟨6378137, 1 / 298.257223563⟩ : spheroid).F < 1 ∧
    (utm 31 true).FromXYZ
      (lonLat.ToXYZ 3 0 0 (some ⟨6378137, 1 / 298.257223563⟩)).1
      (lonLat.ToXYZ 3 0 0 (some ⟨6378137, 1 / 298.257223563⟩)).2.1
      (lonLat.ToXYZ 3 0 0 (some ⟨6378137, 1 / 298.257223563⟩)).2.2
      (some ⟨6378137, 1 / 298.257223563⟩) = (500000, 0, 0) :=
  ⟨by norm_num [spheroid.A], by norm_num [spheroid.F], by norm_num [spheroid.F],
   utm31_central_meridian_equator ⟨6378137, 1 / 298.257223563⟩ (by norm_num [spheroid.A])
     (by norm_num [spheroid.F]) (by norm_num [spheroid.F])⟩

/-! ## C4: the Web Mercator origin -/

/-- C4: for every ellipsoid with `A > 0` and `0 ≤ F < 1`, `webMercator().FromXYZ` applied
to the geocentric point `lonLat().ToXYZ(0, 0, 0)` returns east `0` and north `0`. -/
theorem webMercator_origin (sph : spheroid) (hA : 0 < sph.A) (_hF0 : 0 ≤ sph.F)
    (hF1 : sph.F < 1) :
    (webMercator.FromXYZ (lonLat.ToXYZ 0 0 0 (some sph)).1 (lonLat.ToXYZ 0 0 0 (some sph)).2.1
      (lonLat.ToXYZ 0 0 0 (some sph)).2.2 (some sph)).1 = 0 ∧
    (webMercator.FromXYZ (lonLat.ToXYZ 0 0 0 (some sph)).1 (lonLat.ToXYZ 0 0 0 (some sph)).2.1
      (lonLat.ToXYZ 0 0 0 (some sph)).2.2 (some sph)).2.1 = 0 := by
  have h := lonLat_roundtrip_surface sph hA hF1 0 0 (by norm_num) (by norm_num) (by norm_num)
    (by norm_num)
  rw [webMercator, system_FromXYZ_some]
  simp only [webMercator.fromXYZ, h]
  have h45 : radian ((90 + 0) / 2) = π / 4 := by unfold radian; ring
  have h0 : radian 0 = 0 := by unfold radian; ring
  simp only [h45, h0, Real.tan_pi_div_four, Real.log_one, zero_mul, and_self]

/-- C4 at the WGS84 ellipsoid. -/
theorem webMercator_origin_wgs84 :
    0 < (⟨6378137, 1 / 298.257223563⟩ : spheroid).A ∧
    0 ≤ (⟨6378137, 1 / 298.257223563⟩ : spheroid).F ∧
    (⟨6378137, 1 / 298.257223563⟩ : spheroid).F < 1 ∧
    (webMercator.FromXYZ
      (lonLat.ToXYZ 0 0 0 (some ⟨6378137, 1 / 298.257223563⟩)).1
      (lonLat.ToXYZ 0 0 0 (some ⟨6378137, 1 / 298.257223563⟩)).2.1
      (lonLat.ToXYZ 0 0 0 (some ⟨6378137, 1 / 298.257223563⟩)).2.2
      (some ⟨6378137, 1 / 298.257223563⟩)).1 = 0 ∧
    (webMercator.FromXYZ
      (lonLat.ToXYZ 0 0 0 (some ⟨6378137, 1 / 298.257223563⟩)).1
      (lonLat.ToXYZ 0 0 0 (some ⟨6378137, 1 / 298.257223563⟩)).2.1
      (lonLat.ToXYZ 0 0 0 (some ⟨6378137, 1 / 298.257223563⟩)).2.2
      (some ⟨6378137, 1 / 298.257223563⟩)).2.1 = 0 :=
  ⟨by norm_num [spheroid.A], by norm_num [spheroid.F], by norm_num [spheroid.F],
   webMercator_origin ⟨6378137, 1 / 298.257223563⟩ (by norm_num [spheroid.A])
     (by norm_num [spheroid.F]) (by norm_num [spheroid.F])⟩

/-! ## C5: Lambert 2SP with coinciding parallels -/

/-- C5: for every `lonf`, `lat0`, `eastf`, `northf`, every ellipsoid (present or absent)
and every input triple, `lambertConformalConic2SP(lonf, lat0, lat0, lat0, eastf, northf)`
returns the same `ToXYZ` result and the same `FromXYZ` result as
`lambertConformalConic1SP(lonf, lat0, 1, eastf, northf)`. -/
theorem lambert2SP_degenerate_eq_1SP (lonf lat0 eastf northf a b c : ℝ) (s : Option spheroid) :
    (lambertConformalConic2SP lonf lat0 lat0 lat0 eastf northf).ToXYZ a b c s =
      (lambertConformalConic1SP lonf lat0 1 eastf northf).ToXYZ a b c s ∧
    (lambertConformalConic2SP lonf lat0 lat0 lat0 eastf northf).FromXYZ a b c s =
      (lambertConformalConic1SP lonf lat0 1 eastf northf).FromXYZ a b c s := by
  have hn : ∀ sph, lambertConformalConic2SP.n lat0 lat0 sph = lambertConformalConic1SP.n lat0 := by
    intro sph
    simp [lambertConformalConic2SP.n, lambertConformalConic1SP.n]
  have ht : lambertConformalConic2SP.t = lambertConformalConic1SP.t := rfl
  have hm : lambertConformalConic2SP.m = lambertConformalConic1SP.m := rfl
  have hF : ∀ sph, lambertConformalConic2SP.F lat0 lat0 sph = lambertConformalConic1SP.F lat0 sph := by
    intro sph
    simp only [lambertConformalConic2SP.F, lambertConformalConic1SP.F, hn, ht, hm]
  have hρ : ∀ φ sph, lambertConformalConic2SP.ρ lat0 lat0 φ sph =
      lambertConformalConic1SP.ρ lat0 1 φ sph := by
    intro φ sph
    simp only [lambertConformalConic2SP.ρ, lambertConformalConic1SP.ρ, hn, ht, hF, mul_one]
  constructor
  · simp only [lambertConformalConic2SP, lambertConformalConic1SP, system.ToXYZ,
      lambertConformalConic2SP.toXYZ, lambertConformalConic1SP.toXYZ, hn, hF, hρ, mul_one]
  · simp only [lambertConformalConic2SP, lambertConformalConic1SP, system.FromXYZ,
      lambertConformalConic2SP.fromXYZ, lambertConformalConic1SP.fromXYZ, hn, hF, hρ, mul_one]

/-! ## C6: Mercator on a sphere against Web Mercator -/

/-- C6 (evaluation at the failing input): on the sphere `A = 6378137`, `F = 0`, at the
geocentric point of `lon = 0`, `lat = 30`, `h = 0`, `mercator(0, 1, 0, 0).FromXYZ` returns
northing `A/2 · ln 2` while `webMercator().FromXYZ` returns `A/2 · ln 3`; the two results
differ. -/
theorem mercator_sphere_lat30_ne_webMercator :
    (mercator 0 1 0 0).FromXYZ
      (lonLat.ToXYZ 0 30 0 (some ⟨6378137, 0⟩)).1
      (lonLat.ToXYZ 0 30 0 (some ⟨6378137, 0⟩)).2.1
      (lonLat.ToXYZ 0 30 0 (some ⟨6378137, 0⟩)).2.2 (some ⟨6378137, 0⟩) =
      (0, 6378137 / 2 * Real.log 2, 0) ∧
    webMercator.FromXYZ
      (lonLat.ToXYZ 0 30 0 (some ⟨6378137, 0⟩)).1
      (lonLat.ToXYZ 0 30 0 (some ⟨6378137, 0⟩)).2.1
      (lonLat.ToXYZ 0 30 0 (some ⟨6378137, 0⟩)).2.2 (some ⟨6378137, 0⟩) =
      (0, 6378137 / 2 * Real.log 3, 0) ∧
    (mercator 0 1 0 0).FromXYZ
      (lonLat.ToXYZ 0 30 0 (some ⟨6378137, 0⟩)).1
      (lonLat.ToXYZ 0 30 0 (some ⟨6378137, 0⟩)).2.1
      (lonLat.ToXYZ 0 30 0 (some ⟨6378137, 0⟩)).2.2 (some ⟨6378137, 0⟩) ≠
    webMercator.FromXYZ
      (lonLat.ToXYZ 0 30 0 (some ⟨6378137, 0⟩)).1
      (lonLat.ToXYZ 0 30 0 (some ⟨6378137, 0⟩)).2.1
      (lonLat.ToXYZ 0 30 0 (some ⟨6378137, 0⟩)).2.2 (some ⟨6378137, 0⟩) := by
  have h := lonLat_roundtrip_surface ⟨6378137, 0⟩ (by norm_num [spheroid.A])
    (by norm_num [spheroid.F]) 0 30 (by norm_num) (by norm_num) (by norm_num) (by norm_num)
  have hm : (mercator 0 1 0 0).FromXYZ
      (lonLat.ToXYZ 0 30 0 (some ⟨6378137, 0⟩)).1
      (lonLat.ToXYZ 0 30 0 (some ⟨6378137, 0⟩)).2.1
      (lonLat.ToXYZ 0 30 0 (some ⟨6378137, 0⟩)).2.2 (some ⟨6378137, 0⟩) =
      (0, 6378137 / 2 * Real.log 2, 0) := by
    rw [mercator, system_FromXYZ_some]
    simp only [mercator.fromXYZ, h, spheroid.E_sphere, radian_30, Real.sin_pi_div_six]
    have h2 : (1 : ℝ) + 1 / 2 / (1 - 1 / 2) * math.Pow ((1 - 0 * (1 / 2)) / (1 + 0 * (1 / 2)))
        (Real.exp 1) = 2 := by
      simp only [math.Pow]
      norm_num
    rw [h2]
    simp [spheroid.A]
  have hw : webMercator.FromXYZ
      (lonLat.ToXYZ 0 30 0 (some ⟨6378137, 0⟩)).1
      (lonLat.ToXYZ 0 30 0 (some ⟨6378137, 0⟩)).2.1
      (lonLat.ToXYZ 0 30 0 (some ⟨6378137, 0⟩)).2.2 (some ⟨6378137, 0⟩) =
      (0, 6378137 / 2 * Real.log 3, 0) := by
    rw [webMercator, system_FromXYZ_some]
    simp only [webMercator.fromXYZ, h]
    have h60 : radian ((90 + 30) / 2) = π / 3 := by unfold radian; ring
    have h0 : radian 0 = 0 := by unfold radian; ring
    rw [h60, h0, Real.tan_pi_div_three, Real.log_sqrt (by norm_num)]
    simp only [spheroid.A, zero_mul]
    refine Prod.ext rfl (Prod.ext ?_ rfl)
    simp only
    ring
  refine ⟨hm, hw, ?_⟩
  rw [hm, hw]
  intro heq
  have h1 : (6378137 : ℝ) / 2 * Real.log 2 = 6378137 / 2 * Real.log 3 :=
    congrArg (fun p : ℝ × ℝ × ℝ => p.2.1) heq
  have h2 : Real.log 2 = Real.log 3 := by
    have h3 : (6378137 : ℝ) / 2 ≠ 0 := by norm_num
    exact mul_left_cancel₀ h3 h1
  have := Real.log_injOn_pos (by norm_num : (2:ℝ) ∈ Set.Ioi 0) (by norm_num : (3:ℝ) ∈ Set.Ioi 0) h2
  norm_num at this

/-! ## C7: Mercator round trip -/

/-- C7 (evaluation at the failing input): on the WGS84 ellipsoid,
`mercator(0, 1, 0, 0)` maps the projected coordinate `(1000, 0, 0)` through `ToXYZ` and
back through `FromXYZ` to `(1000·π/180, 0, 0)`; the easting is off by more than 1 mm. -/
theorem mercator_roundtrip_fails :
    (mercator 0 1 0 0).FromXYZ
      ((mercator 0 1 0 0).ToXYZ 1000 0 0 (some ⟨6378137, 1 / 298.257223563⟩)).1
      ((mercator 0 1 0 0).ToXYZ 1000 0 0 (some ⟨6378137, 1 / 298.257223563⟩)).2.1
      ((mercator 0 1 0 0).ToXYZ 1000 0 0 (some ⟨6378137, 1 / 298.257223563⟩)).2.2
      (some ⟨6378137, 1 / 298.257223563⟩) = (1000 * π / 180, 0, 0) ∧
    ¬ |1000 * π / 180 - 1000| ≤ 0.001 := by
  constructor
  · have hfix : (fun φ : ℝ => π / 2 - 2 * arctan (1 *
        math.Pow ((1 - (⟨6378137, 1 / 298.257223563⟩ : spheroid).E * sin φ) /
          (1 + (⟨6378137, 1 / 298.257223563⟩ : spheroid).E * sin φ))
          ((⟨6378137, 1 / 298.257223563⟩ : spheroid).E / 2)))^[5] 0 = 0 := by
      apply Function.iterate_fixed
      simp only [Real.sin_zero, mul_zero, sub_zero, add_zero, div_one, math.Pow_one_base,
        mul_one, Real.arctan_one]
      ring
    have hto : (mercator 0 1 0 0).ToXYZ 1000 0 0 (some ⟨6378137, 1 / 298.257223563⟩) =
        lonLat.ToXYZ (1000 / 6378137) 0 0 (some ⟨6378137, 1 / 298.257223563⟩) := by
      rw [mercator, system_ToXYZ_some]
      simp only [mercator.toXYZ, sub_zero, div_one, neg_zero, zero_mul, Real.exp_zero,
        Real.arctan_one]
      have h0 : π / 2 - 2 * (π / 4) = 0 := by ring
      rw [h0, hfix, degree_zero]
      simp [spheroid.A]
    have h := lonLat_roundtrip_surface ⟨6378137, 1 / 298.257223563⟩ (by norm_num [spheroid.A])
      (by norm_num [spheroid.F]) (1000 / 6378137) 0 (by norm_num) (by norm_num) (by norm_num)
      (by norm_num)
    rw [hto, mercator, system_FromXYZ_some]
    simp only [mercator.fromXYZ, h, radian_zero, Real.sin_zero, zero_div, zero_mul, add_zero,
      Real.log_one, mul_zero, sub_zero, spheroid.A]
    refine Prod.ext ?_ rfl
    simp only [radian]
    ring
  · have := Real.pi_lt_four
    rw [abs_le]
    intro h
    linarith [h.1]

/-! ## C8: Web Mercator round trip at zero height -/

/-- C8: for every ellipsoid with `A > 0` and `0 ≤ F < 1`, every easting `e` with
`-π·A < e ≤ π·A` and every northing `n`,
`webMercator().FromXYZ(webMercator().ToXYZ(e, n, 0))` equals `(e, n, 0)` exactly. -/
theorem webMercator_roundtrip (sph : spheroid) (hA : 0 < sph.A) (_hF0 : 0 ≤ sph.F)
    (hF1 : sph.F < 1)
    (e n : ℝ) (he1 : -(π * sph.A) < e) (he2 : e ≤ π * sph.A) :
    webMercator.FromXYZ (webMercator.ToXYZ e n 0 (some sph)).1
      (webMercator.ToXYZ e n 0 (some sph)).2.1
      (webMercator.ToXYZ e n 0 (some sph)).2.2 (some sph) = (e, n, 0) := by
  have hq1 : -π < e / sph.A := by
    rw [lt_div_iff₀ hA]; linarith
  have hq2 : e / sph.A ≤ π := by
    rw [div_le_iff₀ hA]; linarith
  have hlon1 : -180 < degree (e / sph.A) := by
    unfold degree
    rw [lt_div_iff₀ pi_pos]; linarith
  have hlon2 : degree (e / sph.A) ≤ 180 := by
    unfold degree
    rw [div_le_iff₀ pi_pos]; linarith
  have hat1 := Real.arctan_lt_pi_div_two (Real.exp (n / sph.A))
  have hat0 : 0 < arctan (Real.exp (n / sph.A)) := by
    rw [← Real.arctan_zero]
    exact Real.arctan_strictMono (Real.exp_pos _)
  have hd : degree 1 = 180 / π := by unfold degree; ring
  have hlat1 : -90 < arctan (Real.exp (n / sph.A)) * degree 1 * 2 - 90 := by
    have : 0 < arctan (Real.exp (n / sph.A)) * degree 1 * 2 := by
      rw [hd]; positivity
    linarith
  have hlat2 : arctan (Real.exp (n / sph.A)) * degree 1 * 2 - 90 < 90 := by
    have : arctan (Real.exp (n / sph.A)) * degree 1 * 2 < 180 := by
      have h2 : arctan (Real.exp (n / sph.A)) * degree 1 * 2 =
          arctan (Real.exp (n / sph.A)) * 360 / π := by rw [hd]; ring
      rw [h2, div_lt_iff₀ pi_pos]; linarith
    linarith
  have h := lonLat_roundtrip_surface sph hA hF1 _ _ hlon1 hlon2 hlat1 hlat2
  rw [webMercator, system_FromXYZ_some, system_ToXYZ_some]
  simp only [webMercator.toXYZ, webMercator.fromXYZ, h]
  have hr : radian ((90 + (arctan (Real.exp (n / sph.A)) * degree 1 * 2 - 90)) / 2) =
      arctan (Real.exp (n / sph.A)) := by
    unfold radian degree
    field_simp
    ring
  rw [hr, Real.tan_arctan, Real.log_exp, radian_degree]
  have hA' : sph.A ≠ 0 := hA.ne'
  field_simp

/-- C8 at the WGS84 ellipsoid, for the projected coordinate `(1000, 2000, 0)`. -/
theorem webMercator_roundtrip_wgs84 :
    0 < (⟨6378137, 1 / 298.257223563⟩ : spheroid).A ∧
    0 ≤ (⟨6378137, 1 / 298.257223563⟩ : spheroid).F ∧
    (⟨6378137, 1 / 298.257223563⟩ : spheroid).F < 1 ∧
    -(π * (⟨6378137, 1 / 298.257223563⟩ : spheroid).A) < 1000 ∧
    1000 ≤ π * (⟨6378137, 1 / 298.257223563⟩ : spheroid).A ∧
    webMercator.FromXYZ
      (webMercator.ToXYZ 1000 2000 0 (some ⟨6378137, 1 / 298.257223563⟩)).1
      (webMercator.ToXYZ 1000 2000 0 (some ⟨6378137, 1 / 298.257223563⟩)).2.1
      (webMercator.ToXYZ 1000 2000 0 (some ⟨6378137, 1 / 298.257223563⟩)).2.2
      (some ⟨6378137, 1 / 298.257223563⟩) = (1000, 2000, 0) :=
  have h1 : -(π * (⟨6378137, 1 / 298.257223563⟩ : spheroid).A) < 1000 := by
    have := Real.pi_pos
    simp only [spheroid.A]
    nlinarith
  have h2 : 1000 ≤ π * (⟨6378137, 1 / 298.257223563⟩ : spheroid).A := by
    have := Real.pi_gt_three
    simp only [spheroid.A]
    nlinarith
  ⟨by norm_num [spheroid.A], by norm_num [spheroid.F], by norm_num [spheroid.F], h1, h2,
   webMercator_roundtrip ⟨6378137, 1 / 298.257223563⟩ (by norm_num [spheroid.A])
     (by norm_num [spheroid.F]) (by norm_num [spheroid.F]) 1000 2000 h1 h2⟩

/-! ## C9: Lambert 1SP round trip with a scale factor -/

/-- C9 (evaluation at the failing input): on the sphere `A = 6378137`, `F = 0`,
`lambertConformalConic1SP(0, 30, 0.9996, 0, 0)` maps its false origin `(0, 0, 0)` through
`ToXYZ` and back through `FromXYZ` to northing `A·√3·(√0.9996 − 1)`, about `-2210` m,
which is off by more than 1 mm. -/
theorem lambert1SP_scaled_roundtrip_fails :
    (lambertConformalConic1SP 0 30 0.9996 0 0).FromXYZ
      ((lambertConformalConic1SP 0 30 0.9996 0 0).ToXYZ 0 0 0 (some ⟨6378137, 0⟩)).1
      ((lambertConformalConic1SP 0 30 0.9996 0 0).ToXYZ 0 0 0 (some ⟨6378137, 0⟩)).2.1
      ((lambertConformalConic1SP 0 30 0.9996 0 0).ToXYZ 0 0 0 (some ⟨6378137, 0⟩)).2.2
      (some ⟨6378137, 0⟩) = (0, 6378137 * Real.sqrt 3 * (Real.sqrt 0.9996 - 1), 0) ∧
    ¬ |6378137 * Real.sqrt 3 * (Real.sqrt 0.9996 - 1) - 0| ≤ 0.001 := by
  refine ⟨lcc1_origin_sphere 6378137 0.9996 (by norm_num) (by norm_num), ?_⟩
  have h1 : Real.sqrt 0.9996 ≤ 0.9998 := by
    rw [Real.sqrt_le_left (by norm_num)]
    norm_num
  have h3 : (1:ℝ) ≤ Real.sqrt 3 := by
    rw [Real.le_sqrt' (by norm_num)]
    norm_num
  rw [abs_le]
  intro h
  nlinarith [h.1]

/-! ## C10: the UTM and Gauss-Krüger presets -/

/-- C10: `utm(zone, northern)` is `transverseMercator(zone·6 − 183, 0, 0.9996, 500000, fn)`
with `fn = 0` when northern and `10000000` otherwise, `gk(zone)` is
`transverseMercator(zone·3, 0, 1, zone·1000000 + 500000, 0)`, and for every point and
ellipsoid `utm(zone, false).FromXYZ` returns the same easting and height as
`utm(zone, true).FromXYZ` and a northing larger by exactly `10000000`. -/
theorem utm_gk_presets :
    (∀ zone : ℝ, utm zone true = transverseMercator (zone * 6 - 183) 0 0.9996 500000 0) ∧
    (∀ zone : ℝ, utm zone false = transverseMercator (zone * 6 - 183) 0 0.9996 500000 10000000) ∧
    (∀ zone : ℝ, gk zone = transverseMercator (zone * 3) 0 1 (zone * 1000000 + 500000) 0) ∧
    (∀ (zone x y z : ℝ) (s : Option spheroid),
      ((utm zone false).FromXYZ x y z s).1 = ((utm zone true).FromXYZ x y z s).1 ∧
      ((utm zone false).FromXYZ x y z s).2.1 = ((utm zone true).FromXYZ x y z s).2.1 + 10000000 ∧
      ((utm zone false).FromXYZ x y z s).2.2 = ((utm zone true).FromXYZ x y z s).2.2) := by
  refine ⟨fun _ => rfl, fun _ => rfl, fun _ => rfl, ?_⟩
  intro zone x y z s
  rw [utm_true, utm_false]
  simp only [transverseMercator, system.FromXYZ, transverseMercator.fromXYZ]
  refine ⟨trivial, ?_, trivial⟩
  ring

/-! ## C11: the facade fallbacks -/

/-- C11: a system with neither `toXYZ` nor `fromXYZ` behaves as `lonLat()` in both
directions, for every input and every ellipsoid argument (given or absent); and every
system called with no ellipsoid behaves as when called with `Datum().Spheroid`. -/
theorem facade_fallback :
    (∀ (a b c : ℝ) (s : Option spheroid),
      (system.mk none none).ToXYZ a b c s = lonLat.ToXYZ a b c s) ∧
    (∀ (x y z : ℝ) (s : Option spheroid),
      (system.mk none none).FromXYZ x y z s = lonLat.FromXYZ x y z s) ∧
    (∀ (sys : system) (a b c : ℝ),
      sys.ToXYZ a b c none = sys.ToXYZ a b c (some Datum.Spheroid)) ∧
    (∀ (sys : system) (x y z : ℝ),
      sys.FromXYZ x y z none = sys.FromXYZ x y z (some Datum.Spheroid)) :=
  ⟨fun _ _ _ _ => rfl, fun _ _ _ _ => rfl, fun _ _ _ _ => rfl, fun _ _ _ _ => rfl⟩

/-! ## C12: the quadrant of the longitude -/

/-- C12 (counterexample): at the geocentric point `(-1, -0.0, 0)`, where `(x, y) ≠ (0, 0)`,
the inverse returns the longitude `-180`, which is not above `-180`. -/
theorem lonLat_longitude_negative_zero :
    ((-1 : ℝ) ≠ 0 ∨ (0 : ℝ) ≠ 0) ∧
    (lonLat.fromXYZ.signed true false (-1) 0 0 ⟨6378137, 1 / 298.257223563⟩).1 = -180 ∧
    ¬ (-180 < (lonLat.fromXYZ.signed true false (-1) 0 0 ⟨6378137, 1 / 298.257223563⟩).1) := by
  have h : (lonLat.fromXYZ.signed true false (-1) 0 0 ⟨6378137, 1 / 298.257223563⟩).1 =
      -180 := by
    show degree (math.Atan2.signed true false 0 (-1)) = -180
    unfold math.Atan2.signed
    rw [if_pos ⟨rfl, Or.inl (by norm_num)⟩, if_pos rfl]
    unfold degree
    field_simp
    ring
  refine ⟨Or.inl (by norm_num), h, ?_⟩
  rw [h]
  exact lt_irrefl _

/-- C12 (amended): for every ellipsoid and every geocentric `(x, y, z)` with
`(x, y) ≠ (0, 0)`, whatever the signs of its zeros, the longitude `lon` returned by the
inverse satisfies `-180 ≤ lon ≤ 180`, `x = sd·cos(lon·π/180)` and `y = sd·sin(lon·π/180)`
with `sd = √(x² + y²)`; for `x = 0` it is `90` when `y > 0` and `-90` when `y < 0`. -/
theorem lonLat_longitude_quadrant (yneg xneg : Bool) (sph : spheroid) (x y z : ℝ)
    (hxy : x ≠ 0 ∨ y ≠ 0) :
    -180 ≤ (lonLat.fromXYZ.signed yneg xneg x y z sph).1 ∧
    (lonLat.fromXYZ.signed yneg xneg x y z sph).1 ≤ 180 ∧
    x = Real.sqrt (x ^ 2 + y ^ 2) *
      cos ((lonLat.fromXYZ.signed yneg xneg x y z sph).1 * π / 180) ∧
    y = Real.sqrt (x ^ 2 + y ^ 2) *
      sin ((lonLat.fromXYZ.signed yneg xneg x y z sph).1 * π / 180) ∧
    (x = 0 → 0 < y → (lonLat.fromXYZ.signed yneg xneg x y z sph).1 = 90) ∧
    (x = 0 → y < 0 → (lonLat.fromXYZ.signed yneg xneg x y z sph).1 = -90) := by
  obtain ⟨h1, h2, h3, h4, h5⟩ := math.Atan2_signed_spec yneg xneg x y hxy
  have hlon : (lonLat.fromXYZ.signed yneg xneg x y z sph).1 =
      degree (math.Atan2.signed yneg xneg y x) := rfl
  have hback : degree (math.Atan2.signed yneg xneg y x) * π / 180 =
      math.Atan2.signed yneg xneg y x := by
    have := radian_degree (math.Atan2.signed yneg xneg y x)
    unfold radian at this
    exact this
  rw [hlon, hback]
  have hd : ∀ r : ℝ, degree r = r * (180 / π) := fun r => by unfold degree; ring
  have hk : (0:ℝ) < 180 / π := div_pos (by norm_num) pi_pos
  have hpi : π * (180 / π) = 180 := by field_simp
  refine ⟨?_, ?_, h3, h4, ?_, ?_⟩
  · have := mul_le_mul_of_nonneg_right h1 hk.le
    rw [neg_mul, hpi] at this
    rw [hd]; exact this
  · have := mul_le_mul_of_nonneg_right h2 hk.le
    rw [hpi] at this
    rw [hd]; exact this
  · intro hx hy
    have : Complex.arg ⟨x, y⟩ = π / 2 := Complex.arg_eq_pi_div_two_iff.mpr ⟨hx, hy⟩
    rw [h5 hy.ne', this, hd]
    field_simp
    ring
  · intro hx hy
    have : Complex.arg ⟨x, y⟩ = -(π / 2) := Complex.arg_eq_neg_pi_div_two_iff.mpr ⟨hx, hy⟩
    rw [h5 hy.ne, this, hd]
    field_simp
    ring

/-- C12 (amended) at the point `(-1, -0.0, 0)` on the WGS84 ellipsoid. -/
theorem lonLat_longitude_quadrant_example :
    ((-1 : ℝ) ≠ 0 ∨ (0 : ℝ) ≠ 0) ∧
    -180 ≤ (lonLat.fromXYZ.signed true false (-1) 0 0 ⟨6378137, 1 / 298.257223563⟩).1 ∧
    (lonLat.fromXYZ.signed true false (-1) 0 0 ⟨6378137, 1 / 298.257223563⟩).1 ≤ 180 :=
  ⟨Or.inl (by norm_num),
   (lonLat_longitude_quadrant true false ⟨6378137, 1 / 298.257223563⟩ (-1) 0 0
     (Or.inl (by norm_num))).1,
   (lonLat_longitude_quadrant true false ⟨6378137, 1 / 298.257223563⟩ (-1) 0 0
     (Or.inl (by norm_num))).2.1⟩

/-! ## C13: the Albers helper `q` on a sphere -/

/-- C13 (evaluation on the sphere): on every sphere and at every latitude the divisor
`2·E` of `1/(2·E)` in the helper `q` of `albersEqualAreaConic` is zero and the logarithm it
multiplies is `log 1 = 0`, so Go computes `+Inf · 0`; and the value the total real
expression has at `A = 6378137`, `φ = π/6` is not the spherical value `2·sin φ`. -/
theorem albers_q_sphere_zero_divisor :
    (∀ a φ : ℝ, 2 * (⟨a, 0⟩ : spheroid).E = 0 ∧
      Real.log ((1 - (⟨a, 0⟩ : spheroid).E * sin φ) / (1 + (⟨a, 0⟩ : spheroid).E * sin φ)) = 0) ∧
    albersEqualAreaConic.q (π / 6) ⟨6378137, 0⟩ ≠ 2 * sin (π / 6) := by
  refine ⟨fun a φ => ?_, ?_⟩
  · simp [spheroid.E_sphere]
  · simp [albersEqualAreaConic.q, spheroid.E_sphere, spheroid.E2_sphere]

/-! ## C14: the projection origin -/

/-- C14 (counterexample): for `lambertConformalConic1SP` with `latf = 0` on the WGS84
ellipsoid (`lonf = 0`, `scale = 1`, false origin `(0, 0)`) the cone constant `n = sin 0` is
zero, the closure `F` divides by `n·t^n = 0`, and `fromXYZ` applied to
`lonLat().ToXYZ(0, 0, 0)` does not return real numbers, so not `(0, 0, 0)`. -/
theorem lambert1SP_equator_not_a_number :
    0 < (⟨6378137, 1 / 298.257223563⟩ : spheroid).A ∧
    0 ≤ (⟨6378137, 1 / 298.257223563⟩ : spheroid).F ∧
    (⟨6378137, 1 / 298.257223563⟩ : spheroid).F < 1 ∧
    lambertConformalConic1SP.fromXYZ.checked 0 0 1 0 0
      (lonLat.ToXYZ 0 0 0 (some ⟨6378137, 1 / 298.257223563⟩)).1
      (lonLat.ToXYZ 0 0 0 (some ⟨6378137, 1 / 298.257223563⟩)).2.1
      (lonLat.ToXYZ 0 0 0 (some ⟨6378137, 1 / 298.257223563⟩)).2.2
      ⟨6378137, 1 / 298.257223563⟩ = none ∧
    lambertConformalConic1SP.fromXYZ.checked 0 0 1 0 0
      (lonLat.ToXYZ 0 0 0 (some ⟨6378137, 1 / 298.257223563⟩)).1
      (lonLat.ToXYZ 0 0 0 (some ⟨6378137, 1 / 298.257223563⟩)).2.1
      (lonLat.ToXYZ 0 0 0 (some ⟨6378137, 1 / 298.257223563⟩)).2.2
      ⟨6378137, 1 / 298.257223563⟩ ≠ some (0, 0, 0) := by
  have hn : lambertConformalConic1SP.n 0 = 0 := by
    simp [lambertConformalConic1SP.n, radian_zero]
  have hb : ∀ o : Option ℝ, (o.bind fun _ => (none : Option ℝ)) = none := fun o => by
    cases o <;> rfl
  have hF : lambertConformalConic1SP.F.checked 0 ⟨6378137, 1 / 298.257223563⟩ = none := by
    simp only [lambertConformalConic1SP.F.checked, hn, zero_mul, float64.div_zero, hb]
  have hρ : ∀ φ, lambertConformalConic1SP.ρ.checked 0 1 φ ⟨6378137, 1 / 298.257223563⟩ =
      none := fun φ => by
    unfold lambertConformalConic1SP.ρ.checked
    rw [hF]
    rfl
  have hres : ∀ x y z, lambertConformalConic1SP.fromXYZ.checked 0 0 1 0 0 x y z
      ⟨6378137, 1 / 298.257223563⟩ = none := fun x y z => by
    unfold lambertConformalConic1SP.fromXYZ.checked
    rw [hρ]
    rfl
  refine ⟨by norm_num [spheroid.A], by norm_num [spheroid.F], by norm_num [spheroid.F],
    hres _ _ _, ?_⟩
  rw [hres]
  exact Option.noConfusion

/-- C14 (amended): for every ellipsoid with `A > 0` and `0 ≤ F < 1`, every `lonf` in
`(-180, 180]` and `latf` in `(-90, 90)`, `fromXYZ` applied to `lonLat().ToXYZ(lonf, latf, 0)`
returns real numbers and they are `(eastf, northf, 0)`: for `transverseMercator` always;
for `lambertConformalConic1SP` when `latf ≠ 0` and `scale > 0`; for
`lambertConformalConic2SP` when `lat1`, `lat2` are in `(-90, 90)`, `n ≠ 0` and
`t(lat1) ≠ t(lat2)` unless `lat1 = lat2`; for `albersEqualAreaConic` when `F > 0`, `n ≠ 0`,
`q(lat1) ≠ q(lat2)` unless `lat1 = lat2`, and the radicand of `ρ(latf)` is not negative; for
`equidistantConic` when `n ≠ 0` and `M(lat1) ≠ M(lat2)` unless `lat1 = lat2`. -/
theorem projection_origin_to_false_origin (sph : spheroid) (hA : 0 < sph.A) (_hF0 : 0 ≤ sph.F)
    (hF1 : sph.F < 1) (lonf latf eastf northf : ℝ) (hlon1 : -180 < lonf) (hlon2 : lonf ≤ 180)
    (hlat1 : -90 < latf) (hlat2 : latf < 90) :
    (∀ scale : ℝ, (transverseMercator lonf latf scale eastf northf).FromXYZ
      (lonLat.ToXYZ lonf latf 0 (some sph)).1 (lonLat.ToXYZ lonf latf 0 (some sph)).2.1
      (lonLat.ToXYZ lonf latf 0 (some sph)).2.2 (some sph) = (eastf, northf, 0)) ∧
    (∀ scale : ℝ, latf ≠ 0 → 0 < scale →
      lambertConformalConic1SP.fromXYZ.checked lonf latf scale eastf northf
        (lonLat.ToXYZ lonf latf 0 (some sph)).1 (lonLat.ToXYZ lonf latf 0 (some sph)).2.1
        (lonLat.ToXYZ lonf latf 0 (some sph)).2.2 sph = some (eastf, northf, 0)) ∧
    (∀ lat1 lat2 : ℝ, -90 < lat1 → lat1 < 90 → -90 < lat2 → lat2 < 90 →
      lambertConformalConic2SP.n lat1 lat2 sph ≠ 0 →
      (lat1 ≠ lat2 → lambertConformalConic2SP.t (radian lat1) sph ≠
        lambertConformalConic2SP.t (radian lat2) sph) →
      lambertConformalConic2SP.fromXYZ.checked lonf latf lat1 lat2 eastf northf
        (lonLat.ToXYZ lonf latf 0 (some sph)).1 (lonLat.ToXYZ lonf latf 0 (some sph)).2.1
        (lonLat.ToXYZ lonf latf 0 (some sph)).2.2 sph = some (eastf, northf, 0)) ∧
    (∀ lat1 lat2 : ℝ, 0 < sph.F → albersEqualAreaConic.n lat1 lat2 sph ≠ 0 →
      (lat1 ≠ lat2 → albersEqualAreaConic.q (radian lat1) sph ≠
        albersEqualAreaConic.q (radian lat2) sph) →
      0 ≤ albersEqualAreaConic.C lat1 lat2 sph -
        albersEqualAreaConic.n lat1 lat2 sph * albersEqualAreaConic.q (radian latf) sph →
      albersEqualAreaConic.fromXYZ.checked lonf latf lat1 lat2 eastf northf
        (lonLat.ToXYZ lonf latf 0 (some sph)).1 (lonLat.ToXYZ lonf latf 0 (some sph)).2.1
        (lonLat.ToXYZ lonf latf 0 (some sph)).2.2 sph = some (eastf, northf, 0)) ∧
    (∀ lat1 lat2 : ℝ, equidistantConic.n lat1 lat2 sph ≠ 0 →
      (lat1 ≠ lat2 → equidistantConic.M (radian lat1) sph ≠
        equidistantConic.M (radian lat2) sph) →
      equidistantConic.fromXYZ.checked lonf latf lat1 lat2 eastf northf
        (lonLat.ToXYZ lonf latf 0 (some sph)).1 (lonLat.ToXYZ lonf latf 0 (some sph)).2.1
        (lonLat.ToXYZ lonf latf 0 (some sph)).2.2 sph = some (eastf, northf, 0)) := by
  have h := lonLat_roundtrip_surface sph hA hF1 lonf latf hlon1 hlon2 hlat1 hlat2
  obtain ⟨hr1, hr2⟩ := radian_lat_range latf hlat1 hlat2
  refine ⟨?_, ?_, ?_, ?_, ?_⟩
  · intro scale
    rw [transverseMercator, system_FromXYZ_some]
    simp only [transverseMercator.fromXYZ, h]
    simp [math.Pow]
  · intro scale h0 hs
    simp only [lambertConformalConic1SP.fromXYZ.checked, h,
      lcc1_ρ_checked sph hF1 latf scale (radian latf) hlat1 hlat2 h0 hs hr1 hr2,
      Option.some_bind]
    simp
  · intro lat1 lat2 h1 h1' h2 h2' hn ht
    obtain ⟨hnc, hρc⟩ := lcc2_ρ_checked sph hF1 lat1 lat2 (radian latf) h1 h1' h2 h2' hn ht
      hr1 hr2
    simp only [lambertConformalConic2SP.fromXYZ.checked, h, hnc, hρc, Option.some_bind]
    simp
  · intro lat1 lat2 hF0 hn hq hrad
    obtain ⟨hnc, hρc⟩ := albers_ρ_checked sph hF0 hF1 lat1 lat2 (radian latf) hn hq hrad
    simp only [albersEqualAreaConic.fromXYZ.checked, h, hnc, hρc, Option.some_bind]
    simp
  · intro lat1 lat2 hn hM
    obtain ⟨hnc, hρc⟩ := equidistant_ρ_checked sph hA hF1 lat1 lat2 (radian latf) hn hM
    simp only [equidistantConic.fromXYZ.checked, h, hnc, hρc, Option.some_bind]
    simp

/-- C14 (amended) with origin `(3, 30)` and false origin `(500000, 0)`: on the WGS84
ellipsoid for `transverseMercator`, `lambertConformalConic1SP` (scale `0.9996`) and
`albersEqualAreaConic` with the standard parallels `0` and `30`; on the sphere
`A = 6378137` for `lambertConformalConic2SP` and `equidistantConic` with the standard
parallels `0` and `60`. -/
theorem projection_origin_to_false_origin_examples :
    0 < (⟨6378137, 1 / 298.257223563⟩ : spheroid).A ∧
    0 < (⟨6378137, 1 / 298.257223563⟩ : spheroid).F ∧
    (⟨6378137, 1 / 298.257223563⟩ : spheroid).F < 1 ∧
    (transverseMercator 3 30 0.9996 500000 0).FromXYZ
      (lonLat.ToXYZ 3 30 0 (some ⟨6378137, 1 / 298.257223563⟩)).1
      (lonLat.ToXYZ 3 30 0 (some ⟨6378137, 1 / 298.257223563⟩)).2.1
      (lonLat.ToXYZ 3 30 0 (some ⟨6378137, 1 / 298.257223563⟩)).2.2
      (some ⟨6378137, 1 / 298.257223563⟩) = (500000, 0, 0) ∧
    lambertConformalConic1SP.fromXYZ.checked 3 30 0.9996 500000 0
      (lonLat.ToXYZ 3 30 0 (some ⟨6378137, 1 / 298.257223563⟩)).1
      (lonLat.ToXYZ 3 30 0 (some ⟨6378137, 1 / 298.257223563⟩)).2.1
      (lonLat.ToXYZ 3 30 0 (some ⟨6378137, 1 / 298.257223563⟩)).2.2
      ⟨6378137, 1 / 298.257223563⟩ = some (500000, 0, 0) ∧
    albersEqualAreaConic.fromXYZ.checked 3 30 0 30 500000 0
      (lonLat.ToXYZ 3 30 0 (some ⟨6378137, 1 / 298.257223563⟩)).1
      (lonLat.ToXYZ 3 30 0 (some ⟨6378137, 1 / 298.257223563⟩)).2.1
      (lonLat.ToXYZ 3 30 0 (some ⟨6378137, 1 / 298.257223563⟩)).2.2
      ⟨6378137, 1 / 298.257223563⟩ = some (500000, 0, 0) ∧
    lambertConformalConic2SP.fromXYZ.checked 3 30 0 60 500000 0
      (lonLat.ToXYZ 3 30 0 (some ⟨6378137, 0⟩)).1 (lonLat.ToXYZ 3 30 0 (some ⟨6378137, 0⟩)).2.1
      (lonLat.ToXYZ 3 30 0 (some ⟨6378137, 0⟩)).2.2 ⟨6378137, 0⟩ = some (500000, 0, 0) ∧
    equidistantConic.fromXYZ.checked 3 30 0 60 500000 0
      (lonLat.ToXYZ 3 30 0 (some ⟨6378137, 0⟩)).1 (lonLat.ToXYZ 3 30 0 (some ⟨6378137, 0⟩)).2.1
      (lonLat.ToXYZ 3 30 0 (some ⟨6378137, 0⟩)).2.2 ⟨6378137, 0⟩ = some (500000, 0, 0) :=
  have H := projection_origin_to_false_origin ⟨6378137, 1 / 298.257223563⟩
    (by norm_num [spheroid.A]) (by norm_num [spheroid.F]) (by norm_num [spheroid.F])
    3 30 500000 0 (by norm_num) (by norm_num) (by norm_num) (by norm_num)
  have S := projection_origin_to_false_origin ⟨6378137, 0⟩
    (by norm_num [spheroid.A]) (by norm_num [spheroid.F]) (by norm_num [spheroid.F])
    3 30 500000 0 (by norm_num) (by norm_num) (by norm_num) (by norm_num)
  have ha := albers_0_30 ⟨6378137, 1 / 298.257223563⟩ (by norm_num [spheroid.F])
    (by norm_num [spheroid.F])
  ⟨by norm_num [spheroid.A], by norm_num [spheroid.F], by norm_num [spheroid.F],
   H.1 0.9996,
   H.2.1 0.9996 (by norm_num) (by norm_num),
   H.2.2.2.1 0 30 (by norm_num [spheroid.F]) ha.1 (fun _ => ha.2.1) ha.2.2,
   S.2.2.1 0 60 (by norm_num) (by norm_num) (by norm_num) (by norm_num)
     (lcc2_sphere_0_60 6378137).1 (fun _ => (lcc2_sphere_0_60 6378137).2),
   S.2.2.2.2 0 60 (equidistant_sphere_0_60 6378137 (by norm_num)).1
     (fun _ => (equidistant_sphere_0_60 6378137 (by norm_num)).2)⟩

/-! ## C15: Lambert 2SP is true-scale on its standard parallels -/

/-- C15: for every ellipsoid with `A > 0` and `0 ≤ E < 1`, every `lat1`, `lat2` strictly
between `-90` and `90` with cone constant `n ≠ 0` and, unless `lat1 = lat2`,
`t(lat1) ≠ t(lat2)`, the radial distance of `lambertConformalConic2SP` satisfies
`ρ(lat1)·n = A·m(lat1)` and `ρ(lat2)·n = A·m(lat2)`. -/
theorem lambert2SP_true_scale (sph : spheroid) (lat1 lat2 : ℝ) (_hA : 0 < sph.A)
    (_hE0 : 0 ≤ sph.E) (hE1 : sph.E < 1)
    (h1 : -90 < lat1) (h1' : lat1 < 90) (h2 : -90 < lat2) (h2' : lat2 < 90)
    (hn : lambertConformalConic2SP.n lat1 lat2 sph ≠ 0)
    (ht : lat1 ≠ lat2 → lambertConformalConic2SP.t (radian lat1) sph ≠
      lambertConformalConic2SP.t (radian lat2) sph) :
    lambertConformalConic2SP.ρ lat1 lat2 (radian lat1) sph *
        lambertConformalConic2SP.n lat1 lat2 sph =
      sph.A * lambertConformalConic2SP.m (radian lat1) sph ∧
    lambertConformalConic2SP.ρ lat1 lat2 (radian lat2) sph *
        lambertConformalConic2SP.n lat1 lat2 sph =
      sph.A * lambertConformalConic2SP.m (radian lat2) sph := by
  obtain ⟨ht1, hm1⟩ := lcc2_t_m_pos sph hE1 (radian lat1) (radian_lat_range lat1 h1 h1').1
    (radian_lat_range lat1 h1 h1').2
  obtain ⟨ht2, hm2⟩ := lcc2_t_m_pos sph hE1 (radian lat2) (radian_lat_range lat2 h2 h2').1
    (radian_lat_range lat2 h2 h2').2
  have hp1 : 0 < math.Pow (lambertConformalConic2SP.t (radian lat1) sph)
      (lambertConformalConic2SP.n lat1 lat2 sph) := Real.rpow_pos_of_pos ht1 _
  have first : lambertConformalConic2SP.ρ lat1 lat2 (radian lat1) sph *
        lambertConformalConic2SP.n lat1 lat2 sph =
      sph.A * lambertConformalConic2SP.m (radian lat1) sph := by
    unfold lambertConformalConic2SP.ρ lambertConformalConic2SP.F
    field_simp
    ring
  refine ⟨first, ?_⟩
  by_cases h : lat1 = lat2
  · subst h; exact first
  · have hr : radian lat1 ≠ radian lat2 := fun e => h (radian_injective e)
    have hL : Real.log (lambertConformalConic2SP.t (radian lat1) sph) ≠
        Real.log (lambertConformalConic2SP.t (radian lat2) sph) := fun e =>
      ht h (Real.log_injOn_pos (Set.mem_Ioi.mpr ht1) (Set.mem_Ioi.mpr ht2) e)
    have hnv : lambertConformalConic2SP.n lat1 lat2 sph =
        (Real.log (lambertConformalConic2SP.m (radian lat1) sph) -
          Real.log (lambertConformalConic2SP.m (radian lat2) sph)) /
        (Real.log (lambertConformalConic2SP.t (radian lat1) sph) -
          Real.log (lambertConformalConic2SP.t (radian lat2) sph)) := by
      unfold lambertConformalConic2SP.n
      rw [if_neg hr]
    have key := cone_pow_ratio _ _ _ _ ht1 ht2 hm1 hm2 hL
    rw [← hnv] at key
    unfold lambertConformalConic2SP.ρ lambertConformalConic2SP.F
    rw [key]
    field_simp
    ring

/-- C15 on the sphere `A = 6378137` with the standard parallels `0` and `60`. -/
theorem lambert2SP_true_scale_sphere :
    0 < (⟨6378137, 0⟩ : spheroid).A ∧ 0 ≤ (⟨6378137, 0⟩ : spheroid).E ∧
    (⟨6378137, 0⟩ : spheroid).E < 1 ∧
    lambertConformalConic2SP.n 0 60 ⟨6378137, 0⟩ ≠ 0 ∧
    lambertConformalConic2SP.ρ 0 60 (radian 0) ⟨6378137, 0⟩ *
        lambertConformalConic2SP.n 0 60 ⟨6378137, 0⟩ =
      (⟨6378137, 0⟩ : spheroid).A * lambertConformalConic2SP.m (radian 0) ⟨6378137, 0⟩ ∧
    lambertConformalConic2SP.ρ 0 60 (radian 60) ⟨6378137, 0⟩ *
        lambertConformalConic2SP.n 0 60 ⟨6378137, 0⟩ =
      (⟨6378137, 0⟩ : spheroid).A * lambertConformalConic2SP.m (radian 60) ⟨6378137, 0⟩ :=
  ⟨by norm_num [spheroid.A], by rw [spheroid.E_sphere], by rw [spheroid.E_sphere]; norm_num,
   (lcc2_sphere_0_60 6378137).1,
   lambert2SP_true_scale ⟨6378137, 0⟩ 0 60 (by norm_num [spheroid.A])
     (by rw [spheroid.E_sphere]) (by rw [spheroid.E_sphere]; norm_num)
     (by norm_num) (by norm_num) (by norm_num) (by norm_num)
     (lcc2_sphere_0_60 6378137).1 (fun _ => (lcc2_sphere_0_60 6378137).2)⟩

/-! ## C16: Albers on its standard parallels -/

/-- C16 (evaluation at the failing input): on the sphere `A = 6378137`, `F = 0` with
`lat1 = lat2 = 30` the claim's conditions hold (`A > 0`, `n = 1/2 ≠ 0`), and in `q(lat1)`
the divisor `2·E` is zero while the logarithm it multiplies is `0`: Go computes
`+Inf · 0`, so `q`, `C` and `ρ` are not numbers. -/
theorem albers_sphere_true_scale_divides_by_zero :
    0 < (⟨6378137, 0⟩ : spheroid).A ∧
    albersEqualAreaConic.n 30 30 ⟨6378137, 0⟩ = 1 / 2 ∧
    2 * (⟨6378137, 0⟩ : spheroid).E = 0 ∧
    Real.log ((1 - (⟨6378137, 0⟩ : spheroid).E * sin (radian 30)) /
      (1 + (⟨6378137, 0⟩ : spheroid).E * sin (radian 30))) = 0 := by
  refine ⟨by norm_num [spheroid.A], ?_, by simp [spheroid.E_sphere], by simp [spheroid.E_sphere]⟩
  unfold albersEqualAreaConic.n
  rw [if_pos rfl, radian_30, Real.sin_pi_div_six]

/-! ## C17: Equidistant Conic is true-scale on its standard parallels -/

/-- C17: for every ellipsoid with `A > 0` and every `lat1`, `lat2` with cone constant
`n ≠ 0` and, unless `lat1 = lat2`, `M(lat1) ≠ M(lat2)`, the radial distance of
`equidistantConic` satisfies `ρ(lat1)·n = A·m(lat1)` and `ρ(lat2)·n = A·m(lat2)`. -/
theorem equidistantConic_true_scale (sph : spheroid) (lat1 lat2 : ℝ) (hA : 0 < sph.A)
    (hn : equidistantConic.n lat1 lat2 sph ≠ 0)
    (hM : lat1 ≠ lat2 → equidistantConic.M (radian lat1) sph ≠
      equidistantConic.M (radian lat2) sph) :
    equidistantConic.ρ lat1 lat2 (radian lat1) sph * equidistantConic.n lat1 lat2 sph =
      sph.A * equidistantConic.m (radian lat1) sph ∧
    equidistantConic.ρ lat1 lat2 (radian lat2) sph * equidistantConic.n lat1 lat2 sph =
      sph.A * equidistantConic.m (radian lat2) sph := by
  have hA0 : sph.A ≠ 0 := hA.ne'
  have first : equidistantConic.ρ lat1 lat2 (radian lat1) sph *
      equidistantConic.n lat1 lat2 sph = sph.A * equidistantConic.m (radian lat1) sph := by
    unfold equidistantConic.ρ equidistantConic.G
    field_simp
    ring
  refine ⟨first, ?_⟩
  by_cases h : lat1 = lat2
  · subst h; exact first
  · have hr : radian lat1 ≠ radian lat2 := fun e => h (radian_injective e)
    have hM2 : equidistantConic.M (radian lat2) sph - equidistantConic.M (radian lat1) sph ≠ 0 :=
      sub_ne_zero.mpr (fun e => hM h e.symm)
    have hnv : equidistantConic.n lat1 lat2 sph =
        sph.A * (equidistantConic.m (radian lat1) sph - equidistantConic.m (radian lat2) sph) /
          (equidistantConic.M (radian lat2) sph - equidistantConic.M (radian lat1) sph) := by
      unfold equidistantConic.n
      rw [if_neg hr]
    have e1 : equidistantConic.ρ lat1 lat2 (radian lat2) sph * equidistantConic.n lat1 lat2 sph =
        sph.A * equidistantConic.m (radian lat1) sph -
          (equidistantConic.M (radian lat2) sph - equidistantConic.M (radian lat1) sph) *
            equidistantConic.n lat1 lat2 sph := by
      unfold equidistantConic.ρ equidistantConic.G
      field_simp
      ring
    rw [e1, hnv]
    field_simp
    ring

/-- C17 on the sphere `A = 6378137` with the standard parallels `0` and `60`. -/
theorem equidistantConic_true_scale_sphere :
    0 < (⟨6378137, 0⟩ : spheroid).A ∧ equidistantConic.n 0 60 ⟨6378137, 0⟩ ≠ 0 ∧
    equidistantConic.ρ 0 60 (radian 0) ⟨6378137, 0⟩ * equidistantConic.n 0 60 ⟨6378137, 0⟩ =
      (⟨6378137, 0⟩ : spheroid).A * equidistantConic.m (radian 0) ⟨6378137, 0⟩ ∧
    equidistantConic.ρ 0 60 (radian 60) ⟨6378137, 0⟩ * equidistantConic.n 0 60 ⟨6378137, 0⟩ =
      (⟨6378137, 0⟩ : spheroid).A * equidistantConic.m (radian 60) ⟨6378137, 0⟩ :=
  ⟨by norm_num [spheroid.A], (equidistant_sphere_0_60 6378137 (by norm_num)).1,
   equidistantConic_true_scale ⟨6378137, 0⟩ 0 60 (by norm_num [spheroid.A])
     (equidistant_sphere_0_60 6378137 (by norm_num)).1
     (fun _ => (equidistant_sphere_0_60 6378137 (by norm_num)).2)⟩

/-! ## C18: the geographic inverse is exact on the surface -/

/-- C18: for every ellipsoid with `A > 0` and `0 ≤ F < 1`, every `lon` in `(-180, 180]`
and every `lat` in `(-90, 90)`, `lonLat().FromXYZ(lonLat().ToXYZ(lon, lat, 0))` is exactly
`(lon, lat, 0)`. -/
theorem lonLat_surface_roundtrip_exact (sph : spheroid) (hA : 0 < sph.A) (_hF0 : 0 ≤ sph.F)
    (hF : sph.F < 1) (lon lat : ℝ) (hlon1 : -180 < lon) (hlon2 : lon ≤ 180)
    (hlat1 : -90 < lat) (hlat2 : lat < 90) :
    lonLat.FromXYZ (lonLat.ToXYZ lon lat 0 (some sph)).1 (lonLat.ToXYZ lon lat 0 (some sph)).2.1
      (lonLat.ToXYZ lon lat 0 (some sph)).2.2 (some sph) = (lon, lat, 0) :=
  lonLat_roundtrip_surface sph hA hF lon lat hlon1 hlon2 hlat1 hlat2

/-- C18 at the WGS84 ellipsoid, for `(lon, lat) = (116, 40)`. -/
theorem lonLat_surface_roundtrip_exact_wgs84 :
    0 < Datum.Spheroid.A ∧ 0 ≤ Datum.Spheroid.F ∧ Datum.Spheroid.F < 1 ∧
    lonLat.FromXYZ (lonLat.ToXYZ 116 40 0 (some Datum.Spheroid)).1
      (lonLat.ToXYZ 116 40 0 (some Datum.Spheroid)).2.1
      (lonLat.ToXYZ 116 40 0 (some Datum.Spheroid)).2.2 (some Datum.Spheroid) = (116, 40, 0) :=
  ⟨by norm_num [Datum.Spheroid, spheroid.A], by norm_num [Datum.Spheroid, spheroid.F],
    by norm_num [Datum.Spheroid, spheroid.F],
    lonLat_surface_roundtrip_exact Datum.Spheroid (by norm_num [Datum.Spheroid, spheroid.A])
      (by norm_num [Datum.Spheroid, spheroid.F]) (by norm_num [Datum.Spheroid, spheroid.F])
      116 40 (by norm_num) (by norm_num) (by norm_num) (by norm_num)⟩

/-! ## C19: zero-height points lie on the ellipsoid -/

/-- C19: for every ellipsoid with `A > 0` and `0 ≤ F < 1` and every `lon`, `lat`, the
point `(x, y, z) = lonLat().ToXYZ(lon, lat, 0)` satisfies `(x² + y²)/A² + z²/B² = 1`. -/
theorem lonLat_ToXYZ_on_ellipsoid (sph : spheroid) (hA : 0 < sph.A) (_hF0 : 0 ≤ sph.F)
    (hF : sph.F < 1) (lon lat : ℝ) :
    ((lonLat.ToXYZ lon lat 0 (some sph)).1 ^ 2 + (lonLat.ToXYZ lon lat 0 (some sph)).2.1 ^ 2) /
        sph.A ^ 2 + (lonLat.ToXYZ lon lat 0 (some sph)).2.2 ^ 2 / sph.B ^ 2 = 1 := by
  obtain ⟨a, F⟩ := sph
  simp only [spheroid.A, spheroid.F] at hA hF
  rw [lonLat_ToXYZ_some]
  simp only [lonLat.toXYZ, lonLat.N, spheroid.A, spheroid.F, spheroid.B, spheroid.E2, spheroid.A2,
    math.Pow_two, add_zero]
  have hsc := Real.sin_sq_add_cos_sq (radian lat)
  have hsc2 := Real.sin_sq_add_cos_sq (radian lon)
  have hk : 0 < 1 - F := by linarith
  have hW2 : 1 - (2 * F - F * F) * sin (radian lat) ^ 2 =
      cos (radian lat) ^ 2 + (1 - F) ^ 2 * sin (radian lat) ^ 2 := by
    linear_combination hsc.symm
  have hpos : 0 < 1 - (2 * F - F * F) * sin (radian lat) ^ 2 := by
    rw [hW2]
    rcases eq_or_ne (sin (radian lat)) 0 with h0 | h0
    · have : cos (radian lat) ^ 2 = 1 := by rw [h0] at hsc; linarith
      rw [h0, this]; norm_num
    · have : 0 < sin (radian lat) ^ 2 := by positivity
      have := mul_pos (pow_pos hk 2) this
      nlinarith [sq_nonneg (cos (radian lat))]
  obtain ⟨W, hWdef⟩ : ∃ W, W = Real.sqrt (1 - (2 * F - F * F) * sin (radian lat) ^ 2) := ⟨_, rfl⟩
  have hWpos : 0 < W := by rw [hWdef]; exact Real.sqrt_pos.mpr hpos
  have hWsq : W ^ 2 = cos (radian lat) ^ 2 + (1 - F) ^ 2 * sin (radian lat) ^ 2 := by
    rw [hWdef, Real.sq_sqrt hpos.le, hW2]
  rw [← hWdef]
  have ha : a ≠ 0 := hA.ne'
  have hk0 : 1 - F ≠ 0 := hk.ne'
  have hW0 : W ≠ 0 := hWpos.ne'
  field_simp
  linear_combination (W ^ 2 * a ^ 8 * (1 - F) ^ 2) * (cos (radian lat) ^ 2 * hsc2 - hWsq)

/-- C19 at the WGS84 ellipsoid, for `(lon, lat) = (116, 40)`. -/
theorem lonLat_ToXYZ_on_ellipsoid_wgs84 :
    0 < (⟨6378137, 1 / 298.257223563⟩ : spheroid).A ∧
    0 ≤ (⟨6378137, 1 / 298.257223563⟩ : spheroid).F ∧
    (⟨6378137, 1 / 298.257223563⟩ : spheroid).F < 1 ∧
    ((lonLat.ToXYZ 116 40 0 (some ⟨6378137, 1 / 298.257223563⟩)).1 ^ 2 +
        (lonLat.ToXYZ 116 40 0 (some ⟨6378137, 1 / 298.257223563⟩)).2.1 ^ 2) /
        (⟨6378137, 1 / 298.257223563⟩ : spheroid).A ^ 2 +
      (lonLat.ToXYZ 116 40 0 (some ⟨6378137, 1 / 298.257223563⟩)).2.2 ^ 2 /
        (⟨6378137, 1 / 298.257223563⟩ : spheroid).B ^ 2 = 1 :=
  ⟨by norm_num [spheroid.A], by norm_num [spheroid.F], by norm_num [spheroid.F],
   lonLat_ToXYZ_on_ellipsoid ⟨6378137, 1 / 298.257223563⟩ (by norm_num [spheroid.A])
     (by norm_num [spheroid.F]) (by norm_num [spheroid.F]) 116 40⟩

/-! ## C20: the exponent of the footpoint radius `R1` -/

/-- C20 (evaluation at the failing input): on the WGS84 ellipsoid at the footpoint latitude
`φ1 = π/6` the `R1` of `transverseMercator`'s `toXYZ` is `A(1 - E²)/(1 - E² sin² φ1)`, the
denominator to the power one (the Go constant `3/2` is the integer `1`), and it differs
from the meridional radius `A(1 - E²)/(1 - E² sin² φ1)^(3/2)`. -/
theorem transverseMercator_R1_exponent_is_one :
    transverseMercator.toXYZ.R1 (π / 6) Datum.Spheroid =
      Datum.Spheroid.A * (1 - Datum.Spheroid.E2) / (1 - Datum.Spheroid.E2 * sin2 (π / 6)) ∧
    transverseMercator.toXYZ.R1 (π / 6) Datum.Spheroid ≠
      Datum.Spheroid.A * (1 - Datum.Spheroid.E2) /
        math.Pow (1 - Datum.Spheroid.E2 * sin2 (π / 6)) (3 / 2) := by
  obtain ⟨h0, h1⟩ := Datum_E2_bounds
  have hs : sin2 (π / 6) = 1 / 4 := by
    rw [sin2, math.Pow_two, Real.sin_pi_div_six]; norm_num
  have hA : Datum.Spheroid.A = 6378137 := rfl
  obtain ⟨e, he⟩ : ∃ e, e = Datum.Spheroid.E2 := ⟨_, rfl⟩
  rw [← he] at h0 h1 ⊢
  have hx0 : 0 < 1 - e * (1 / 4) := by linarith
  have hx1 : 1 - e * (1 / 4) < 1 := by linarith
  have hone : transverseMercator.toXYZ.R1 (π / 6) Datum.Spheroid =
      Datum.Spheroid.A * (1 - e) / (1 - e * sin2 (π / 6)) := by
    rw [transverseMercator.toXYZ.R1, ← he]
    have : ((3 / 2 : ℕ) : ℝ) = 1 := by norm_num
    rw [this, math.Pow, Real.rpow_one]
  refine ⟨hone, ?_⟩
  rw [hone, hs, hA]
  have hpow : math.Pow (1 - e * (1 / 4)) (3 / 2) =
      (1 - e * (1 / 4)) * Real.sqrt (1 - e * (1 / 4)) := by
    rw [math.Pow, Real.sqrt_eq_rpow]
    have : (3 / 2 : ℝ) = 1 + 1 / 2 := by norm_num
    rw [this, Real.rpow_add hx0, Real.rpow_one]
  rw [hpow]
  have hsq0 : 0 < Real.sqrt (1 - e * (1 / 4)) := Real.sqrt_pos.mpr hx0
  have hsq1 : Real.sqrt (1 - e * (1 / 4)) < 1 := by
    rw [Real.sqrt_lt' (by norm_num)]; linarith
  intro h
  rw [div_eq_div_iff hx0.ne' (mul_pos hx0 hsq0).ne'] at h
  have h2 : (6378137 * (1 - e) * (1 - e * (1 / 4))) * (Real.sqrt (1 - e * (1 / 4)) - 1) = 0 := by
    linear_combination h
  have h3 : 0 < 6378137 * (1 - e) * (1 - e * (1 / 4)) := by
    have : 0 < 1 - e := by linarith
    positivity
  rcases mul_eq_zero.mp h2 with h4 | h4
  · exact h3.ne' h4
  · linarith
